import Mathlib

/-!
# The host/guest value bridge of `V8Context.cpp`

A shallow embedding of the value marshalling code of the bridge between the
reference-counted host runtime (Perl) and the garbage-collected guest runtime (V8):
`sv2v8` and its helpers `rv2v8`, `av2array`, `hv2object`; `v82sv` and its helpers
`array2sv`, `object2sv`, `object2blessed`, `function2sv`; the call proxies
`check_perl_error`, `PerlFunctionData::invoke`, `v8closure`; `error_message`,
`set_perl_error` and `V8Context::eval`.

Conventions of the embedding.

* Host memory is a list of referents; the address of a referent (`PTR2IV`) is its index.
  Guest memory is a list of guest objects; a handle to an object is its index.
* The integer slot of a host scalar holds a mathematical integer; reading it as an `IV`
  wraps it to 64 bits, signed. The `int32` bounds of the guest are explicit.
* A C string is a `String` whose characters stand for its bytes. A guest string made by
  `String::New(key, len)` is taken to be the string of the same characters, which is what
  the engine yields for ASCII bytes (`ascii`); the engine decodes other bytes as UTF-8
  and may give two host keys the same guest name.
* A guest object is its list of own properties and its prototype; `Has`, `Get` and
  `GetPropertyNames` follow the prototype chain down to the properties every object
  inherits from `Object.prototype` (`V8Context.inherited`). `Set` stores an own property;
  that is what the engine does for every name other than `__proto__`, which it treats as
  the prototype. Theorems that read back stored names say for which names they hold.
* Host and guest doubles are kept symbolic (`NV`): no floating-point arithmetic is modelled.
* The guest engine itself is not part of the sources; what the bridge asks of it
  (compiling, running and calling guest code, identity hashes, string conversion of
  non-string values) is a parameter, `Engine`.
* The recursive conversions carry a fuel argument that bounds the nesting depth;
  `none` means that the fuel ran out.
-/

namespace V8Bridge

/-! ## Host values -/

/-- A host floating-point number, kept symbolic: either the double that the C conversion
`(NV)v` of an integer yields, or a stored double given by its bit pattern. -/
inductive NV where
  | ofIV (v : Int)
  | lit (bits : Nat)
deriving DecidableEq, Repr

/-- A host scalar cell: the flags tested by `SvROK`, `SvPOK`, `SvIOK`, `SvNOK` and the
slots they guard (`SvRV` as an address, `SvPV`, `SvIV`, `SvNV`). -/
structure SV where
  rok : Bool
  pok : Bool
  iok : Bool
  nok : Bool
  rv : Nat
  pv : String
  iv : Int
  nv : NV
deriving DecidableEq, Repr

def INT32_MAX : Int := 0x7fffffff
def INT32_MIN : Int := -0x7fffffff - 1

def SvROK (sv : SV) : Bool := sv.rok
def SvPOK (sv : SV) : Bool := sv.pok
def SvIOK (sv : SV) : Bool := sv.iok
def SvNOK (sv : SV) : Bool := sv.nok
/-- The macro `SvOK`: some value flag is set. -/
def SvOK (sv : SV) : Bool := sv.rok || sv.pok || sv.iok || sv.nok
def SvRV (sv : SV) : Nat := sv.rv
/-- The bounds of the host integer type `IV`, a signed 64-bit integer. -/
def IV_MAX : Int := 0x7fffffffffffffff
def IV_MIN : Int := -0x7fffffffffffffff - 1
/-- The macro `SvIV`: the integer slot read as an `IV`. The slot of an unsigned scalar
above `IV_MAX` reads as a negative number (`18446744073709551615` reads as `-1`). -/
def SvIV (sv : SV) : Int := (sv.iv + 2 ^ 63) % 2 ^ 64 - 2 ^ 63
/-- The macro `SvNV`: the stored double, or the integer slot converted to a double. -/
def SvNV (sv : SV) : NV := if sv.nok then sv.nv else NV.ofIV sv.iv

/-- The scalar made by `newSV(0)`: the undefined scalar. -/
def newSV0 : SV :=
  { rok := false, pok := false, iok := false, nok := false,
    rv := 0, pv := "", iv := 0, nv := NV.lit 0 }
def newSViv (v : Int) : SV := { newSV0 with iok := true, iv := v }
def newSVuv (v : Nat) : SV := { newSV0 with iok := true, iv := v }
def newSVnv (d : NV) : SV := { newSV0 with nok := true, nv := d }
def newSVpvn (s : String) : SV := { newSV0 with pok := true, pv := s }
/-- A reference to the referent at address `ptr` (`newRV`, `newRV_inc`, `newRV_noinc`). -/
def newRV (ptr : Nat) : SV := { newSV0 with rok := true, rv := ptr }

/-- What lives at a host address: an array (`av_fetch` may find no element at an index),
a hash (its entries in iteration order), a code value, or anything else. -/
inductive Body where
  | av (elems : List (Option SV))
  | hv (entries : List (String × SV))
  | cv
  | other (sv : SV)
deriving DecidableEq, Repr

/-- A referent: its body and the package it is blessed into, if any (`SvOBJECT`). -/
structure Referent where
  stash : Option String
  body : Body
deriving DecidableEq, Repr

/-- The host interpreter state seen by the bridge: the referents by address, the error
variable `ERRSV`, and the symbol table (package name, then method name to code address). -/
structure Interp where
  heap : List Referent
  errsv : SV
  stashes : List (String × List (String × Nat))
deriving DecidableEq, Repr

/-- The referent at an address; an address that holds no container or code value is a
plain scalar. -/
def Interp.deref (my_perl : Interp) (ptr : Nat) : Referent :=
  my_perl.heap.getD ptr { stash := none, body := Body.other newSV0 }

def SvOBJECT (r : Referent) : Bool := r.stash.isSome

/-! ## Guest values -/

/-- A guest value handle. Objects, arrays and functions are handles into guest memory.
`int32` stands for a number for which `IsInt32` holds, `number` for any other number. -/
inductive Value where
  | undefined
  | null
  | int32 (v : Int)
  | boolean (b : Bool)
  | number (d : NV)
  | string (s : String)
  | object (id : Nat)
deriving DecidableEq, Repr

/-- A guest object: an array with its indexed slots (`none` is a hole); a plain object
with its own named properties in creation order and its prototype, where `none` is the
default prototype, the guest's `Object.prototype`, and `some p` the object behind the
handle `p`; a function with its own properties; or a plain object that has no prototype
at all (as `Object.create(null)` makes), with its own properties. Own properties are
enumerable. -/
inductive GObj where
  | array (elems : List (Option Value))
  | object (props : List (String × Value)) (proto : Option Nat)
  | function (props : List (String × Value))
  | bare (props : List (String × Value))
deriving DecidableEq, Repr

/-- The wrapper record `ObjectData`: the guest handle and the host address it pairs. -/
structure ObjectData where
  object : Nat
  ptr : Nat
  returns_list : Bool
deriving DecidableEq, Repr

/-- The transient host-to-guest cache `HandleMap` (`std::map<long, Handle<Value>>`). -/
abbrev HandleMap := List (Nat × Value)

/-- The bridge context: configuration, the static instance counter `number`, the permanent
identity map `seen_perl`, the hidden `wrap` values of guest objects, guest memory, and
the properties of the guest's `Object.prototype`, which objects with the default
prototype inherit: name, value, and whether the property is enumerable. -/
structure V8Context where
  enable_blessing : Bool
  bless_prefix : String
  number : Nat
  seen_perl : List (Nat × ObjectData)
  hidden : List (Nat × ObjectData)
  objs : List GObj
  inherited : List (String × Value × Bool)
deriving DecidableEq, Repr

/-- The guest call `Array::New(len)`: an array of `len` holes. -/
def Array_New (len : Nat) : GObj := GObj.array (List.replicate len none)
/-- The guest call `Object::New()`. -/
def Object_New : GObj := GObj.object [] none

/-- Allocation of a guest object; its handle is the next free index. -/
def V8Context.alloc (ctx : V8Context) (o : GObj) : Nat × V8Context :=
  (ctx.objs.length, { ctx with objs := ctx.objs ++ [o] })

/-- Store under a key in a list of keyed entries, as guest objects and host hashes do:
replace the value of an existing key, else append. -/
def assocSet {α : Type} (k : String) (v : α) : List (String × α) → List (String × α)
  | [] => [(k, v)]
  | (k1, v1) :: rest => if k1 = k then (k1, v) :: rest else (k1, v1) :: assocSet k v rest

/-- The guest call `array->Set(Integer::New(i), v)` on an object value. -/
def GObj.setIndex (i : Nat) (v : Value) : GObj → GObj
  | GObj.array elems => GObj.array (elems.set i (some v))
  | o => o

/-- The guest call `object->Set(String::New(key), v)` on an object value: the own
property `key` is stored or replaced. The engine does so for every name other than
`__proto__`. -/
def GObj.setKey (k : String) (v : Value) : GObj → GObj
  | GObj.object props proto => GObj.object (assocSet k v props) proto
  | GObj.function props => GObj.function (assocSet k v props)
  | GObj.bare props => GObj.bare (assocSet k v props)
  | o => o

/-- In-place update of the guest object behind a handle. -/
def V8Context.update (ctx : V8Context) (id : Nat) (f : GObj → GObj) : V8Context :=
  match ctx.objs[id]? with
  | some o => { ctx with objs := ctx.objs.set id (f o) }
  | none => ctx

/-- What a guest `TryCatch` holds once it has caught: the text of the exception
(`String::Utf8Value(try_catch.Exception())`) and, when the engine supplies a message
object, its script resource name and line number. -/
structure TryCatch where
  exception : String
  message : Option (String × Int)
deriving DecidableEq, Repr

/-- The outcome of running or calling guest code: a value, or a caught exception. -/
inductive Completion where
  | value (v : Value)
  | caught (try_catch : TryCatch)
deriving DecidableEq, Repr

/-- The receiver of a guest call: the global object or a converted host argument. -/
inductive Receiver where
  | global
  | value (v : Value)
deriving DecidableEq, Repr

/-- What the bridge asks of the two runtimes and does not define itself: identity hashes
and string conversion of guest values, string conversion of host scalars that hold no
string, compiling and running guest scripts, calling guest functions, calling host code
values and methods, and the conversion of blessed host values and host code values
(`blessed2object`, `cv2function`). -/
structure Engine where
  GetIdentityHash : Nat → Int
  ToString : Value → String
  SvPV : SV → String
  Compile : String → String → V8Context → Except TryCatch Nat × V8Context
  Run : Nat → V8Context → Completion × V8Context
  Call : Nat → Receiver → List Value → V8Context → Completion × V8Context
  call_sv : Nat → List SV → Interp → V8Context → SV × Interp × V8Context
  call_method : String → List SV → Interp → V8Context → SV × Interp × V8Context
  blessed2object : Nat → Interp → V8Context → Value × V8Context
  cv2function : Nat → Interp → V8Context → Value × V8Context

/-! ## Host to guest: `sv2v8` -/

/-- The result of a conversion step: the guest value, the transient cache, the context. -/
abbrev Conv := Option (Value × HandleMap × V8Context)

/-- The element loop of `av2array`, from index `i` on. -/
def av2array_loop (conv : SV → HandleMap → V8Context → Conv) (array : Nat) :
    Nat → List (Option SV) → HandleMap → V8Context → Option (HandleMap × V8Context)
  | _, [], seen, ctx => some (seen, ctx)
  | i, none :: rest, seen, ctx => av2array_loop conv array (i + 1) rest seen ctx
  | i, some sv :: rest, seen, ctx =>
    match conv sv seen ctx with
    | none => none
    | some (v, seen1, ctx1) =>
      av2array_loop conv array (i + 1) rest seen1 (ctx1.update array (GObj.setIndex i v))

/-- The function `V8Context::av2array`: allocate the guest array, record it in `seen`
under the host address, then convert the elements in index order. -/
def av2array (conv : SV → HandleMap → V8Context → Conv) (av : List (Option SV))
    (seen : HandleMap) (ptr : Nat) (ctx : V8Context) : Conv :=
  let len := av.length
  let (array, ctx1) := ctx.alloc (Array_New len)
  let seen1 := (ptr, Value.object array) :: seen
  match av2array_loop conv array 0 av seen1 ctx1 with
  | none => none
  | some (seen2, ctx2) => some (Value.object array, seen2, ctx2)

/-- The iteration loop of `hv2object`: each value is converted and stored under
`String::New(key, len)`, the guest string of the bytes of the host key. -/
def hv2object_loop (conv : SV → HandleMap → V8Context → Conv) (object : Nat) :
    List (String × SV) → HandleMap → V8Context → Option (HandleMap × V8Context)
  | [], seen, ctx => some (seen, ctx)
  | (key, val) :: rest, seen, ctx =>
    match conv val seen ctx with
    | none => none
    | some (v, seen1, ctx1) =>
      hv2object_loop conv object rest seen1 (ctx1.update object (GObj.setKey key v))

/-- The function `V8Context::hv2object`: allocate the guest object, record it in `seen`
under the host address, then convert the entries in iteration order. -/
def hv2object (conv : SV → HandleMap → V8Context → Conv) (hv : List (String × SV))
    (seen : HandleMap) (ptr : Nat) (ctx : V8Context) : Conv :=
  let (object, ctx1) := ctx.alloc Object_New
  let seen1 := (ptr, Value.object object) :: seen
  match hv2object_loop conv object hv seen1 ctx1 with
  | none => none
  | some (seen2, ctx2) => some (Value.object object, seen2, ctx2)

/-- The function `V8Context::rv2v8`: the permanent map first, then the transient cache,
then blessed values, arrays, hashes, code values; anything else is `undefined`. -/
def rv2v8 (eng : Engine) (my_perl : Interp) (conv : SV → HandleMap → V8Context → Conv)
    (rv : SV) (seen : HandleMap) (ctx : V8Context) : Conv :=
  let ptr := SvRV rv
  let sv := my_perl.deref ptr
  match ctx.seen_perl.lookup ptr with
  | some data => some (Value.object data.object, seen, ctx)
  | none =>
    match seen.lookup ptr with
    | some v => some (v, seen, ctx)
    | none =>
      if SvOBJECT sv then
        let (v, ctx1) := eng.blessed2object ptr my_perl ctx
        some (v, seen, ctx1)
      else
        match sv.body with
        | Body.av av => av2array conv av seen ptr ctx
        | Body.hv hv => hv2object conv hv seen ptr ctx
        | Body.cv =>
          let (v, ctx1) := eng.cv2function ptr my_perl ctx
          some (v, seen, ctx1)
        | Body.other _ => some (Value.undefined, seen, ctx)

/-- The function `V8Context::sv2v8(SV*, HandleMap&)`. -/
def sv2v8 (eng : Engine) (my_perl : Interp) :
    Nat → SV → HandleMap → V8Context → Conv
  | 0, _, _, _ => none
  | fuel + 1, sv, seen, ctx =>
    if SvROK sv then
      rv2v8 eng my_perl (sv2v8 eng my_perl fuel) sv seen ctx
    else if SvPOK sv then
      some (Value.string sv.pv, seen, ctx)
    else if SvIOK sv then
      let v := SvIV sv
      if v ≤ INT32_MAX ∧ v ≥ INT32_MIN then some (Value.int32 v, seen, ctx)
      else some (Value.number (SvNV sv), seen, ctx)
    else if SvNOK sv then
      some (Value.number (SvNV sv), seen, ctx)
    else if !SvOK sv then
      some (Value.undefined, seen, ctx)
    else
      some (Value.undefined, seen, ctx)

/-- The function `V8Context::sv2v8(SV*)`: a conversion with a fresh transient cache. -/
def sv2v8_top (eng : Engine) (my_perl : Interp) (fuel : Nat) (sv : SV) (ctx : V8Context) :
    Option (Value × V8Context) :=
  match sv2v8 eng my_perl fuel sv [] ctx with
  | none => none
  | some (v, _, ctx1) => some (v, ctx1)

/-! ## Guest to host: `v82sv` -/

/-- The transient guest-to-host cache `SvMap`: entries of identity hash, guest object
and host address, in insertion order. -/
abbrev SvMap := List (Int × Nat × Nat)

/-- The method `SvMap::add`. -/
def SvMap.add (eng : Engine) (seen : SvMap) (object : Nat) (ptr : Nat) : SvMap :=
  seen ++ [(eng.GetIdentityHash object, object, ptr)]

/-- The method `SvMap::find`: the first entry under the identity hash of `object` that
holds `object` itself gives a new reference to its host address; without such an entry
the result is `NULL`. The loop condition of the source, `it != objects.end(),
it->first == hash`, has the value of its second operand alone; what reading the end
iterator yields is not modelled. -/
def SvMap.find (eng : Engine) (seen : SvMap) (object : Nat) : Option SV :=
  match seen.find? (fun e => e.1 == eng.GetIdentityHash object && e.2.1 == object) with
  | some e => some (newRV e.2.2)
  | none => none

/-- Allocation of a host referent; its address is the next free index. -/
def Interp.alloc (my_perl : Interp) (r : Referent) : Nat × Interp :=
  (my_perl.heap.length, { my_perl with heap := my_perl.heap ++ [r] })

/-- In-place update of the body of the referent at an address. -/
def Interp.update (my_perl : Interp) (ptr : Nat) (f : Body → Body) : Interp :=
  match my_perl.heap[ptr]? with
  | some r => { my_perl with heap := my_perl.heap.set ptr { r with body := f r.body } }
  | none => my_perl

/-- The host call `av_push`. -/
def av_push (sv : SV) : Body → Body
  | Body.av elems => Body.av (elems ++ [some sv])
  | b => b

/-- The host call `hv_store`. -/
def hv_store (key : String) (sv : SV) : Body → Body
  | Body.hv entries => Body.hv (assocSet key sv entries)
  | b => b

/-- The own properties of a guest object: the named properties of an object or function,
the present slots of an array under their decimal index. -/
def GObj.entries : GObj → List (String × Value)
  | GObj.array elems =>
    (elems.enum.filterMap fun ie => ie.2.map fun v => (toString ie.1, v))
  | GObj.object props _ => props
  | GObj.function props => props
  | GObj.bare props => props

/-- Own properties as entries of a prototype chain: they are enumerable. -/
def own (props : List (String × Value)) : List (String × Value × Bool) :=
  props.map fun e => (e.1, e.2, true)

/-- The properties that the guest calls `Has`, `Get` and `GetPropertyNames` go through
for the object behind `id`, the nearest first: its own, then those of its prototypes,
and at the end of a chain that reaches the default prototype those of
`Object.prototype`. The builtin prototypes of arrays and functions are passed over.
`fuel` bounds the length of the chain. -/
def chain (objs : List GObj) (inherited : List (String × Value × Bool)) :
    Nat → Nat → List (String × Value × Bool)
  | 0, _ => []
  | fuel + 1, id =>
    match objs[id]? with
    | some (GObj.object props (some p)) => own props ++ chain objs inherited fuel p
    | some (GObj.object props none) => own props ++ inherited
    | some (GObj.bare props) => own props
    | some (GObj.array elems) => own (GObj.array elems).entries ++ inherited
    | some (GObj.function props) => own props ++ inherited
    | none => []

/-- The names in the order of their first occurrence. -/
def uniq : List String → List String
  | [] => []
  | k :: rest => k :: (uniq rest).filter (fun x => x != k)

/-- The properties a lookup on the object behind `id` sees, through its prototype
chain. -/
def V8Context.entries (ctx : V8Context) (id : Nat) : List (String × Value) :=
  (chain ctx.objs ctx.inherited (ctx.objs.length + 1) id).map fun e => (e.1, e.2.1)

/-- The guest call `obj->Has(String::New(name))`: true for a property of the object
itself and for one reached through its prototype chain. -/
def V8Context.Has (ctx : V8Context) (id : Nat) (name : String) : Bool :=
  ((ctx.entries id).lookup name).isSome

/-- The guest call `obj->Get(name)`: the property of the object itself, else the one
reached through its prototype chain; a missing property reads as `undefined`. -/
def V8Context.Get (ctx : V8Context) (id : Nat) (name : String) : Value :=
  ((ctx.entries id).lookup name).getD Value.undefined

/-- The guest call `obj->GetPropertyNames()`: the names of the enumerable properties of
the object and of its prototype chain, each once. -/
def V8Context.GetPropertyNames (ctx : V8Context) (id : Nat) : List String :=
  uniq (((chain ctx.objs ctx.inherited (ctx.objs.length + 1) id).filter
    fun e => e.2.2).map Prod.fst)

/-- The guest call `array->Length()`. -/
def V8Context.Length (ctx : V8Context) (id : Nat) : Nat :=
  match ctx.objs[id]? with
  | some (GObj.array elems) => elems.length
  | _ => 0

/-- The guest call `array->Get(Integer::New(i))`; a hole reads as `undefined`. -/
def V8Context.GetIndex (ctx : V8Context) (id : Nat) (i : Nat) : Value :=
  match ctx.objs[id]? with
  | some (GObj.array elems) => (elems.getD i none).getD Value.undefined
  | _ => Value.undefined

def V8Context.IsArray (ctx : V8Context) (id : Nat) : Bool :=
  match ctx.objs[id]? with
  | some (GObj.array _) => true
  | _ => false

def V8Context.IsFunction (ctx : V8Context) (id : Nat) : Bool :=
  match ctx.objs[id]? with
  | some (GObj.function _) => true
  | _ => false

/-- The result of the guest call `obj->GetPrototype()`: `null`, the guest's
`Object.prototype`, or the object behind a handle. -/
inductive Proto where
  | null
  | Object_prototype
  | object (id : Nat)
deriving DecidableEq, Repr

/-- The guest call `obj->GetPrototype()`. The builtin prototypes of arrays and functions
are passed over. -/
def V8Context.GetPrototype (ctx : V8Context) (id : Nat) : Proto :=
  match ctx.objs[id]? with
  | some (GObj.object _ (some p)) => Proto.object p
  | some (GObj.bare _) => Proto.null
  | _ => Proto.Object_prototype

/-- The guest call `prototype->GetPropertyNames()` on the result of `GetPrototype`. -/
def V8Context.ProtoNames (ctx : V8Context) : Proto → List String
  | Proto.object p => ctx.GetPropertyNames p
  | Proto.Object_prototype => uniq ((ctx.inherited.filter fun e => e.2.2).map Prod.fst)
  | Proto.null => []

/-- The guest call `prototype->Get(name)` on the result of `GetPrototype`. -/
def V8Context.ProtoGet (ctx : V8Context) : Proto → String → Value
  | Proto.object p, name => ctx.Get p name
  | Proto.Object_prototype, name =>
    ((ctx.inherited.lookup name).map Prod.fst).getD Value.undefined
  | Proto.null, _ => Value.undefined

/-- Map assignment `m[k] = v` on an association list with one entry per key. -/
def mapSet {β : Type} (k : Nat) (v : β) (m : List (Nat × β)) : List (Nat × β) :=
  (k, v) :: m.filter (fun e => e.1 != k)

/-- The function `V8Context::register_object`: enter the wrapper in the permanent map
under its host address and store it as the hidden `wrap` value of its guest object. -/
def V8Context.register_object (ctx : V8Context) (data : ObjectData) : V8Context :=
  { ctx with seen_perl := mapSet data.ptr data ctx.seen_perl,
             hidden := mapSet data.object data ctx.hidden }

/-- The function `V8Context::seen_v8`: a reference to the host value of the wrapper
stored as the hidden `wrap` value of the object, if there is one. -/
def V8Context.seen_v8 (ctx : V8Context) (object : Nat) : Option SV :=
  match ctx.hidden.lookup object with
  | some data => some (newRV data.ptr)
  | none => none

/-- The bytes of a C string up to its first NUL, as `%s` and `strlen` see them. -/
def cstr (s : String) : List Char := s.data.takeWhile (fun c => c != Char.ofNat 0)

/-- The conversion `%d` of `printf`. -/
def decimal (n : Int) : List Char :=
  if n < 0 then '-' :: (Nat.repr (-n).toNat).data else (Nat.repr n.toNat).data

/-- The call `snprintf(buf, size, ...)` given the formatted text: at most `size - 1`
bytes are kept. -/
def snprintf (size : Nat) (formatted : List Char) : String :=
  String.mk (formatted.take (size - 1))

/-- The function `V8Context::function2sv`: a new host code value bound to `v8closure`,
paired with the guest function by a registered `V8FunctionData`. -/
def function2sv (my_perl : Interp) (ctx : V8Context) (fn : Nat) : SV × Interp × V8Context :=
  let (code, p1) := my_perl.alloc { stash := none, body := Body.cv }
  let data : ObjectData :=
    { object := fn, ptr := code, returns_list := ctx.Has fn "__perlReturnsList" }
  (newRV code, p1, ctx.register_object data)

/-- The package name synthesized by `object2blessed`:
`snprintf(package, 128, "%s%s::N%d", ...)`. -/
def package_name (eng : Engine) (ctx : V8Context) (obj : Nat) : String :=
  let v := ctx.Get obj "__perlPackage"
  let name := match v with
    | Value.string s => s
    | w => eng.ToString w
  snprintf 128 (cstr ( ctx.bless_prefix) ++ cstr name ++ "::N".data ++ decimal ctx.number)

/-- The stub installation loop of `object2blessed`: one host code value bound to
`v8closure` for every function-valued property of the prototype. -/
def install_stubs (prototype : Proto) :
    List String → Interp → V8Context → List (String × Nat) → Interp × V8Context × List (String × Nat)
  | [], my_perl, ctx, methods => (my_perl, ctx, methods)
  | name :: rest, my_perl, ctx, methods =>
    match ctx.ProtoGet prototype name with
    | Value.object fn =>
      if ctx.IsFunction fn then
        let (code, p1) := my_perl.alloc { stash := none, body := Body.cv }
        let data : ObjectData :=
          { object := fn, ptr := code, returns_list := ctx.Has fn "__perlReturnsList" }
        install_stubs prototype rest p1 (ctx.register_object data) (methods ++ [(name, code)])
      else install_stubs prototype rest my_perl ctx methods
    | _ => install_stubs prototype rest my_perl ctx methods

/-- The package creation of `object2blessed`, run when the synthesized package does not
exist yet: the prototype of the object is taken with `obj->GetPrototype()->ToObject()`,
and the package gets one stub for every function-valued property of the prototype.
There is no result for an object without prototype: `ToObject` then gives an empty
handle, which the next call dereferences. -/
def create_package (my_perl : Interp) (ctx : V8Context) (obj : Nat) (package : String) :
    Option (Interp × V8Context) :=
  match ctx.GetPrototype obj with
  | Proto.null => none
  | prototype =>
    let (p, c, methods) :=
      install_stubs prototype (ctx.ProtoNames prototype) my_perl ctx []
    some ({ p with stashes := p.stashes ++ [(package, methods)] }, c)

/-- The function `V8Context::object2blessed`: on first use of the synthesized package
create it with its method stubs; then make a new scalar blessed into the package, pair
it with the guest object by a registered `V8ObjectData`, and return a reference to it.
The pointer stored in the scalar is represented by the guest handle. -/
def object2blessed (eng : Engine) (my_perl : Interp) (ctx : V8Context) (obj : Nat) :
    Option (SV × Interp × V8Context) :=
  let package := package_name eng ctx obj
  let created :=
    match my_perl.stashes.lookup package with
    | some _ => some (my_perl, ctx)
    | none => create_package my_perl ctx obj package
  match created with
  | none => none
  | some (p1, ctx1) =>
    let (sv, p2) := p1.alloc { stash := some package, body := Body.other newSV0 }
    let data : ObjectData := { object := obj, ptr := sv, returns_list := false }
    let p3 := p2.update sv (fun _ => Body.other (newSViv obj))
    some (newRV sv, p3, ctx1.register_object data)

/-- The result of a guest-to-host conversion step. -/
abbrev Back := Option (SV × SvMap × Interp × V8Context)

/-- The element loop of `array2sv` over the indices below `array->Length()`. -/
def array2sv_loop (conv : Value → SvMap → Interp → V8Context → Back) (array av : Nat) :
    List Nat → SvMap → Interp → V8Context → Option (SvMap × Interp × V8Context)
  | [], seen, my_perl, ctx => some (seen, my_perl, ctx)
  | i :: rest, seen, my_perl, ctx =>
    match conv (ctx.GetIndex array i) seen my_perl ctx with
    | none => none
    | some (sv, seen1, p1, ctx1) =>
      array2sv_loop conv array av rest seen1 (p1.update av (av_push sv)) ctx1

/-- The function `V8Context::array2sv`. -/
def array2sv (eng : Engine) (conv : Value → SvMap → Interp → V8Context → Back)
    (array : Nat) (seen : SvMap) (my_perl : Interp) (ctx : V8Context) : Back :=
  let (av, p1) := my_perl.alloc { stash := none, body := Body.av [] }
  let seen1 := SvMap.add eng seen array av
  match array2sv_loop conv array av (List.range (ctx.Length array)) seen1 p1 ctx with
  | none => none
  | some (seen2, p2, ctx2) => some (newRV av, seen2, p2, ctx2)

/-- The property loop of `object2sv` over the names `obj->GetPropertyNames()` gave. -/
def object2sv_loop (conv : Value → SvMap → Interp → V8Context → Back) (obj hv : Nat) :
    List String → SvMap → Interp → V8Context → Option (SvMap × Interp × V8Context)
  | [], seen, my_perl, ctx => some (seen, my_perl, ctx)
  | name :: rest, seen, my_perl, ctx =>
    match conv (ctx.Get obj name) seen my_perl ctx with
    | none => none
    | some (sv, seen1, p1, ctx1) =>
      object2sv_loop conv obj hv rest seen1 (p1.update hv (hv_store name sv)) ctx1

/-- The function `V8Context::object2sv`: an object that carries `__perlPackage` is
blessed when classing is enabled; any other becomes a new host hash. -/
def object2sv (eng : Engine) (conv : Value → SvMap → Interp → V8Context → Back)
    (obj : Nat) (seen : SvMap) (my_perl : Interp) (ctx : V8Context) : Back :=
  if ctx.enable_blessing && ctx.Has obj "__perlPackage" then
    match object2blessed eng my_perl ctx obj with
    | none => none
    | some (rv, p1, ctx1) => some (rv, seen, p1, ctx1)
  else
    let (hv, p1) := my_perl.alloc { stash := none, body := Body.hv [] }
    let seen1 := SvMap.add eng seen obj hv
    match object2sv_loop conv obj hv (ctx.GetPropertyNames obj) seen1 p1 ctx with
    | none => none
    | some (seen2, p2, ctx2) => some (newRV hv, seen2, p2, ctx2)

/-- The function `V8Context::v82sv(Handle<Value>, SvMap&)`. -/
def v82sv (eng : Engine) : Nat → Value → SvMap → Interp → V8Context → Back
  | 0, _, _, _, _ => none
  | fuel + 1, value, seen, my_perl, ctx =>
    match value with
    | Value.undefined => some (newSV0, seen, my_perl, ctx)
    | Value.null => some (newSV0, seen, my_perl, ctx)
    | Value.int32 v => some (newSViv v, seen, my_perl, ctx)
    | Value.boolean b => some (newSVuv (if b then 1 else 0), seen, my_perl, ctx)
    | Value.number d => some (newSVnv d, seen, my_perl, ctx)
    | Value.string s => some (newSVpvn s, seen, my_perl, ctx)
    | Value.object object =>
      match ctx.seen_v8 object with
      | some cached => some (cached, seen, my_perl, ctx)
      | none =>
        if ctx.IsFunction object then
          let (rv, p1, ctx1) := function2sv my_perl ctx object
          some (rv, seen, p1, ctx1)
        else
          match SvMap.find eng seen object with
          | some cached => some (cached, seen, my_perl, ctx)
          | none =>
            if ctx.IsArray object then array2sv eng (v82sv eng fuel) object seen my_perl ctx
            else object2sv eng (v82sv eng fuel) object seen my_perl ctx

/-- The function `V8Context::v82sv(Handle<Value>)`: a conversion with a fresh cache. -/
def v82sv_top (eng : Engine) (fuel : Nat) (value : Value) (my_perl : Interp)
    (ctx : V8Context) : Option (SV × Interp × V8Context) :=
  match v82sv eng fuel value [] my_perl ctx with
  | none => none
  | some (sv, _, p1, ctx1) => some (sv, p1, ctx1)

/-! ## Errors and call proxies -/

/-- The function `error_message` of `V8Util.cpp`:
`snprintf(message, 1024, "%s at %s:%d", exception, source, line)`, where source and line
come from the message object, or are `"EVAL"` and `0` without one. -/
def error_message (try_catch : TryCatch) : String :=
  let source := match try_catch.message with
    | some msg => cstr msg.1
    | none => "EVAL".data
  let line := match try_catch.message with
    | some msg => msg.2
    | none => 0
  snprintf 1024 (cstr try_catch.exception ++ " at ".data ++ source ++ ":".data ++ decimal line)

/-- The host call `sv_setpv(ERRSV, text)`: the error variable becomes the C string. -/
def sv_setpv_ERRSV (my_perl : Interp) (text : String) : Interp :=
  { my_perl with errsv := newSVpvn (String.mk (cstr text)) }

/-- The function `set_perl_error`. -/
def set_perl_error (my_perl : Interp) (try_catch : TryCatch) : Interp :=
  sv_setpv_ERRSV my_perl (error_message try_catch)

/-- The host constant `PL_sv_no`: the empty string that is also the number zero. -/
def PL_sv_no : SV :=
  { rok := false, pok := true, iok := true, nok := true,
    rv := 0, pv := "", iv := 0, nv := NV.ofIV 0 }

/-- The macro `SvPV_nolen`: the string slot, or the host string conversion. -/
def SvPV_nolen (eng : Engine) (sv : SV) : String := if sv.pok then sv.pv else eng.SvPV sv

/-- The function `check_perl_error`: when `ERRSV` is defined and its C string is not
empty, throw a guest error whose message is `String::New(err, strlen(err) - 1)` and reset
`ERRSV`; the result is the message of the thrown error, `none` for an empty handle. -/
def check_perl_error (eng : Engine) (my_perl : Interp) : Option String × Interp :=
  if !SvOK my_perl.errsv then (none, my_perl)
  else
    let err := cstr (SvPV_nolen eng my_perl.errsv)
    if err.length > 0 then
      (some (String.mk (err.take (err.length - 1))), { my_perl with errsv := PL_sv_no })
    else (none, my_perl)

/-- What a guest call of a host callable comes back with: a value, or a thrown guest
error with its message. -/
inductive Outcome where
  | value (v : Value)
  | exception (message : String)
deriving DecidableEq, Repr

/-- The argument loop of the macro `SETUP_PERL_CALL`: every guest argument is converted
by a top-level `v82sv` and pushed. -/
def push_args (eng : Engine) (fuel : Nat) :
    List Value → Interp → V8Context → Option (List SV × Interp × V8Context)
  | [], my_perl, ctx => some ([], my_perl, ctx)
  | a :: rest, my_perl, ctx =>
    match v82sv_top eng fuel a my_perl ctx with
    | none => none
    | some (arg, p1, ctx1) =>
      match push_args eng fuel rest p1 ctx1 with
      | none => none
      | some (args, p2, ctx2) => some (arg :: args, p2, ctx2)

/-- The macro `CONVERT_PERL_RESULT`, given the scalar the host call left on the stack. -/
def CONVERT_PERL_RESULT (eng : Engine) (fuel : Nat) (ret : SV) (my_perl : Interp)
    (ctx : V8Context) : Option (Outcome × Interp × V8Context) :=
  match check_perl_error eng my_perl with
  | (some error, p1) => some (Outcome.exception error, p1, ctx)
  | (none, p1) =>
    match sv2v8_top eng p1 fuel ret ctx with
    | none => none
    | some (v, ctx1) => some (Outcome.value v, p1, ctx1)

/-- The method `PerlFunctionData::invoke` for the code value at address `rv`; `args` are
the guest arguments after the wrapper identity `args[0]`. -/
def PerlFunctionData_invoke (eng : Engine) (fuel : Nat) (rv : Nat) (args : List Value)
    (my_perl : Interp) (ctx : V8Context) : Option (Outcome × Interp × V8Context) :=
  match push_args eng fuel args my_perl ctx with
  | none => none
  | some (stack, p1, ctx1) =>
    let (ret, p2, ctx2) := eng.call_sv rv stack p1 ctx1
    CONVERT_PERL_RESULT eng fuel ret p2 ctx2

/-- The method `PerlMethodData::invoke`: the converted receiver is pushed first and the
host method is called by name. -/
def PerlMethodData_invoke (eng : Engine) (fuel : Nat) (name : String) (this : Value)
    (args : List Value) (my_perl : Interp) (ctx : V8Context) :
    Option (Outcome × Interp × V8Context) :=
  match push_args eng fuel (this :: args) my_perl ctx with
  | none => none
  | some (stack, p1, ctx1) =>
    let (ret, p2, ctx2) := eng.call_method name stack p1 ctx1
    CONVERT_PERL_RESULT eng fuel ret p2 ctx2

/-- The argument loop of `v8closure`: `argv[i] = self->sv2v8(ST(i))`. -/
def convert_argv (eng : Engine) (my_perl : Interp) (fuel : Nat) :
    List SV → V8Context → Option (List Value × V8Context)
  | [], ctx => some ([], ctx)
  | st :: rest, ctx =>
    match sv2v8_top eng my_perl fuel st ctx with
    | none => none
    | some (v, ctx1) =>
      match convert_argv eng my_perl fuel rest ctx1 with
      | none => none
      | some (argv, ctx2) => some (v :: argv, ctx2)

/-- The unpacking loop of `v8closure`: `ST(i) = v82sv(array->Get(Integer::New(i)))`. -/
def unpack_list (eng : Engine) (fuel : Nat) (array : Nat) :
    List Nat → Interp → V8Context → Option (List SV × Interp × V8Context)
  | [], my_perl, ctx => some ([], my_perl, ctx)
  | i :: rest, my_perl, ctx =>
    match v82sv_top eng fuel (ctx.GetIndex array i) my_perl ctx with
    | none => none
    | some (st, p1, ctx1) =>
      match unpack_list eng fuel array rest p1 ctx1 with
      | none => none
      | some (sts, p2, ctx2) => some (st :: sts, p2, ctx2)

/-- How the host call of `v8closure` ends: `croak(NULL)`, which dies with the text in
`ERRSV`, or `XSRETURN(count)` with the `count` results left on the stack. -/
inductive XS where
  | croak
  | XSRETURN (results : List SV)
deriving DecidableEq, Repr

/-- The guest test `result->IsArray()`. -/
def V8Context.valueIsArray (ctx : V8Context) : Value → Bool
  | Value.object id => ctx.IsArray id
  | _ => false

/-- The host-callable stub `v8closure` for the wrapper `data`. `context` is the state of
the owning context, `none` when `data->context` is null; `args` are the host arguments
`ST(0) .. ST(items - 1)`; `is_method` is `call_is_method(PL_op)`; `gimme_array` is
`GIMME_V == G_ARRAY`. -/
def v8closure (eng : Engine) (fuel : Nat) (data : ObjectData) (context : Option V8Context)
    (args : List SV) ( is_method : Bool) (gimme_array : Bool) (my_perl : Interp) :
    Option (XS × Interp × Option V8Context) :=
  match context with
  | some self =>
    match convert_argv eng my_perl fuel args self with
    | none => none
    | some (argv, ctx1) =>
      let call : Option (Receiver × List Value) :=
        if is_method then
          match argv with
          | [] => none
          | first :: rest => some (Receiver.value first, rest)
        else some (Receiver.global, argv)
      match call with
      | none => none
      | some (object, argv_ptr) =>
        let (result, ctx2) := eng.Call data.object object argv_ptr ctx1
        match result with
        | Completion.caught try_catch =>
          some (XS.croak, set_perl_error my_perl try_catch, some ctx2)
        | Completion.value result =>
          if data.returns_list && gimme_array && ctx2.valueIsArray result then
            match result with
            | Value.object array =>
              if gimme_array then
                match unpack_list eng fuel array (List.range (ctx2.Length array)) my_perl ctx2 with
                | none => none
                | some (sts, p1, ctx3) => some (XS.XSRETURN sts, p1, some ctx3)
              else
                some (XS.XSRETURN [newSViv (ctx2.Length array)], my_perl, some ctx2)
            | _ => none
          else
            match v82sv_top eng fuel result my_perl ctx2 with
            | none => none
            | some (st0, p1, ctx3) => some (XS.XSRETURN [st0], p1, some ctx3)
  | none =>
    some (XS.croak, sv_setpv_ERRSV my_perl "Fatal error: V8 context is no more", none)

/-- The function `V8Context::sv2v8str`. -/
def sv2v8str (eng : Engine) (sv : SV) : String := SvPV_nolen eng sv

/-- The function `V8Context::eval`. -/
def eval (eng : Engine) (fuel : Nat) (source : SV) (origin : Option SV)
    (my_perl : Interp) (ctx : V8Context) : Option (SV × Interp × V8Context) :=
  let name := match origin with
    | some o => sv2v8str eng o
    | none => "EVAL"
  match eng.Compile (sv2v8str eng source) name ctx with
  | (Except.error try_catch, ctx1) => some (newSV0, set_perl_error my_perl try_catch, ctx1)
  | (Except.ok script, ctx1) =>
    match eng.Run script ctx1 with
    | (Completion.caught try_catch, ctx2) =>
      some (newSV0, set_perl_error my_perl try_catch, ctx2)
    | (Completion.value val, ctx2) =>
      v82sv_top eng fuel val { my_perl with errsv := newSV0 } ctx2

/-! ## Sample data -/

/-- A sample engine: every guest call returns the object behind handle `0`, every guest
script fails to compile, host calls return the undefined scalar. -/
def demoEngine : Engine :=
  { GetIdentityHash := fun n => n,
    ToString := fun _ => "[object Object]",
    SvPV := fun _ => "",
    Compile := fun _ name c =>
      (Except.error { exception := "SyntaxError: Unexpected token ILLEGAL", message := some (name, 1) }, c),
    Run := fun _ c => (Completion.value Value.undefined, c),
    Call := fun _ _ _ c => (Completion.value (Value.object 0), c),
    call_sv := fun _ _ p c => (newSV0, p, c),
    call_method := fun _ _ p c => (newSV0, p, c),
    blessed2object := fun _ _ c => (Value.undefined, c),
    cv2function := fun _ _ c => (Value.undefined, c) }

/-- A sample context with classing enabled and empty guest memory. -/
def demoContext : V8Context :=
  { enable_blessing := true, bless_prefix := "P::", number := 1,
    seen_perl := [], hidden := [], objs := [], inherited := [] }

/-- A sample host state: at address `0` an array that holds the integer 5, a reference
to itself, a hole and a reference to the hash at address `1`; that hash holds a string,
a reference to itself and a reference to the array. -/
def demoInterp : Interp :=
  { heap :=
      [ { stash := none,
          body := Body.av [some (newSViv 5), some (newRV 0), none, some (newRV 1)] },
        { stash := none,
          body := Body.hv [("a", newSVpvn "x"), ("self", newRV 1), ("arr", newRV 0)] } ],
    errsv := newSV0,
    stashes := [] }

/-! ## Specification vocabulary -/

/-- A body is a container when it is an array or a hash. -/
def Body.isContainer : Body → Bool
  | Body.av _ => true
  | Body.hv _ => true
  | _ => false

/-- Host data built from unblessed values other than code: no referent is blessed and
none is a code value. -/
def plainData (my_perl : Interp) : Bool :=
  my_perl.heap.all fun r => !SvOBJECT r && decide (r.body ≠ Body.cv)

/-- The guest value that `rv2v8` returns for an address that is already known: the object
of its wrapper in the permanent map, else its entry in the transient cache. -/
def known (seen_perl : List (Nat × ObjectData)) (seen : HandleMap) (ptr : Nat) :
    Option Value :=
  match seen_perl.lookup ptr with
  | some data => some (Value.object data.object)
  | none => seen.lookup ptr

/-- The guest value of a host scalar that is not a reference. -/
def scalar_value (sv : SV) : Value :=
  if SvPOK sv then Value.string sv.pv
  else if SvIOK sv then
    if SvIV sv ≤ INT32_MAX ∧ SvIV sv ≥ INT32_MIN then Value.int32 (SvIV sv)
    else Value.number (SvNV sv)
  else if SvNOK sv then Value.number (SvNV sv)
  else Value.undefined

/-- The relation between a host scalar and the guest value stored for it, with respect to
the caches at the end of a conversion: a reference is represented by the guest value
known for its address (by `undefined` when it points to no container and nothing is known
for the address); any other scalar by its own guest value. -/
def converted (my_perl : Interp) (seen_perl : List (Nat × ObjectData)) (seen : HandleMap)
    (sv : SV) (v : Value) : Prop :=
  if SvROK sv then
    known seen_perl seen (SvRV sv) = some v ∨
      (known seen_perl seen (SvRV sv) = none ∧
        (my_perl.deref (SvRV sv)).body.isContainer = false ∧ v = Value.undefined)
  else v = scalar_value sv

/-- The named properties that result from setting the given keys in order. -/
def setAll (kvs : List (String × Value)) (props : List (String × Value)) :
    List (String × Value) :=
  kvs.foldl (fun acc kv => assocSet kv.1 kv.2 acc) props

/-- The guest object `o` mirrors the host container at address `ptr`: an array has one
slot per host element, a hole where the host has none and the representative of the
element otherwise; an object holds the representatives of the hash values under their
keys. -/
def mirrors (my_perl : Interp) (seen_perl : List (Nat × ObjectData)) (seen : HandleMap)
    (ptr : Nat) (o : GObj) : Prop :=
  match (my_perl.deref ptr).body with
  | Body.av elems =>
    ∃ vs, o = GObj.array vs ∧
      List.Forall₂ (fun e v => match e with
        | none => v = none
        | some sv => ∃ w, v = some w ∧ converted my_perl seen_perl seen sv w) elems vs
  | Body.hv entries =>
    ∃ vs, List.Forall₂ (fun e v => converted my_perl seen_perl seen e.2 v) entries vs ∧
      o = GObj.object (setAll (List.zip (entries.map Prod.fst) vs) []) none
  | _ => False

/-- The addresses of the host heap that the transient cache does not hold yet. -/
def unseen (my_perl : Interp) (seen : HandleMap) : Finset Nat :=
  (Finset.range my_perl.heap.length).filter (fun p => seen.lookup p = none)

/-- The entries `new` put in front of the cache `seen` are for distinct addresses, none
of which `seen` held before. -/
def freshEntries (new seen : HandleMap) : Prop :=
  (new.map Prod.fst).Nodup ∧ ∀ p ∈ new.map Prod.fst, seen.lookup p = none

/-- What a conversion step does to the transient cache and to guest memory, seen from
its end. The step started with the cache `seen` and with `base` guest objects, and ended
with the cache `seen1` and the guest objects `objs1`:
entries are kept; every address entered by the step has no wrapper in the permanent map,
holds a container, and is entered with a guest object allocated by the step that mirrors
the container; two addresses entered by the step have different objects; every object
allocated by the step is entered for some address. -/
def ConvStep (my_perl : Interp) (seen_perl : List (Nat × ObjectData)) (seen : HandleMap)
    (base : Nat) (seen1 : HandleMap) (objs1 : List GObj) : Prop :=
  (∀ p v, seen.lookup p = some v → seen1.lookup p = some v) ∧
  (∀ p v, seen.lookup p = none → seen1.lookup p = some v →
    seen_perl.lookup p = none ∧ (my_perl.deref p).body.isContainer = true ∧
    ∃ g o, v = Value.object g ∧ base ≤ g ∧ objs1[g]? = some o ∧
      mirrors my_perl seen_perl seen1 p o) ∧
  (∀ p q g, seen.lookup p = none → seen.lookup q = none →
    seen1.lookup p = some (Value.object g) → seen1.lookup q = some (Value.object g) →
    p = q) ∧
  (∀ g, base ≤ g → g < objs1.length →
    ∃ p, seen.lookup p = none ∧ seen1.lookup p = some (Value.object g))

/-- What one call of a conversion function guarantees: the permanent map is untouched,
guest objects that existed before are untouched, and the call is a `ConvStep` whose
result represents the converted scalar. -/
def ConvSpec (my_perl : Interp) (sv : SV) (seen : HandleMap) (ctx : V8Context)
    (v : Value) (seen1 : HandleMap) (ctx1 : V8Context) : Prop :=
  ctx1.seen_perl = ctx.seen_perl ∧
  (∀ g, g < ctx.objs.length → ctx1.objs[g]? = ctx.objs[g]?) ∧
  ctx.objs.length ≤ ctx1.objs.length ∧
  ConvStep my_perl ctx.seen_perl seen ctx.objs.length seen1 ctx1.objs ∧
  converted my_perl ctx.seen_perl seen1 sv v

/-- The text `m ++ " at " ++ s ++ ":" ++ decimal(n)` in full. -/
def message_text (m s : String) (n : Int) : String :=
  String.mk (m.data ++ " at ".data ++ s.data ++ ":".data ++ decimal n)

/-- A sample guest memory for calls that return a list: the array `[10, 20, 30]` behind
handle `0` and a function flagged `__perlReturnsList` behind handle `1`. -/
def listContext : V8Context :=
  { demoContext with
    objs := [GObj.array [some (Value.int32 10), some (Value.int32 20), some (Value.int32 30)],
             GObj.function [("__perlReturnsList", Value.boolean true)]] }

/-- The wrapper of the sample function, flagged as returning a list. -/
def listData : ObjectData := { object := 1, ptr := 0, returns_list := true }

/-- A sample host state with an empty heap. -/
def emptyInterp : Interp := { heap := [], errsv := newSV0, stashes := [] }

/-- A sample host state whose heap holds one code value, at address `0`. -/
def codeInterp : Interp :=
  { heap := [{ stash := none, body := Body.cv }], errsv := newSV0, stashes := [] }

/-- A sample engine whose host calls die with an exception object: they leave in `ERRSV`
a reference to a new blessed hash, whose string conversion carries no trailing newline. -/
def dieEngine : Engine :=
  { demoEngine with
    SvPV := fun _ => "My::Error=HASH(0x1f)",
    call_sv := fun _ _ p c =>
      (newSV0,
        { p with heap := p.heap ++ [{ stash := some "My::Error", body := Body.hv [] }],
                 errsv := newRV p.heap.length },
        c) }

/-- A sample caught exception whose text is 1100 bytes long. -/
def longTryCatch : TryCatch :=
  { exception := String.mk (List.replicate 1100 'a'), message := some ("EVAL", 1) }

/-- A sample engine whose compiler accepts every source and whose scripts run to the
value `v`. -/
def runEngine (v : Value) : Engine :=
  { demoEngine with
    Compile := fun _ _ c => (Except.ok 0, c),
    Run := fun _ c => (Completion.value v, c) }

/-- A sample context with classing enabled whose guest memory holds, behind handle `0`,
an object without prototype that carries `__perlPackage`. -/
def bareContext : V8Context :=
  { demoContext with objs := [GObj.bare [("__perlPackage", Value.string "Foo")]] }

/-- The process as far as the bridge contexts go: the static data member
`V8Context::number` (`int V8Context::number = 0;`) and the states of the contexts
constructed so far, in order of construction. -/
structure Process where
  number : Nat
  contexts : List V8Context
deriving DecidableEq, Repr

/-- The process at start: the static counter is `0` and no context exists. -/
def Process.start : Process := { number := 0, contexts := [] }

/-- The constructor `V8Context::V8Context(time_limit, flags, enable_blessing_,
bless_prefix_)`: the new context takes its configuration, starts with empty maps, and
the static counter is incremented (`number++`). -/
def Process.construct (proc : Process) (enable_blessing_ : Bool) ( bless_prefix_ : String) :
    Process :=
  { number := proc.number + 1,
    contexts := proc.contexts ++
      [{ enable_blessing := enable_blessing_, bless_prefix := bless_prefix_,
         number := proc.number + 1, seen_perl := [], hidden := [], objs := [],
         inherited := [] }] }

/-- The state of context `i` as its member functions see it: its own fields, and the
static counter of the process read through the name `number`. -/
def Process.context (proc : Process) (i : Nat) : Option V8Context :=
  match proc.contexts[i]? with
  | some c => some { c with number := proc.number }
  | none => none

/-- Store the state that a member function of context `i` left. -/
def Process.store (proc : Process) (i : Nat) (ctx : V8Context) : Process :=
  { proc with contexts := proc.contexts.set i ctx }

/-- Guest code of context `i` creates a plain object that carries the given
`__perlPackage` value; its handle is the next free index. -/
def Process.newPackageObject (proc : Process) (i : Nat) (package : String) : Process :=
  match proc.context i with
  | some c =>
    proc.store i (c.alloc (GObj.object [("__perlPackage", Value.string package)] none)).2
  | none => proc

/-- The class name that `object2blessed` synthesizes in context `i` for the guest object
behind `obj`. -/
def Process.class_name (eng : Engine) (proc : Process) (i obj : Nat) : Option String :=
  match proc.context i with
  | some c => some (package_name eng c obj)
  | none => none

/-- A top-level `v82sv` of the guest object behind `obj` in context `i`, with the host
state threaded through. -/
def Process.v82sv (eng : Engine) (fuel : Nat) (proc : Process) (i obj : Nat)
    (my_perl : Interp) : Option (SV × Interp × Process) :=
  match proc.context i with
  | some c =>
    match v82sv_top eng fuel (Value.object obj) my_perl c with
    | some (sv, p1, c1) => some (sv, p1, proc.store i c1)
    | none => none
  | none => none

/-- Two contexts with the same class-name prefix, constructed one after the other; each
then holds one guest object that carries `__perlPackage = "Foo"`. -/
def twoContexts : Process :=
  (((Process.start.construct true "P::").construct true "P::").newPackageObject 0
    "Foo").newPackageObject 1 "Foo"

/-- One context with the prefix `P::` that holds two guest objects, behind the handles
`0` and `1`, which both carry `__perlPackage = "Foo"`. -/
def oneContext : Process :=
  ((Process.start.construct true "P::").newPackageObject 0 "Foo").newPackageObject 0 "Foo"

/-- The host packages that exist after this run: context `0` converts its object `0`,
then a second context is constructed, then context `0` converts its object `1`. -/
def packagesAfterTwoConversions : List String :=
  match Process.v82sv demoEngine 2 oneContext 0 0 emptyInterp with
  | some (_, p1, proc1) =>
    match Process.v82sv demoEngine 2 (proc1.construct true "Q::") 0 1 p1 with
    | some (_, p2, _) => p2.stashes.map Prod.fst
    | none => []
  | none => []

/-! ## Wrapper lifecycle -/

/-- The wrapper classes: `ObjectData` and its subclasses. -/
inductive WrapperClass where
  | PerlObjectData
  | PerlFunctionData
  | PerlMethodData
  | V8ObjectData
  | V8FunctionData
deriving DecidableEq, Repr

/-- The host-origin classes, whose destruction runs `PerlObjectData::~PerlObjectData`. -/
def WrapperClass.isPerl : WrapperClass → Bool
  | WrapperClass.PerlObjectData => true
  | WrapperClass.PerlFunctionData => true
  | WrapperClass.PerlMethodData => true
  | _ => false

/-- One wrapper object: the fields of `ObjectData` (`object`, `sv`, `ptr`), of
`PerlObjectData` (`bytes`, a `size_t`), of `PerlFunctionData` (`rv`, the code value the
reference made by `newRV_noinc` points to), of `PerlMethodData` (`name`) and of
`V8FunctionData` (`returns_list`). `sv` is `none` for a null pointer. -/
structure Wrapper where
  cls : WrapperClass
  object : Nat
  sv : Option Nat
  ptr : Nat
  bytes : Nat
  rv : Option Nat
  name : String
  returns_list : Bool
deriving DecidableEq, Repr

/-- The state of one context with its wrappers kept apart by identity: guest memory, the
permanent identity map `seen_perl` (host address to wrapper), the hidden `wrap` value of
guest objects (guest handle to wrapper), the live wrappers by identity, the identity the
next wrapper gets, the reference counts of host values, the host value `my_sv` of the
context itself, the amounts passed to `V8::AdjustAmountOfExternalAllocatedMemory` with
the wrapper that passed them, the prototype cache, the host error variable, and the
properties of the guest's `Object.prototype` (such as `toString`), which objects with
the default prototype inherit: name, value, and whether the property is enumerable. -/
structure Bridge where
  objs : List GObj
  seen_perl : List (Nat × Nat)
  wrap : List (Nat × Nat)
  live : List (Nat × Wrapper)
  next : Nat
  SvREFCNT : Nat → Int
  my_sv : Nat
  external : List (Nat × Int)
  prototypes : List (String × Nat)
  errsv : SV
  inherited : List (String × Value × Bool)

/-- The macro `SvREFCNT_inc`. -/
def Bridge.SvREFCNT_inc (b : Bridge) (sv : Nat) : Bridge :=
  { b with SvREFCNT := Function.update b.SvREFCNT sv (b.SvREFCNT sv + 1) }

/-- The macro `SvREFCNT_dec`. -/
def Bridge.SvREFCNT_dec (b : Bridge) (sv : Nat) : Bridge :=
  { b with SvREFCNT := Function.update b.SvREFCNT sv (b.SvREFCNT sv - 1) }

/-- The function `V8Context::register_object` for the wrapper with identity `this`. -/
def Bridge.register_object (b : Bridge) (this : Nat) (data : Wrapper) : Bridge :=
  ({ b with seen_perl := mapSet data.ptr this b.seen_perl,
            wrap := mapSet data.object this b.wrap }).SvREFCNT_inc b.my_sv

/-- The function `V8Context::remove_object`: erase the entry found under `data->ptr`,
delete the hidden value of the guest object, release the context's own host value. -/
def Bridge.remove_object (b : Bridge) (data : Wrapper) : Bridge :=
  ({ b with seen_perl := b.seen_perl.filter (fun e => e.1 != data.ptr),
            wrap := b.wrap.filter (fun e => e.1 != data.object) }).SvREFCNT_dec b.my_sv

/-- The constructor `ObjectData::ObjectData`: a wrapper without host value returns at
once, with `ptr` left as it was; any other sets `ptr` and registers itself. -/
def ObjectData_ctor (b : Bridge) (this : Nat) (data : Wrapper) : Wrapper × Bridge :=
  match data.sv with
  | none => (data, b)
  | some sv =>
    let data1 := { data with ptr := sv }
    (data1, b.register_object this data1)

/-- The destructor `ObjectData::~ObjectData`. -/
def ObjectData_dtor (b : Bridge) (data : Wrapper) : Bridge := b.remove_object data

/-- The width of `size_t` and `intptr_t`. -/
def SIZE_BITS : Nat := 64

/-- The conversion of a `size_t` argument to the `intptr_t` parameter of
`V8::AdjustAmountOfExternalAllocatedMemory`. -/
def to_intptr (u : Nat) : Int :=
  if u % 2 ^ SIZE_BITS < 2 ^ (SIZE_BITS - 1) then (u % 2 ^ SIZE_BITS : Nat)
  else ((u % 2 ^ SIZE_BITS : Nat) : Int) - 2 ^ SIZE_BITS

/-- The function `calculate_size`. -/
def calculate_size (_sv : Nat) : Nat := 1000

/-- The method `PerlObjectData::add_size(size_t bytes_)`. -/
def add_size (b : Bridge) (this : Nat) (data : Wrapper) (bytes_ : Nat) : Wrapper × Bridge :=
  ({ data with bytes := (data.bytes + bytes_) % 2 ^ SIZE_BITS },
   { b with external := b.external ++ [(this, to_intptr bytes_)] })

/-- The constructor `PerlObjectData::PerlObjectData`; `sizeof_PerlObjectData` is what
`size()` returns while the constructor runs. Making the guest handle weak only arranges
for `PerlObjectData::destroy`, which deletes the wrapper, to be called later. -/
def PerlObjectData_ctor (sizeof_PerlObjectData : Nat) (b : Bridge) (this : Nat)
    (data : Wrapper) : Wrapper × Bridge :=
  let (data1, b1) := ObjectData_ctor b this data
  let data2 := { data1 with bytes := sizeof_PerlObjectData }
  match data2.sv with
  | none => (data2, b1)
  | some sv =>
    let b2 := b1.SvREFCNT_inc sv
    let (data3, b3) := add_size b2 this data2 (calculate_size sv)
    ({ data3 with ptr := sv }, b3)

/-- The destructor `PerlObjectData::~PerlObjectData`: `add_size(-bytes)`, then
`SvREFCNT_dec(sv)`, which does nothing for a null pointer. -/
def PerlObjectData_dtor (b : Bridge) (this : Nat) (data : Wrapper) : Wrapper × Bridge :=
  let (data1, b1) := add_size b this data ((2 ^ SIZE_BITS - data.bytes) % 2 ^ SIZE_BITS)
  match data1.sv with
  | none => (data1, b1)
  | some sv => (data1, b1.SvREFCNT_dec sv)

/-- Enter a finished wrapper among the live ones. -/
def Bridge.allocated (b : Bridge) (this : Nat) (data : Wrapper) : Bridge :=
  { b with live := b.live ++ [(this, data)], next := this + 1 }

/-- The expression `new PerlObjectData(this, object, sv)`; `uninit` is what the memory of
the new wrapper holds in the field `ptr` before the constructor runs. -/
def new_PerlObjectData (sizeof_PerlObjectData : Nat) (b : Bridge) (object : Nat)
    (sv : Option Nat) (uninit : Nat) : Nat × Bridge :=
  let this := b.next
  let (data, b1) := PerlObjectData_ctor sizeof_PerlObjectData b this
    { cls := WrapperClass.PerlObjectData, object := object, sv := sv, ptr := uninit,
      bytes := 0, rv := none, name := "", returns_list := false }
  (this, b1.allocated this data)

/-- The function `MakeFunction`: the guest call of `make_function` returns a new guest
function. -/
def MakeFunction (b : Bridge) : Nat × Bridge :=
  (b.objs.length, { b with objs := b.objs ++ [GObj.function []] })

/-- The constructor `PerlFunctionData::PerlFunctionData(context_, cv)`: the base is
constructed on the result of `MakeFunction`, then `rv` is `newRV_noinc(cv)`, which takes
no new reference to `cv`, or null. -/
def PerlFunctionData_ctor (sizeof_PerlObjectData : Nat) (b : Bridge) (this : Nat)
    (cv : Option Nat) (uninit : Nat) : Wrapper × Bridge :=
  let (object, b0) := MakeFunction b
  let (data, b1) := PerlObjectData_ctor sizeof_PerlObjectData b0 this
    { cls := WrapperClass.PerlFunctionData, object := object, sv := cv, ptr := uninit,
      bytes := 0, rv := none, name := "", returns_list := false }
  ({ data with rv := cv }, b1)

/-- The expression `new PerlFunctionData(this, cv)`. -/
def new_PerlFunctionData (sizeof_PerlObjectData : Nat) (b : Bridge) (cv : Option Nat)
    (uninit : Nat) : Nat × Bridge :=
  let this := b.next
  let (data, b1) := PerlFunctionData_ctor sizeof_PerlObjectData b this cv uninit
  (this, b1.allocated this data)

/-- The expression `new PerlMethodData(this, name)`: a `PerlFunctionData` constructed
with a null code value, and the method name. -/
def new_PerlMethodData (sizeof_PerlObjectData : Nat) (b : Bridge) (name : String)
    (uninit : Nat) : Nat × Bridge :=
  let this := b.next
  let (data, b1) := PerlFunctionData_ctor sizeof_PerlObjectData b this none uninit
  (this, b1.allocated this { data with cls := WrapperClass.PerlMethodData, name := name })

/-- The expression `new V8ObjectData(this, object, sv)`; attaching the wrapper to `sv` as
magic changes no modelled state. -/
def new_V8ObjectData (b : Bridge) (object sv : Nat) (uninit : Nat) : Nat × Bridge :=
  let this := b.next
  let (data, b1) := ObjectData_ctor b this
    { cls := WrapperClass.V8ObjectData, object := object, sv := some sv, ptr := uninit,
      bytes := 0, rv := none, name := "", returns_list := false }
  (this, b1.allocated this data)

/-- The properties a lookup on the object behind `id` sees, through its prototype
chain. -/
def Bridge.entries (b : Bridge) (id : Nat) : List (String × Value) :=
  (chain b.objs b.inherited (b.objs.length + 1) id).map fun e => (e.1, e.2.1)

/-- The guest call `obj->Has(String::New(name))` on the guest memory of a bridge: true for
a property of the object itself and for one reached through its prototype chain. -/
def Bridge.Has (b : Bridge) (id : Nat) (name : String) : Bool :=
  ((b.entries id).lookup name).isSome

/-- The guest call `obj->Get(name)` on the guest memory of a bridge: the property of the
object itself, else the one reached through its prototype chain, else `undefined`. -/
def Bridge.Get (b : Bridge) (id : Nat) (name : String) : Value :=
  ((b.entries id).lookup name).getD Value.undefined

/-- The guest call `obj->Set(name, v)` on the guest memory of a bridge. -/
def Bridge.Set (b : Bridge) (id : Nat) (name : String) (v : Value) : Bridge :=
  match b.objs[id]? with
  | some o => { b with objs := b.objs.set id (o.setKey name v) }
  | none => b

/-- The expression `new V8FunctionData(this, fn, code)`. -/
def new_V8FunctionData (b : Bridge) (fn code : Nat) (uninit : Nat) : Nat × Bridge :=
  let this := b.next
  let (data, b1) := ObjectData_ctor b this
    { cls := WrapperClass.V8FunctionData, object := fn, sv := some code, ptr := uninit,
      bytes := 0, rv := none, name := "",
      returns_list := b.Has fn "__perlReturnsList" }
  (this, b1.allocated this data)

/-- The expression `delete` on the wrapper with identity `this` (as `svt_free` and
`PerlObjectData::destroy` do): the destructor of a host-origin class runs first, then
the destructor of `ObjectData`. Deleting what is not live has no result. -/
def delete_wrapper (b : Bridge) (this : Nat) : Option Bridge :=
  match b.live.lookup this with
  | none => none
  | some data =>
    let (data1, b1) := if data.cls.isPerl then PerlObjectData_dtor b this data else (data, b)
    let b2 := ObjectData_dtor b1 data1
    some { b2 with live := b2.live.filter (fun e => e.1 != this) }

/-- A context without wrappers: the given guest memory, reference counts and own host
value, and no inherited property. -/
def Bridge.fresh (objs : List GObj) (SvREFCNT : Nat → Int) (my_sv : Nat) : Bridge :=
  { objs := objs, seen_perl := [], wrap := [], live := [], next := 0,
    SvREFCNT := SvREFCNT, my_sv := my_sv, external := [], prototypes := [],
    errsv := newSV0, inherited := [] }

/-- A wrapper is registered when it was constructed with a host value. -/
def Wrapper.registered (data : Wrapper) : Bool := data.sv.isSome

/-- The states of a context reached from one without wrappers by what the bridge does:
constructing wrappers of the five classes, for any host value (`blessed2object_convert`,
`cv2function` and `fill_prototype_stash` construct the host-origin ones, `object2blessed`
and `function2sv` the guest-origin ones); deleting live wrappers that were constructed
with a host value (`PerlObjectData::destroy`, `svt_free` and `delete pod` are the
deletions of the sources, and none is ever arranged for a wrapper without host value);
and changing guest memory, the prototype cache, the error variable or the inherited
properties in any way. -/
inductive Reachable (sizeof_PerlObjectData : Nat) : Bridge → Prop where
  | fresh (objs : List GObj) (SvREFCNT : Nat → Int) (my_sv : Nat) :
      Reachable sizeof_PerlObjectData (Bridge.fresh objs SvREFCNT my_sv)
  | perl_object (b : Bridge) (object sv uninit : Nat) :
      Reachable sizeof_PerlObjectData b →
      Reachable sizeof_PerlObjectData
        (new_PerlObjectData sizeof_PerlObjectData b object (some sv) uninit).2
  | perl_function (b : Bridge) (cv uninit : Nat) :
      Reachable sizeof_PerlObjectData b →
      Reachable sizeof_PerlObjectData
        (new_PerlFunctionData sizeof_PerlObjectData b (some cv) uninit).2
  | perl_method (b : Bridge) (name : String) (uninit : Nat) :
      Reachable sizeof_PerlObjectData b →
      Reachable sizeof_PerlObjectData
        (new_PerlMethodData sizeof_PerlObjectData b name uninit).2
  | v8_object (b : Bridge) (object sv uninit : Nat) :
      Reachable sizeof_PerlObjectData b →
      Reachable sizeof_PerlObjectData (new_V8ObjectData b object sv uninit).2
  | v8_function (b : Bridge) (fn code uninit : Nat) :
      Reachable sizeof_PerlObjectData b →
      Reachable sizeof_PerlObjectData (new_V8FunctionData b fn code uninit).2
  | delete (b b1 : Bridge) (this : Nat) (data : Wrapper) :
      Reachable sizeof_PerlObjectData b → b.live.lookup this = some data →
      data.registered = true → delete_wrapper b this = some b1 →
      Reachable sizeof_PerlObjectData b1
  | guest (b : Bridge) (objs : List GObj) (prototypes : List (String × Nat)) (errsv : SV)
      (inherited : List (String × Value × Bool)) :
      Reachable sizeof_PerlObjectData b →
      Reachable sizeof_PerlObjectData
        { b with objs := objs, prototypes := prototypes, errsv := errsv,
                 inherited := inherited }

/-- The reachable states in which no wrapper was ever constructed for a host value that
had an entry in the identity map at the time. -/
inductive Regular (sizeof_PerlObjectData : Nat) : Bridge → Prop where
  | fresh (objs : List GObj) (SvREFCNT : Nat → Int) (my_sv : Nat) :
      Regular sizeof_PerlObjectData (Bridge.fresh objs SvREFCNT my_sv)
  | perl_object (b : Bridge) (object sv uninit : Nat) :
      Regular sizeof_PerlObjectData b → b.seen_perl.lookup sv = none →
      Regular sizeof_PerlObjectData
        (new_PerlObjectData sizeof_PerlObjectData b object (some sv) uninit).2
  | perl_function (b : Bridge) (cv uninit : Nat) :
      Regular sizeof_PerlObjectData b → b.seen_perl.lookup cv = none →
      Regular sizeof_PerlObjectData
        (new_PerlFunctionData sizeof_PerlObjectData b (some cv) uninit).2
  | perl_method (b : Bridge) (name : String) (uninit : Nat) :
      Regular sizeof_PerlObjectData b →
      Regular sizeof_PerlObjectData
        (new_PerlMethodData sizeof_PerlObjectData b name uninit).2
  | v8_object (b : Bridge) (object sv uninit : Nat) :
      Regular sizeof_PerlObjectData b → b.seen_perl.lookup sv = none →
      Regular sizeof_PerlObjectData (new_V8ObjectData b object sv uninit).2
  | v8_function (b : Bridge) (fn code uninit : Nat) :
      Regular sizeof_PerlObjectData b → b.seen_perl.lookup code = none →
      Regular sizeof_PerlObjectData (new_V8FunctionData b fn code uninit).2
  | delete (b b1 : Bridge) (this : Nat) (data : Wrapper) :
      Regular sizeof_PerlObjectData b → b.live.lookup this = some data →
      data.registered = true → delete_wrapper b this = some b1 →
      Regular sizeof_PerlObjectData b1
  | guest (b : Bridge) (objs : List GObj) (prototypes : List (String × Nat)) (errsv : SV)
      (inherited : List (String × Value × Bool)) :
      Regular sizeof_PerlObjectData b →
      Regular sizeof_PerlObjectData
        { b with objs := objs, prototypes := prototypes, errsv := errsv,
                 inherited := inherited }

/-- Every entry of the identity map leads to a live wrapper: it leads to a live wrapper
constructed with the host value of the entry, whose `ptr` is that value; the map has one
entry per address; every live wrapper constructed with a host value has `ptr` set to it;
every live wrapper has an identity below the next one. -/
def Linked (seen_perl : List (Nat × Nat)) (live : List (Nat × Wrapper)) (next : Nat) :
    Prop :=
  (∀ p this, seen_perl.lookup p = some this →
    ∃ data, live.lookup this = some data ∧ data.sv = some p) ∧
  (∀ this data p, live.lookup this = some data → data.sv = some p → data.ptr = p) ∧
  (seen_perl.map Prod.fst).Nodup ∧
  (∀ this data, live.lookup this = some data → this < next)

/-- The identity map and the live wrappers agree: every entry leads to a live wrapper
constructed with the host value of the entry; every live wrapper constructed with a host
value has `ptr` set to it and is the entry of that value; the map has one entry per
address; every live wrapper has an identity below the next one. -/
def Consistent (seen_perl : List (Nat × Nat)) (live : List (Nat × Wrapper)) (next : Nat) :
    Prop :=
  (∀ p this, seen_perl.lookup p = some this →
    ∃ data, live.lookup this = some data ∧ data.sv = some p) ∧
  (∀ this data p, live.lookup this = some data → data.sv = some p →
    data.ptr = p ∧ seen_perl.lookup p = some this) ∧
  (seen_perl.map Prod.fst).Nodup ∧
  (∀ this data, live.lookup this = some data → this < next)

/-- A sample context without wrappers: one guest object, every host value with reference
count `1`, and the context's own host value at address `7`. -/
def demoBridge : Bridge := Bridge.fresh [GObj.object [] none] (fun _ => 1) 7

/-- The sample context after `new PerlMethodData(this, "hello")`. -/
def methodBridge : Bridge := (new_PerlMethodData 48 demoBridge "hello" 99).2

/-- The sample context after a host-origin wrapper was constructed for the host value at
address `3` and a method wrapper after it. -/
def wrappedBridge : Bridge :=
  (new_PerlMethodData 48 (new_PerlObjectData 48 demoBridge 0 (some 3) 99).2 "hello" 99).2

/-- The sum of the amounts the wrapper with identity `this` has passed to
`V8::AdjustAmountOfExternalAllocatedMemory` so far. -/
def Bridge.reported (b : Bridge) (this : Nat) : Int :=
  ((b.external.filter (fun e => e.1 == this)).map Prod.snd).sum

/-! ## Prototypes of host classes -/

/-- What the bridge asks of the host symbol table; a stash is named by its package.
`mro_get_linear_isa` is the linearized ancestor list of a package, most derived first;
`gv_stashsv` finds the stash of a package and is here its keys in the order `hv_iternext`
yields them; `gv_fetchmethod` resolves a method from a stash and is here the code value of
the entry found. Each is `none` where the host function returns a null pointer. -/
structure Symbols where
  mro_get_linear_isa : String → Option (List String)
  gv_stashsv : String → Option (List String)
  gv_fetchmethod : String → String → Option Nat

/-- What the bridge asks of the guest engine on the state of a bridge: string conversion,
calling a guest function on the global object without arguments, compiling and running a
script, and what a `TryCatch` that has caught nothing reads as. -/
structure Guest where
  ToString : Value → String
  Call : Nat → Bridge → Completion × Bridge
  Compile : String → Bridge → Except TryCatch Nat × Bridge
  Run : Nat → Bridge → Completion × Bridge
  nothing_caught : TryCatch

/-- The guest function object of a live wrapper: `pfd->object`. -/
def Bridge.object_of (b : Bridge) (this : Nat) : Nat :=
  match b.live.lookup this with
  | some data => data.object
  | none => 0

/-- The path of `V8Context::rv2v8` for a reference to the code value at address `ptr`:
the guest object of the wrapper found in the permanent map, else the value found in the
transient cache, else `cv2function`, which constructs a `PerlFunctionData` and returns
its guest function. -/
def Bridge.rv2v8_code (sizeof_PerlObjectData : Nat) (b : Bridge) (seen : HandleMap)
    (ptr uninit : Nat) : Value × Bridge :=
  match b.seen_perl.lookup ptr with
  | some this => (Value.object (b.object_of this), b)
  | none =>
    match seen.lookup ptr with
    | some v => (v, b)
    | none =>
      let (pfd, b1) := new_PerlFunctionData sizeof_PerlObjectData b (some ptr) uninit
      (Value.object (b1.object_of pfd), b1)

/-- The guest test `IsFunction` on a handle. -/
def Bridge.IsFunction (b : Bridge) (id : Nat) : Bool :=
  match b.objs[id]? with
  | some (GObj.function _) => true
  | _ => false

/-- The function `set_perl_error` on the error variable of a bridge. -/
def Bridge.set_perl_error (b : Bridge) (try_catch : TryCatch) : Bridge :=
  { b with errsv := newSVpvn (String.mk (cstr (error_message try_catch))) }

/-- The name `to_js` held in `string_to_js`. -/
def string_to_js : String := "to_js"

/-- The loop of `V8Context::fill_prototype_stash` over the keys `hv_iternext` yields:
the key is read as a C string; a name the prototype has is skipped; `to_js` gets a
`PerlFunctionData` for the code value `gv_fetchmethod` finds from this stash, any other
name a `PerlMethodData`; the name is set to the guest function of the new wrapper.
`uninit` gives what the memory of a new wrapper holds in `ptr`. There is no result when
`GvCV` is applied to a null pointer. -/
def fill_prototype_stash_loop (sizeof_PerlObjectData : Nat) (sym : Symbols)
    (uninit : Nat → Nat) (prototype : Nat) (stash : String) :
    List String → Bridge → Option Bridge
  | [], b => some b
  | key :: rest, b =>
    let key_str := String.mk (cstr key)
    if b.Has prototype key_str then
      fill_prototype_stash_loop sizeof_PerlObjectData sym uninit prototype stash rest b
    else if key_str = string_to_js then
      match sym.gv_fetchmethod stash key_str with
      | none => none
      | some cv =>
        let (pfd, b1) := new_PerlFunctionData sizeof_PerlObjectData b (some cv) (uninit b.next)
        fill_prototype_stash_loop sizeof_PerlObjectData sym uninit prototype stash rest
          (b1.Set prototype key_str (Value.object (b1.object_of pfd)))
    else
      let (pfd, b1) := new_PerlMethodData sizeof_PerlObjectData b key_str (uninit b.next)
      fill_prototype_stash_loop sizeof_PerlObjectData sym uninit prototype stash rest
        (b1.Set prototype key_str (Value.object (b1.object_of pfd)))

/-- The function `V8Context::fill_prototype_stash` for the stash `gv_stashsv` found;
there is no result for a null stash, which `hv_iternext` dereferences. -/
def fill_prototype_stash (sizeof_PerlObjectData : Nat) (sym : Symbols) (uninit : Nat → Nat)
    (prototype : Nat) (name : String) (b : Bridge) : Option Bridge :=
  match sym.gv_stashsv name with
  | none => none
  | some keys =>
    fill_prototype_stash_loop sizeof_PerlObjectData sym uninit prototype name keys b

/-- The loop of `V8Context::fill_prototype_isa` over the ancestor list. -/
def fill_prototype_isa_loop (sizeof_PerlObjectData : Nat) (sym : Symbols)
    (uninit : Nat → Nat) (prototype : Nat) : List String → Bridge → Option Bridge
  | [], b => some b
  | name :: rest, b =>
    match fill_prototype_stash sizeof_PerlObjectData sym uninit prototype name b with
    | none => none
    | some b1 => fill_prototype_isa_loop sizeof_PerlObjectData sym uninit prototype rest b1

/-- The function `V8Context::fill_prototype_isa`: nothing is done when
`mro_get_linear_isa` returns null. -/
def fill_prototype_isa (sizeof_PerlObjectData : Nat) (sym : Symbols) (uninit : Nat → Nat)
    (prototype : Nat) (stash : String) (b : Bridge) : Option Bridge :=
  match sym.mro_get_linear_isa stash with
  | none => some b
  | some isa => fill_prototype_isa_loop sizeof_PerlObjectData sym uninit prototype isa b

/-- The function `V8Context::fixup_prototype`: when the prototype has a function under
`to_js`, call it, compile its result as a script, run the script, and when that gives a
guest function store it under `to_js`. There is no result when the call throws, as
`ToString` is then applied to an empty handle. -/
def fixup_prototype (g : Guest) (prototype : Nat) (b : Bridge) : Option Bridge :=
  match b.Get prototype string_to_js with
  | Value.object fn =>
    if b.IsFunction fn then
      match g.Call fn b with
      | (Completion.caught _, _) => none
      | (Completion.value to_js, b1) =>
        match g.Compile (g.ToString to_js) b1 with
        | (Except.error try_catch, b2) => some (b2.set_perl_error try_catch)
        | (Except.ok script, b2) =>
          match g.Run script b2 with
          | (Completion.caught try_catch, b3) => some (b3.set_perl_error try_catch)
          | (Completion.value (Value.object f), b3) =>
            if b3.IsFunction f then some (b3.Set prototype string_to_js (Value.object f))
            else some (b3.set_perl_error g.nothing_caught)
          | (Completion.value _, b3) => some (b3.set_perl_error g.nothing_caught)
    else some b
  | _ => some b

/-- The statement `prototype = prototypes[pkg] = Persistent<Object>::New(isolate,
Object::New())`: a new guest object, entered in the cache; its handle is the next free
index `b.objs.length`. -/
def Bridge.cache_prototype (b : Bridge) (package : String) : Bridge :=
  { b with objs := b.objs ++ [Object_New],
           prototypes := b.prototypes ++ [(package, b.objs.length)] }

/-- The function `V8Context::get_prototype` for a value blessed into `package`: the
cached prototype, or a new guest object entered in the cache, filled from the ancestor
list and fixed up. -/
def get_prototype (sizeof_PerlObjectData : Nat) (sym : Symbols) (g : Guest)
    (uninit : Nat → Nat) (package : String) (b : Bridge) : Option (Nat × Bridge) :=
  match b.prototypes.lookup package with
  | some prototype => some (prototype, b)
  | none =>
    let prototype := b.objs.length
    let b0 := b.cache_prototype package
    match fill_prototype_isa sizeof_PerlObjectData sym uninit prototype package b0 with
    | none => none
    | some b1 =>
      match fixup_prototype g prototype b1 with
      | none => none
      | some b2 => some (prototype, b2)

/-- The names a stash declares, as the bridge reads them. -/
def declared (sym : Symbols) (c : String) : List String :=
  match sym.gv_stashsv c with
  | some keys => keys.map fun key => String.mk (cstr key)
  | none => []

/-- A sample symbol table: `Dog` inherits from `Animal`; `Dog` declares `to_js` and
`speak`, `Animal` declares `speak`, `name` and `toString`. -/
def demoSymbols : Symbols :=
  { mro_get_linear_isa := fun c =>
      if c = "Dog" then some ["Dog", "Animal"] else some [c],
    gv_stashsv := fun c =>
      if c = "Dog" then some ["to_js", "speak"]
      else if c = "Animal" then some ["speak", "name", "toString"] else none,
    gv_fetchmethod := fun c m =>
      if c = "Dog" ∧ m = "to_js" then some 5 else none }

/-- A sample guest: calling a function gives a string, every script compiles, and running
a script gives a new guest function. -/
def demoGuest : Guest :=
  { ToString := fun _ => "(function () \x7b return 1 \x7d)",
    Call := fun _ b => (Completion.value (Value.string "(function () \x7b return 1 \x7d)"), b),
    Compile := fun _ b => (Except.ok 0, b),
    Run := fun _ b =>
      (Completion.value (Value.object b.objs.length),
       { b with objs := b.objs ++ [GObj.function []] }),
    nothing_caught := { exception := "", message := none } }

/-- A sample context in which guest objects inherit `toString`, the function behind
handle `0`. -/
def builtinBridge : Bridge :=
  { Bridge.fresh [GObj.function []] (fun _ => 1) 7 with
    inherited := [("toString", Value.object 0, false)] }

/-- The handle is that of a plain guest object with the default prototype. -/
def Bridge.plain (b : Bridge) (id : Nat) : Prop :=
  ∃ props, b.objs[id]? = some (GObj.object props none)

/-- Every live wrapper was allocated before the next one. -/
def Bridge.liveBelow (b : Bridge) : Prop := ∀ e ∈ b.live, e.1 < b.next

/-- What filling a prototype keeps: the inherited properties, the live wrappers, every
property the prototype has with the value it is bound to, and every other guest object. -/
structure Grows (prototype : Nat) (b b1 : Bridge) : Prop where
  inh : b1.inherited = b.inherited
  next : b.next ≤ b1.next
  live : ∀ this data, b.live.lookup this = some data → b1.live.lookup this = some data
  has : ∀ m, b.Has prototype m = true →
    b1.Has prototype m = true ∧ b1.Get prototype m = b.Get prototype m
  objs : ∀ id o, id ≠ prototype → b.objs[id]? = some o → b1.objs[id]? = some o

/-- The name `m` is bound in `b1` to the guest function of a wrapper created between `b`
and `b1` for the class `c`: for `to_js` a function wrapper of the code value found from
the stash of `c`, for any other name a method wrapper of that name without host value. -/
def Bound (sym : Symbols) (c : String) (prototype : Nat) (b b1 : Bridge) (m : String) :
    Prop :=
  ∃ this data, b.next ≤ this ∧ this < b1.next ∧ b1.live.lookup this = some data ∧
    b1.Get prototype m = Value.object data.object ∧ b1.IsFunction data.object = true ∧
    (m = string_to_js → data.cls = WrapperClass.PerlFunctionData ∧ data.sv.isSome = true ∧
      data.sv = sym.gv_fetchmethod c string_to_js) ∧
    (m ≠ string_to_js → data.cls = WrapperClass.PerlMethodData ∧ data.name = m ∧
      data.sv = none)

/-! ## Theorems -/

theorem SvIV_of_range (sv : SV) (h1 : IV_MIN ≤ sv.iv) (h2 : sv.iv ≤ IV_MAX) :
    SvIV sv = sv.iv := by
  unfold SvIV
  unfold IV_MIN at h1
  unfold IV_MAX at h2
  omega

/-- C1, the code on host integer scalars: a scalar with the integer flag set (and neither
the reference nor the string flag) converts to the guest 32-bit integer `SvIV(sv)` exactly
when `-2147483648 ≤ SvIV(sv) ≤ 2147483647`, and to a guest double (the double of the
scalar) otherwise, where `SvIV(sv)` is the integer slot read as a signed 64-bit `IV`.
For a slot within the `IV` range that is the integer itself, so `2147483647` converts to
a guest 32-bit integer and `2147483648` to a guest double. At the failing input, the
unsigned integer `18446744073709551615`, the slot reads as `-1` and the scalar converts
to the guest 32-bit integer `-1`, not to a guest double. -/
theorem sv2v8_integer_range (eng : Engine) (my_perl : Interp) (fuel : Nat) (sv : SV)
    (seen : HandleMap) (ctx : V8Context)
    (hrok : SvROK sv = false) (hpok : SvPOK sv = false) (hiok : SvIOK sv = true) :
    (sv2v8 eng my_perl (fuel + 1) sv seen ctx = some (Value.int32 (SvIV sv), seen, ctx)
        ↔ (-2147483648 ≤ SvIV sv ∧ SvIV sv ≤ 2147483647))
    ∧ (¬ (-2147483648 ≤ SvIV sv ∧ SvIV sv ≤ 2147483647) →
        sv2v8 eng my_perl (fuel + 1) sv seen ctx = some (Value.number (SvNV sv), seen, ctx))
    ∧ (IV_MIN ≤ sv.iv → sv.iv ≤ IV_MAX → SvIV sv = sv.iv)
    ∧ (sv.iv = 18446744073709551615 →
        sv2v8 eng my_perl (fuel + 1) sv seen ctx = some (Value.int32 (-1), seen, ctx))
    ∧ sv2v8 eng my_perl (fuel + 1) (newSViv 2147483647) seen ctx
        = some (Value.int32 2147483647, seen, ctx)
    ∧ sv2v8 eng my_perl (fuel + 1) (newSViv 2147483648) seen ctx
        = some (Value.number (NV.ofIV 2147483648), seen, ctx) := by
  have hmain : sv2v8 eng my_perl (fuel + 1) sv seen ctx
      = if SvIV sv ≤ INT32_MAX ∧ SvIV sv ≥ INT32_MIN then some (Value.int32 (SvIV sv), seen, ctx)
        else some (Value.number (SvNV sv), seen, ctx) := by
    simp only [sv2v8, hrok, hpok, hiok, Bool.false_eq_true, if_false, if_true]
  refine ⟨?_, ?_, SvIV_of_range sv, ?_, ?_, ?_⟩
  · by_cases h : SvIV sv ≤ INT32_MAX ∧ SvIV sv ≥ INT32_MIN
    · have h2 : -2147483648 ≤ SvIV sv ∧ SvIV sv ≤ 2147483647 := by
        simp only [INT32_MAX, INT32_MIN] at h; omega
      rw [hmain, if_pos h]
      simp [h2]
    · have h2 : ¬ (-2147483648 ≤ SvIV sv ∧ SvIV sv ≤ 2147483647) := by
        simp only [INT32_MAX, INT32_MIN] at h; omega
      rw [hmain, if_neg h]
      simp [h2]
  · intro h2
    have h : ¬ (SvIV sv ≤ INT32_MAX ∧ SvIV sv ≥ INT32_MIN) := by
      simp only [INT32_MAX, INT32_MIN]; omega
    rw [hmain, if_neg h]
  · intro hv
    have h1 : SvIV sv = -1 := by
      unfold SvIV
      rw [hv]
      norm_num
    have h : SvIV sv ≤ INT32_MAX ∧ SvIV sv ≥ INT32_MIN := by
      rw [h1]; simp only [INT32_MAX, INT32_MIN]; omega
    rw [hmain, if_pos h, h1]
  · have h1 : SvIV (newSViv 2147483647) = 2147483647 := by
      simp [SvIV, newSViv, newSV0]
    simp [sv2v8, newSViv, newSV0, SvROK, SvPOK, SvIOK, INT32_MAX, INT32_MIN] at h1 ⊢
    simp [SvIV]
  · simp [sv2v8, newSViv, newSV0, SvROK, SvPOK, SvIOK, SvNV, INT32_MAX, INT32_MIN, SvIV]

/-- Witness of C1 at the failing input: the unsigned scalar `18446744073709551615`
converts to the guest 32-bit integer `-1`. -/
theorem sv2v8_integer_range_witness :
    SvIOK (newSVuv 18446744073709551615) = true ∧
    sv2v8 demoEngine demoInterp 1 (newSVuv 18446744073709551615) [] demoContext
      = some (Value.int32 (-1), [], demoContext) :=
  ⟨rfl, (sv2v8_integer_range demoEngine demoInterp 0 (newSVuv 18446744073709551615) []
    demoContext rfl rfl rfl).2.2.2.1 rfl⟩

/-! ### Termination of `sv2v8` -/

theorem deref_container_lt (my_perl : Interp) (p : Nat)
    (h : (my_perl.deref p).body.isContainer = true) : p < my_perl.heap.length := by
  by_contra hlt
  have : my_perl.deref p = { stash := none, body := Body.other newSV0 } := by
    unfold Interp.deref
    rw [List.getD_eq_getElem?_getD, List.getElem?_eq_none (by omega)]
    rfl
  rw [this] at h
  simp [Body.isContainer] at h

theorem lookup_append_of_none {α : Type} (new seen : List (Nat × α)) (p : Nat)
    (h : new.lookup p = none) : (new ++ seen).lookup p = seen.lookup p := by
  induction new with
  | nil => rfl
  | cons e rest ih =>
    obtain ⟨k, v⟩ := e
    by_cases hk : p = k
    · subst hk; simp [List.lookup] at h
    · have hb : (p == k) = false := by simpa using hk
      simp only [List.cons_append, List.lookup, hb] at h ⊢
      exact ih h

theorem lookup_append_some {α : Type} (new seen : List (Nat × α)) (p : Nat) (v : α)
    (h : new.lookup p = some v) : (new ++ seen).lookup p = some v := by
  induction new with
  | nil => simp [List.lookup] at h
  | cons e rest ih =>
    obtain ⟨k, w⟩ := e
    by_cases hk : p = k
    · subst hk; simpa [List.lookup] using h
    · have hb : (p == k) = false := by simpa using hk
      simp only [List.cons_append, List.lookup, hb] at h ⊢
      exact ih h

theorem unseen_append_subset (my_perl : Interp) (new seen : HandleMap) :
    unseen my_perl (new ++ seen) ⊆ unseen my_perl seen := by
  intro p hp
  simp only [unseen, Finset.mem_filter, Finset.mem_range] at hp ⊢
  refine ⟨hp.1, ?_⟩
  cases hn : new.lookup p with
  | none => rw [lookup_append_of_none new seen p hn] at hp; exact hp.2
  | some v => rw [lookup_append_some new seen p v hn] at hp; simp at hp

theorem unseen_cons_lt (my_perl : Interp) (seen : HandleMap) (p : Nat) (v : Value)
    (hp : p < my_perl.heap.length) (hs : seen.lookup p = none) :
    (unseen my_perl ((p, v) :: seen)).card < (unseen my_perl seen).card := by
  apply Finset.card_lt_card
  have hsub : unseen my_perl ((p, v) :: seen) ⊆ unseen my_perl seen :=
    unseen_append_subset my_perl [(p, v)] seen
  rw [Finset.ssubset_iff_of_subset hsub]
  refine ⟨p, ?_, ?_⟩
  · simp [unseen, hp, hs]
  · simp [unseen, List.lookup]

theorem lookup_of_mem_keys {α : Type} (l : List (Nat × α)) (p : Nat)
    (h : p ∈ l.map Prod.fst) : ∃ v, l.lookup p = some v := by
  induction l with
  | nil => simp at h
  | cons e rest ih =>
    obtain ⟨k, w⟩ := e
    by_cases hk : p = k
    · subst hk; exact ⟨w, by simp [List.lookup]⟩
    · have hb : (p == k) = false := by simpa using hk
      have hmem : p ∈ rest.map Prod.fst := by
        simp only [List.map_cons, List.mem_cons] at h
        rcases h with h | h
        · exact absurd h hk
        · exact h
      obtain ⟨v, hv⟩ := ih hmem
      exact ⟨v, by simp only [List.lookup, hb]; exact hv⟩

theorem freshEntries_nil (seen : HandleMap) : freshEntries [] seen :=
  ⟨List.nodup_nil, fun _ h => by simp at h⟩

theorem freshEntries_append (new2 new seen : HandleMap) (h1 : freshEntries new seen)
    (h2 : freshEntries new2 (new ++ seen)) : freshEntries (new2 ++ new) seen := by
  have hdis : ∀ p ∈ new2.map Prod.fst, new.lookup p = none ∧ seen.lookup p = none := by
    intro p hp
    have hn := h2.2 p hp
    cases hl : new.lookup p with
    | none => rw [lookup_append_of_none new seen p hl] at hn; exact ⟨rfl, hn⟩
    | some v => rw [lookup_append_some new seen p v hl] at hn; simp at hn
  refine ⟨?_, ?_⟩
  · rw [List.map_append, List.nodup_append]
    refine ⟨h2.1, h1.1, ?_⟩
    intro p hp2 hp1
    obtain ⟨v, hv⟩ := lookup_of_mem_keys new p hp1
    rw [(hdis p hp2).1] at hv
    simp at hv
  · intro p hp
    rw [List.map_append, List.mem_append] at hp
    rcases hp with hp | hp
    · exact (hdis p hp).2
    · exact h1.2 p hp

theorem freshEntries_single (seen : HandleMap) (p : Nat) (v : Value)
    (h : seen.lookup p = none) : freshEntries [(p, v)] seen := by
  refine ⟨by simp, ?_⟩
  intro q hq
  simp only [List.map_cons, List.map_nil, List.mem_singleton] at hq
  rw [hq]; exact h

/-- The element loop of `av2array` returns when every conversion it starts returns and
only extends the cache. -/
theorem av2array_loop_total (my_perl : Interp) (fuel : Nat)
    (conv : SV → HandleMap → V8Context → Conv)
    (hconv : ∀ sv seen ctx, (unseen my_perl seen).card < fuel →
      ∃ v new ctx1, conv sv seen ctx = some (v, new ++ seen, ctx1) ∧ freshEntries new seen)
    (array : Nat) (elems : List (Option SV)) :
    ∀ (i : Nat) (seen : HandleMap) (ctx : V8Context), (unseen my_perl seen).card < fuel →
      ∃ new ctx1, av2array_loop conv array i elems seen ctx = some (new ++ seen, ctx1) ∧
        freshEntries new seen := by
  induction elems with
  | nil => intro i seen ctx _; exact ⟨[], ctx, rfl, freshEntries_nil seen⟩
  | cons e rest ih =>
    intro i seen ctx hlt
    cases e with
    | none => simpa [av2array_loop] using ih (i + 1) seen ctx hlt
    | some sv =>
      obtain ⟨v, new, ctx1, hc, hf⟩ := hconv sv seen ctx hlt
      have hlt1 : (unseen my_perl (new ++ seen)).card < fuel :=
        lt_of_le_of_lt (Finset.card_le_card (unseen_append_subset my_perl new seen)) hlt
      obtain ⟨new2, ctx2, hl, hf2⟩ :=
        ih (i + 1) (new ++ seen) (ctx1.update array (GObj.setIndex i v)) hlt1
      refine ⟨new2 ++ new, ctx2, ?_, freshEntries_append new2 new seen hf hf2⟩
      simp only [av2array_loop, hc, hl, List.append_assoc]

/-- The iteration loop of `hv2object` returns when every conversion it starts returns
and only extends the cache. -/
theorem hv2object_loop_total (my_perl : Interp) (fuel : Nat)
    (conv : SV → HandleMap → V8Context → Conv)
    (hconv : ∀ sv seen ctx, (unseen my_perl seen).card < fuel →
      ∃ v new ctx1, conv sv seen ctx = some (v, new ++ seen, ctx1) ∧ freshEntries new seen)
    (object : Nat) (entries : List (String × SV)) :
    ∀ (seen : HandleMap) (ctx : V8Context), (unseen my_perl seen).card < fuel →
      ∃ new ctx1, hv2object_loop conv object entries seen ctx = some (new ++ seen, ctx1) ∧
        freshEntries new seen := by
  induction entries with
  | nil => intro seen ctx _; exact ⟨[], ctx, rfl, freshEntries_nil seen⟩
  | cons e rest ih =>
    intro seen ctx hlt
    obtain ⟨key, val⟩ := e
    obtain ⟨v, new, ctx1, hc, hf⟩ := hconv val seen ctx hlt
    have hlt1 : (unseen my_perl (new ++ seen)).card < fuel :=
      lt_of_le_of_lt (Finset.card_le_card (unseen_append_subset my_perl new seen)) hlt
    obtain ⟨new2, ctx2, hl, hf2⟩ :=
      ih (new ++ seen) (ctx1.update object (GObj.setKey key v)) hlt1
    refine ⟨new2 ++ new, ctx2, ?_, freshEntries_append new2 new seen hf hf2⟩
    simp only [hv2object_loop, hc, hl, List.append_assoc]

/-- With more fuel than there are host addresses outside the cache, `sv2v8` returns, and
the cache it returns extends the one it was given. -/
theorem sv2v8_total (eng : Engine) (my_perl : Interp) :
    ∀ (fuel : Nat) (sv : SV) (seen : HandleMap) (ctx : V8Context),
      (unseen my_perl seen).card < fuel →
      ∃ v new ctx1, sv2v8 eng my_perl fuel sv seen ctx = some (v, new ++ seen, ctx1) ∧
        freshEntries new seen := by
  intro fuel
  induction fuel with
  | zero => intro sv seen ctx h; exact absurd h (Nat.not_lt_zero _)
  | succ fuel ih =>
    intro sv seen ctx hlt
    unfold sv2v8
    by_cases hrok : SvROK sv = true
    · simp only [hrok, if_true]
      unfold rv2v8
      simp only
      cases hsp : ctx.seen_perl.lookup (SvRV sv) with
      | some data => exact ⟨_, [], _, rfl, freshEntries_nil seen⟩
      | none =>
        cases hs : seen.lookup (SvRV sv) with
        | some v => exact ⟨_, [], _, rfl, freshEntries_nil seen⟩
        | none =>
          by_cases hobj : SvOBJECT (my_perl.deref (SvRV sv)) = true
          · simp only [hobj, if_true]; exact ⟨_, [], _, rfl, freshEntries_nil seen⟩
          · simp only [hobj]
            cases hb : (my_perl.deref (SvRV sv)).body with
            | av av =>
              have hp : SvRV sv < my_perl.heap.length :=
                deref_container_lt my_perl _ (by rw [hb]; rfl)
              have hlt1 : (unseen my_perl ((SvRV sv, Value.object ctx.objs.length) :: seen)).card
                  < fuel := by
                have := unseen_cons_lt my_perl seen (SvRV sv) (Value.object ctx.objs.length) hp hs
                omega
              obtain ⟨new, ctx2, hl, hf⟩ := av2array_loop_total my_perl fuel
                (sv2v8 eng my_perl fuel) ih ctx.objs.length av 0 _
                (ctx.alloc (Array_New av.length)).2 hlt1
              refine ⟨Value.object ctx.objs.length, new ++ [(SvRV sv, Value.object ctx.objs.length)],
                ctx2, ?_, freshEntries_append new [(SvRV sv, Value.object ctx.objs.length)] seen
                  (freshEntries_single seen _ _ hs) hf⟩
              simp only [av2array, V8Context.alloc] at hl ⊢
              simp [hl]
            | hv hv =>
              have hp : SvRV sv < my_perl.heap.length :=
                deref_container_lt my_perl _ (by rw [hb]; rfl)
              have hlt1 : (unseen my_perl ((SvRV sv, Value.object ctx.objs.length) :: seen)).card
                  < fuel := by
                have := unseen_cons_lt my_perl seen (SvRV sv) (Value.object ctx.objs.length) hp hs
                omega
              obtain ⟨new, ctx2, hl, hf⟩ := hv2object_loop_total my_perl fuel
                (sv2v8 eng my_perl fuel) ih ctx.objs.length hv _
                (ctx.alloc Object_New).2 hlt1
              refine ⟨Value.object ctx.objs.length, new ++ [(SvRV sv, Value.object ctx.objs.length)],
                ctx2, ?_, freshEntries_append new [(SvRV sv, Value.object ctx.objs.length)] seen
                  (freshEntries_single seen _ _ hs) hf⟩
              simp only [hv2object, V8Context.alloc] at hl ⊢
              simp [hl]
            | cv => exact ⟨_, [], _, rfl, freshEntries_nil seen⟩
            | other o => exact ⟨_, [], _, rfl, freshEntries_nil seen⟩
    · have hrok1 : SvROK sv = false := by simpa using hrok
      simp only [hrok1, Bool.false_eq_true, if_false]
      split_ifs <;> exact ⟨_, [], _, rfl, freshEntries_nil seen⟩

/-! ### Identity of converted containers -/

theorem update_seen_perl (ctx : V8Context) (id : Nat) (f : GObj → GObj) :
    (ctx.update id f).seen_perl = ctx.seen_perl := by
  unfold V8Context.update; split <;> rfl

theorem update_length (ctx : V8Context) (id : Nat) (f : GObj → GObj) :
    (ctx.update id f).objs.length = ctx.objs.length := by
  unfold V8Context.update; split <;> simp

theorem update_getElem?_ne (ctx : V8Context) (id g : Nat) (f : GObj → GObj) (h : g ≠ id) :
    (ctx.update id f).objs[g]? = ctx.objs[g]? := by
  unfold V8Context.update; split
  · simp [List.getElem?_set, Ne.symm h]
  · rfl

theorem update_getElem?_eq (ctx : V8Context) (id : Nat) (f : GObj → GObj) (o : GObj)
    (h : ctx.objs[id]? = some o) : (ctx.update id f).objs[id]? = some (f o) := by
  unfold V8Context.update
  rw [h]
  have hlt : id < ctx.objs.length := by
    rcases Nat.lt_or_ge id ctx.objs.length with h1 | h1
    · exact h1
    · rw [List.getElem?_eq_none h1] at h; simp at h
  simp [List.getElem?_set, hlt]

theorem lt_of_getElem?_eq_some {α : Type} (l : List α) (i : Nat) (a : α)
    (h : l[i]? = some a) : i < l.length := by
  rcases Nat.lt_or_ge i l.length with h1 | h1
  · exact h1
  · rw [List.getElem?_eq_none h1] at h; simp at h

theorem known_mono (seen_perl : List (Nat × ObjectData)) (seen seen1 : HandleMap)
    (hkeep : ∀ p v, seen.lookup p = some v → seen1.lookup p = some v)
    (p : Nat) (v : Value) (h : known seen_perl seen p = some v) :
    known seen_perl seen1 p = some v := by
  unfold known at h ⊢
  cases hsp : seen_perl.lookup p with
  | some d => rw [hsp] at h; exact h
  | none => rw [hsp] at h; exact hkeep p v h

theorem converted_mono (my_perl : Interp) (seen_perl : List (Nat × ObjectData))
    (seen seen1 : HandleMap)
    (hkeep : ∀ p v, seen.lookup p = some v → seen1.lookup p = some v)
    (hnew : ∀ p v, seen.lookup p = none → seen1.lookup p = some v →
      (my_perl.deref p).body.isContainer = true)
    (sv : SV) (v : Value) (h : converted my_perl seen_perl seen sv v) :
    converted my_perl seen_perl seen1 sv v := by
  unfold converted at h ⊢
  by_cases hrok : SvROK sv = true
  · simp only [hrok, if_true] at h ⊢
    rcases h with h | ⟨hk, hc, hv⟩
    · exact Or.inl (known_mono seen_perl seen seen1 hkeep _ _ h)
    · refine Or.inr ⟨?_, hc, hv⟩
      unfold known at hk ⊢
      cases hsp : seen_perl.lookup (SvRV sv) with
      | some d => rw [hsp] at hk; simp at hk
      | none =>
        rw [hsp] at hk
        cases hs1 : seen1.lookup (SvRV sv) with
        | none => rfl
        | some w =>
          have := hnew _ _ hk hs1
          rw [hc] at this
          simp at this
  · simp only [hrok] at h ⊢
    exact h

theorem mirrors_mono (my_perl : Interp) (seen_perl : List (Nat × ObjectData))
    (seen seen1 : HandleMap)
    (hkeep : ∀ p v, seen.lookup p = some v → seen1.lookup p = some v)
    (hnew : ∀ p v, seen.lookup p = none → seen1.lookup p = some v →
      (my_perl.deref p).body.isContainer = true)
    (ptr : Nat) (o : GObj) (h : mirrors my_perl seen_perl seen ptr o) :
    mirrors my_perl seen_perl seen1 ptr o := by
  unfold mirrors at h ⊢
  cases hb : (my_perl.deref ptr).body with
  | av elems =>
    rw [hb] at h
    obtain ⟨vs, ho, hf⟩ := h
    refine ⟨vs, ho, hf.imp ?_⟩
    intro e v hev
    cases e with
    | none => exact hev
    | some sv =>
      obtain ⟨w, hw, hc⟩ := hev
      exact ⟨w, hw, converted_mono my_perl seen_perl seen seen1 hkeep hnew sv w hc⟩
  | hv entries =>
    rw [hb] at h
    obtain ⟨vs, hf, ho⟩ := h
    exact ⟨vs, hf.imp (fun e v hev =>
      converted_mono my_perl seen_perl seen seen1 hkeep hnew e.2 v hev), ho⟩
  | cv => rw [hb] at h; exact h
  | other s => rw [hb] at h; exact h

theorem ConvStep.refl (my_perl : Interp) (seen_perl : List (Nat × ObjectData))
    (seen : HandleMap) (objs : List GObj) :
    ConvStep my_perl seen_perl seen objs.length seen objs := by
  refine ⟨fun _ _ h => h, ?_, ?_, ?_⟩
  · intro p v h1 h2; rw [h1] at h2; simp at h2
  · intro p q g h1 _ h2 _; rw [h1] at h2; simp at h2
  · intro g h1 h2; omega

theorem ConvStep.trans (my_perl : Interp) (seen_perl : List (Nat × ObjectData))
    (s0 s1 s2 : HandleMap) (b0 : Nat) (o1 o2 : List GObj)
    (h1 : ConvStep my_perl seen_perl s0 b0 s1 o1)
    (h2 : ConvStep my_perl seen_perl s1 o1.length s2 o2) (hb : b0 ≤ o1.length)
    (hframe : ∀ g, b0 ≤ g → g < o1.length → o2[g]? = o1[g]?) :
    ConvStep my_perl seen_perl s0 b0 s2 o2 := by
  obtain ⟨k1, n1, i1, c1⟩ := h1
  obtain ⟨k2, n2, i2, c2⟩ := h2
  have hnew2 : ∀ p v, s1.lookup p = none → s2.lookup p = some v →
      (my_perl.deref p).body.isContainer = true := fun p v a b => (n2 p v a b).2.1
  -- facts about an address entered by the first step, seen from the end
  have first : ∀ p v, s0.lookup p = none → s1.lookup p = some v →
      s2.lookup p = some v ∧ seen_perl.lookup p = none ∧
      (my_perl.deref p).body.isContainer = true ∧
      ∃ g o, v = Value.object g ∧ b0 ≤ g ∧ g < o1.length ∧ o2[g]? = some o ∧
        mirrors my_perl seen_perl s2 p o := by
    intro p v hp0 hp1
    obtain ⟨hsp, hc, g, o, hv, hg, ho, hm⟩ := n1 p v hp0 hp1
    have hlt := lt_of_getElem?_eq_some o1 g o ho
    refine ⟨k2 p v hp1, hsp, hc, g, o, hv, hg, hlt, ?_, ?_⟩
    · rw [hframe g hg hlt]; exact ho
    · exact mirrors_mono my_perl seen_perl s1 s2 k2 hnew2 p o hm
  refine ⟨fun p v h => k2 p v (k1 p v h), ?_, ?_, ?_⟩
  · intro p v hp0 hp2
    cases hp1 : s1.lookup p with
    | some w =>
      obtain ⟨hw2, hsp, hc, g, o, hv, hg, _, ho, hm⟩ := first p w hp0 hp1
      rw [hw2] at hp2
      injection hp2 with hp2
      subst hp2
      exact ⟨hsp, hc, g, o, hv, hg, ho, hm⟩
    | none =>
      obtain ⟨hsp, hc, g, o, hv, hg, ho, hm⟩ := n2 p v hp1 hp2
      exact ⟨hsp, hc, g, o, hv, le_trans hb hg, ho, hm⟩
  · intro p q g hp0 hq0 hp2 hq2
    cases hp1 : s1.lookup p with
    | some w =>
      obtain ⟨hw2, _, _, g1, _, hv, _, hlt, _, _⟩ := first p w hp0 hp1
      rw [hw2] at hp2
      injection hp2 with hp2
      subst hp2
      injection hv with hv
      subst hv
      cases hq1 : s1.lookup q with
      | some w2 =>
        have hq2b := k2 q w2 hq1
        rw [hq2] at hq2b
        injection hq2b with hq2b
        subst hq2b
        exact i1 p q g hp0 hq0 hp1 hq1
      | none =>
        obtain ⟨_, _, g2, _, hv2, hg2, _, _⟩ := n2 q _ hq1 hq2
        injection hv2 with hv2
        omega
    | none =>
      cases hq1 : s1.lookup q with
      | some w2 =>
        obtain ⟨hw2, _, _, g1, _, hv, _, hlt, _, _⟩ := first q w2 hq0 hq1
        rw [hw2] at hq2
        injection hq2 with hq2
        subst hq2
        injection hv with hv
        subst hv
        obtain ⟨_, _, g2, _, hv2, hg2, _, _⟩ := n2 p _ hp1 hp2
        injection hv2 with hv2
        omega
      | none => exact i2 p q g hp1 hq1 hp2 hq2
  · intro g hg hlt
    rcases Nat.lt_or_ge g o1.length with h | h
    · obtain ⟨p, hp0, hp1⟩ := c1 g hg h
      exact ⟨p, hp0, k2 p _ hp1⟩
    · obtain ⟨p, hp1, hp2⟩ := c2 g h hlt
      refine ⟨p, ?_, hp2⟩
      cases hp0 : s0.lookup p with
      | none => rfl
      | some w => rw [k1 p w hp0] at hp1; simp at hp1

/-- The slot relation of `mirrors` for arrays. -/
theorem slot_mono (my_perl : Interp) (seen_perl : List (Nat × ObjectData))
    (seen seen1 : HandleMap) (base : Nat) (objs1 : List GObj)
    (hstep : ConvStep my_perl seen_perl seen base seen1 objs1)
    (sv : SV) (v : Value) (h : converted my_perl seen_perl seen sv v) :
    converted my_perl seen_perl seen1 sv v :=
  converted_mono my_perl seen_perl seen seen1 hstep.1
    (fun p w a b => (hstep.2.1 p w a b).2.1) sv v h

/-- What the element loop of `av2array` guarantees when it runs on the array behind
`array` whose slots from `i` on are still holes. -/
theorem av2array_loop_spec (my_perl : Interp) (conv : SV → HandleMap → V8Context → Conv)
    (hconv : ∀ sv seen ctx v seen1 ctx1, conv sv seen ctx = some (v, seen1, ctx1) →
      ConvSpec my_perl sv seen ctx v seen1 ctx1)
    (array : Nat) (rest : List (Option SV)) :
    ∀ (i : Nat) (seen : HandleMap) (ctx : V8Context) (seen2 : HandleMap) (ctx2 : V8Context)
      (vs : List (Option Value)),
      av2array_loop conv array i rest seen ctx = some (seen2, ctx2) →
      ctx.objs[array]? = some (GObj.array (vs ++ List.replicate rest.length none)) →
      vs.length = i →
      ctx2.seen_perl = ctx.seen_perl ∧
      (∀ g, g < ctx.objs.length → g ≠ array → ctx2.objs[g]? = ctx.objs[g]?) ∧
      ctx.objs.length ≤ ctx2.objs.length ∧
      ConvStep my_perl ctx.seen_perl seen ctx.objs.length seen2 ctx2.objs ∧
      ∃ ws, ctx2.objs[array]? = some (GObj.array (vs ++ ws)) ∧
        List.Forall₂ (fun e v => match e with
          | none => v = none
          | some sv => ∃ w, v = some w ∧ converted my_perl ctx.seen_perl seen2 sv w)
          rest ws := by
  induction rest with
  | nil =>
    intro i seen ctx seen2 ctx2 vs hl ha _
    simp only [av2array_loop, Option.some.injEq, Prod.mk.injEq] at hl
    obtain ⟨rfl, rfl⟩ := hl
    refine ⟨rfl, fun _ _ _ => rfl, le_refl _, ConvStep.refl _ _ _ _, [], ?_, List.Forall₂.nil⟩
    simpa using ha
  | cons e rest ih =>
    intro i seen ctx seen2 ctx2 vs hl ha hi
    cases e with
    | none =>
      simp only [av2array_loop] at hl
      have ha1 : ctx.objs[array]? =
          some (GObj.array ((vs ++ [none]) ++ List.replicate rest.length none)) := by
        rw [ha]; simp [List.replicate_succ]
      obtain ⟨h1, h2, h3, h4, ws, hw, hf⟩ :=
        ih (i + 1) seen ctx seen2 ctx2 (vs ++ [none]) hl ha1 (by simp [hi])
      refine ⟨h1, h2, h3, h4, none :: ws, ?_, List.Forall₂.cons rfl hf⟩
      rw [hw]; simp
    | some sv =>
      simp only [av2array_loop] at hl
      cases hc : conv sv seen ctx with
      | none => rw [hc] at hl; simp at hl
      | some r =>
        obtain ⟨v, seen1, ctx1⟩ := r
        rw [hc] at hl
        simp only at hl
        obtain ⟨c1, c2, c3, c4, c5⟩ := hconv sv seen ctx v seen1 ctx1 hc
        have hA : array < ctx.objs.length := lt_of_getElem?_eq_some _ _ _ ha
        have ha1 : (ctx1.update array (GObj.setIndex i v)).objs[array]? =
            some (GObj.array ((vs ++ [some v]) ++ List.replicate rest.length none)) := by
          rw [update_getElem?_eq ctx1 array _ _ ((c2 array hA).trans ha)]
          simp only [GObj.setIndex, List.length_cons, List.replicate_succ]
          congr 2
          rw [← hi]
          simp
        obtain ⟨h1, h2, h3, h4, ws, hw, hf⟩ :=
          ih (i + 1) seen1 (ctx1.update array (GObj.setIndex i v)) seen2 ctx2
            (vs ++ [some v]) hl ha1 (by simp [hi])
        rw [update_seen_perl] at h1 h4
        rw [update_length] at h2 h3 h4
        rw [c1] at h4
        refine ⟨h1.trans c1, ?_, le_trans c3 h3, ?_, some v :: ws, ?_, ?_⟩
        · intro g hg hne
          rw [h2 g (lt_of_lt_of_le hg c3) hne, update_getElem?_ne _ _ _ _ hne, c2 g hg]
        · refine ConvStep.trans my_perl ctx.seen_perl seen seen1 seen2 ctx.objs.length
            ctx1.objs ctx2.objs c4 h4 c3 ?_
          intro g hg hlt
          have hne : g ≠ array := by omega
          rw [h2 g hlt hne, update_getElem?_ne _ _ _ _ hne]
        · rw [hw]; simp
        · refine List.Forall₂.cons ⟨v, rfl, ?_⟩ ?_
          · exact slot_mono my_perl ctx.seen_perl seen1 seen2 _ _ h4 sv v c5
          · rw [update_seen_perl, c1] at hf; exact hf

/-- What the iteration loop of `hv2object` guarantees when it runs on the plain object
behind `object`. -/
theorem hv2object_loop_spec (my_perl : Interp) (conv : SV → HandleMap → V8Context → Conv)
    (hconv : ∀ sv seen ctx v seen1 ctx1, conv sv seen ctx = some (v, seen1, ctx1) →
      ConvSpec my_perl sv seen ctx v seen1 ctx1)
    (object : Nat) (rest : List (String × SV)) :
    ∀ (seen : HandleMap) (ctx : V8Context) (seen2 : HandleMap) (ctx2 : V8Context)
      (props : List (String × Value)) (proto : Option Nat),
      hv2object_loop conv object rest seen ctx = some (seen2, ctx2) →
      ctx.objs[object]? = some (GObj.object props proto) →
      ctx2.seen_perl = ctx.seen_perl ∧
      (∀ g, g < ctx.objs.length → g ≠ object → ctx2.objs[g]? = ctx.objs[g]?) ∧
      ctx.objs.length ≤ ctx2.objs.length ∧
      ConvStep my_perl ctx.seen_perl seen ctx.objs.length seen2 ctx2.objs ∧
      ∃ ws, List.Forall₂ (fun e v => converted my_perl ctx.seen_perl seen2 e.2 v) rest ws ∧
        ctx2.objs[object]? =
          some (GObj.object (setAll (List.zip (rest.map Prod.fst) ws) props) proto) := by
  induction rest with
  | nil =>
    intro seen ctx seen2 ctx2 props proto hl ha
    simp only [hv2object_loop, Option.some.injEq, Prod.mk.injEq] at hl
    obtain ⟨rfl, rfl⟩ := hl
    exact ⟨rfl, fun _ _ _ => rfl, le_refl _, ConvStep.refl _ _ _ _, [], List.Forall₂.nil,
      by simpa [setAll] using ha⟩
  | cons e rest ih =>
    intro seen ctx seen2 ctx2 props proto hl ha
    obtain ⟨key, val⟩ := e
    simp only [hv2object_loop] at hl
    cases hc : conv val seen ctx with
    | none => rw [hc] at hl; simp at hl
    | some r =>
      obtain ⟨v, seen1, ctx1⟩ := r
      rw [hc] at hl
      simp only at hl
      obtain ⟨c1, c2, c3, c4, c5⟩ := hconv val seen ctx v seen1 ctx1 hc
      have hA : object < ctx.objs.length := lt_of_getElem?_eq_some _ _ _ ha
      have ha1 : (ctx1.update object (GObj.setKey key v)).objs[object]? =
          some (GObj.object (assocSet key v props) proto) := by
        rw [update_getElem?_eq ctx1 object _ _ ((c2 object hA).trans ha)]
        rfl
      obtain ⟨h1, h2, h3, h4, ws, hf, hw⟩ :=
        ih seen1 (ctx1.update object (GObj.setKey key v)) seen2 ctx2
          (assocSet key v props) proto hl ha1
      rw [update_seen_perl] at h1 h4
      rw [update_length] at h2 h3 h4
      rw [c1] at h4
      refine ⟨h1.trans c1, ?_, le_trans c3 h3, ?_, v :: ws, ?_, ?_⟩
      · intro g hg hne
        rw [h2 g (lt_of_lt_of_le hg c3) hne, update_getElem?_ne _ _ _ _ hne, c2 g hg]
      · refine ConvStep.trans my_perl ctx.seen_perl seen seen1 seen2 ctx.objs.length
          ctx1.objs ctx2.objs c4 h4 c3 ?_
        intro g hg hlt
        have hne : g ≠ object := by omega
        rw [h2 g hlt hne, update_getElem?_ne _ _ _ _ hne]
      · refine List.Forall₂.cons ?_ ?_
        · exact slot_mono my_perl ctx.seen_perl seen1 seen2 _ _ h4 val v c5
        · rw [update_seen_perl, c1] at hf; exact hf
      · rw [hw]; simp [setAll]

theorem lookup_cons_self {α : Type} (seen : List (Nat × α)) (p : Nat) (v : α) :
    ((p, v) :: seen).lookup p = some v := by
  simp [List.lookup]

theorem lookup_cons_ne {α : Type} (seen : List (Nat × α)) (p q : Nat) (v : α) (h : q ≠ p) :
    ((p, v) :: seen).lookup q = seen.lookup q := by
  have hb : (q == p) = false := by simpa using h
  simp [List.lookup, hb]

theorem plainData_deref (my_perl : Interp) (h : plainData my_perl = true) (p : Nat) :
    SvOBJECT (my_perl.deref p) = false ∧ (my_perl.deref p).body ≠ Body.cv := by
  unfold Interp.deref
  rw [List.getD_eq_getElem?_getD]
  cases hp : my_perl.heap[p]? with
  | none => simp [SvOBJECT]
  | some r =>
    have hmem : r ∈ my_perl.heap := List.getElem?_mem hp
    unfold plainData at h
    rw [List.all_eq_true] at h
    have := h r hmem
    simp only [Bool.and_eq_true, Bool.not_eq_true', decide_eq_true_eq] at this
    simpa using this

/-- The step of `av2array` and `hv2object` as a whole: allocate the guest object, record
it in the cache, run the loop. -/
theorem container_step (my_perl : Interp) (sv : SV) (seen : HandleMap) (ctx : V8Context)
    (o0 o : GObj) (seen2 : HandleMap) (ctx2 : V8Context)
    (hrok : SvROK sv = true)
    (hsp : ctx.seen_perl.lookup (SvRV sv) = none) (hs : seen.lookup (SvRV sv) = none)
    (hcont : (my_perl.deref (SvRV sv)).body.isContainer = true)
    (h1 : ctx2.seen_perl = ctx.seen_perl)
    (h2 : ∀ g, g < (ctx.alloc o0).2.objs.length → g ≠ ctx.objs.length →
      ctx2.objs[g]? = (ctx.alloc o0).2.objs[g]?)
    (h3 : (ctx.alloc o0).2.objs.length ≤ ctx2.objs.length)
    (h4 : ConvStep my_perl ctx.seen_perl ((SvRV sv, Value.object ctx.objs.length) :: seen)
      (ctx.alloc o0).2.objs.length seen2 ctx2.objs)
    (ho : ctx2.objs[ctx.objs.length]? = some o)
    (hm : mirrors my_perl ctx.seen_perl seen2 (SvRV sv) o) :
    ConvSpec my_perl sv seen ctx (Value.object ctx.objs.length) seen2 ctx2 := by
  have hlen : (ctx.alloc o0).2.objs.length = ctx.objs.length + 1 := by
    simp [V8Context.alloc]
  rw [hlen] at h2 h3 h4
  obtain ⟨k, n, i, c⟩ := h4
  have hptr : seen2.lookup (SvRV sv) = some (Value.object ctx.objs.length) :=
    k _ _ (lookup_cons_self seen _ _)
  refine ⟨h1, ?_, by omega, ⟨?_, ?_, ?_, ?_⟩, ?_⟩
  · intro g hg
    rw [h2 g (by omega) (by omega)]
    simp [V8Context.alloc, List.getElem?_append_left hg]
  · intro p v hp
    have hne : p ≠ SvRV sv := by
      intro he; rw [he, hs] at hp; simp at hp
    exact k p v (by rw [lookup_cons_ne seen _ _ _ hne]; exact hp)
  · intro p v hp0 hp2
    by_cases he : p = SvRV sv
    · subst he
      rw [hptr] at hp2
      injection hp2 with hp2
      exact ⟨hsp, hcont, ctx.objs.length, o, hp2.symm, le_refl _, ho, hm⟩
    · obtain ⟨a, b, g, o1, hv, hg, ho1, hm1⟩ :=
        n p v (by rw [lookup_cons_ne seen _ _ _ he]; exact hp0) hp2
      exact ⟨a, b, g, o1, hv, by omega, ho1, hm1⟩
  · intro p q g hp0 hq0 hp2 hq2
    by_cases hep : p = SvRV sv
    · by_cases heq : q = SvRV sv
      · rw [hep, heq]
      · exfalso
        rw [hep, hptr] at hp2
        injection hp2 with hp2
        injection hp2 with hp2
        obtain ⟨_, _, g1, _, hv, hg, _, _⟩ :=
          n q _ (by rw [lookup_cons_ne seen _ _ _ heq]; exact hq0) hq2
        injection hv with hv
        omega
    · by_cases heq : q = SvRV sv
      · exfalso
        rw [heq, hptr] at hq2
        injection hq2 with hq2
        injection hq2 with hq2
        obtain ⟨_, _, g1, _, hv, hg, _, _⟩ :=
          n p _ (by rw [lookup_cons_ne seen _ _ _ hep]; exact hp0) hp2
        injection hv with hv
        omega
      · exact i p q g (by rw [lookup_cons_ne seen _ _ _ hep]; exact hp0)
          (by rw [lookup_cons_ne seen _ _ _ heq]; exact hq0) hp2 hq2
  · intro g hg hlt
    by_cases he : g = ctx.objs.length
    · subst he; exact ⟨SvRV sv, hs, hptr⟩
    · obtain ⟨p, hp1, hp2⟩ := c g (by omega) hlt
      refine ⟨p, ?_, hp2⟩
      by_cases hep : p = SvRV sv
      · rw [hep]; exact hs
      · rw [lookup_cons_ne seen _ _ _ hep] at hp1; exact hp1
  · unfold converted
    simp only [hrok, if_true]
    left
    unfold known
    rw [hsp]
    exact hptr

/-- The non-reference branches of `sv2v8` produce `scalar_value`. -/
theorem sv2v8_scalar (eng : Engine) (my_perl : Interp) (fuel : Nat) (sv : SV)
    (seen : HandleMap) (ctx : V8Context) (hrok : SvROK sv = false) :
    sv2v8 eng my_perl (fuel + 1) sv seen ctx = some (scalar_value sv, seen, ctx) := by
  unfold sv2v8 scalar_value
  simp only [hrok, Bool.false_eq_true, if_false]
  split_ifs <;> rfl

theorem ConvSpec.same (my_perl : Interp) (sv : SV) (seen : HandleMap) (ctx : V8Context)
    (v : Value) (h : converted my_perl ctx.seen_perl seen sv v) :
    ConvSpec my_perl sv seen ctx v seen ctx :=
  ⟨rfl, fun _ _ => rfl, le_refl _, ConvStep.refl _ _ _ _, h⟩

/-- On host data without blessed values and code values, every call of `sv2v8` that
returns satisfies `ConvSpec`. -/
theorem sv2v8_spec (eng : Engine) (my_perl : Interp) (hplain : plainData my_perl = true) :
    ∀ (fuel : Nat) (sv : SV) (seen : HandleMap) (ctx : V8Context) (v : Value)
      (seen1 : HandleMap) (ctx1 : V8Context),
      sv2v8 eng my_perl fuel sv seen ctx = some (v, seen1, ctx1) →
      ConvSpec my_perl sv seen ctx v seen1 ctx1 := by
  intro fuel
  induction fuel with
  | zero => intro sv seen ctx v seen1 ctx1 h; simp [sv2v8] at h
  | succ fuel ih =>
    intro sv seen ctx v seen1 ctx1 h
    by_cases hrok : SvROK sv = true
    · unfold sv2v8 at h
      simp only [hrok, if_true] at h
      unfold rv2v8 at h
      simp only at h
      obtain ⟨hobj, hcv⟩ := plainData_deref my_perl hplain (SvRV sv)
      cases hsp : ctx.seen_perl.lookup (SvRV sv) with
      | some data =>
        rw [hsp] at h
        simp only [Option.some.injEq, Prod.mk.injEq] at h
        obtain ⟨rfl, rfl, rfl⟩ := h
        apply ConvSpec.same
        unfold converted known
        simp [hrok, hsp]
      | none =>
        rw [hsp] at h
        simp only at h
        cases hs : seen.lookup (SvRV sv) with
        | some w =>
          rw [hs] at h
          simp only [Option.some.injEq, Prod.mk.injEq] at h
          obtain ⟨rfl, rfl, rfl⟩ := h
          apply ConvSpec.same
          unfold converted known
          simp [hrok, hsp, hs]
        | none =>
          rw [hs] at h
          simp only [hobj, Bool.false_eq_true, if_false] at h
          cases hb : (my_perl.deref (SvRV sv)).body with
          | av av =>
            rw [hb] at h
            simp only [av2array] at h
            cases hl : av2array_loop (sv2v8 eng my_perl fuel) ctx.objs.length 0 av
                ((SvRV sv, Value.object ctx.objs.length) :: seen)
                (ctx.alloc (Array_New av.length)).2 with
            | none => simp [V8Context.alloc] at hl h; rw [hl] at h; simp at h
            | some r =>
              obtain ⟨seen2, ctx2⟩ := r
              have h' := h
              simp only [V8Context.alloc] at hl h'
              rw [hl] at h'
              simp only [Option.some.injEq, Prod.mk.injEq] at h'
              obtain ⟨rfl, rfl, rfl⟩ := h'
              have ha : (ctx.alloc (Array_New av.length)).2.objs[ctx.objs.length]? =
                  some (GObj.array ([] ++ List.replicate av.length none)) := by
                simp [V8Context.alloc, Array_New]
              obtain ⟨h1, h2, h3, h4, ws, hw, hf⟩ := av2array_loop_spec my_perl
                (sv2v8 eng my_perl fuel) (ih) ctx.objs.length av 0 _ _ seen2 ctx2 [] hl ha rfl
              refine container_step my_perl sv seen ctx (Array_New av.length)
                (GObj.array ([] ++ ws)) seen2 ctx2 hrok hsp hs (by rw [hb]; rfl)
                h1 h2 h3 h4 hw ?_
              unfold mirrors
              rw [hb]
              exact ⟨ws, by simp, hf⟩
          | hv hv =>
            rw [hb] at h
            simp only [hv2object] at h
            cases hl : hv2object_loop (sv2v8 eng my_perl fuel) ctx.objs.length hv
                ((SvRV sv, Value.object ctx.objs.length) :: seen)
                (ctx.alloc Object_New).2 with
            | none => simp [V8Context.alloc] at hl h; rw [hl] at h; simp at h
            | some r =>
              obtain ⟨seen2, ctx2⟩ := r
              have h' := h
              simp only [V8Context.alloc] at hl h'
              rw [hl] at h'
              simp only [Option.some.injEq, Prod.mk.injEq] at h'
              obtain ⟨rfl, rfl, rfl⟩ := h'
              have ha : (ctx.alloc Object_New).2.objs[ctx.objs.length]? =
                  some (GObj.object [] none) := by
                simp [V8Context.alloc, Object_New]
              obtain ⟨h1, h2, h3, h4, ws, hf, hw⟩ := hv2object_loop_spec my_perl
                (sv2v8 eng my_perl fuel) (ih) ctx.objs.length hv _ _ seen2 ctx2 [] none hl ha
              refine container_step my_perl sv seen ctx Object_New
                _ seen2 ctx2 hrok hsp hs (by rw [hb]; rfl)
                h1 h2 h3 h4 hw ?_
              unfold mirrors
              rw [hb]
              exact ⟨ws, hf, rfl⟩
          | cv => exact absurd hb hcv
          | other o =>
            rw [hb] at h
            simp only [Option.some.injEq, Prod.mk.injEq] at h
            obtain ⟨rfl, rfl, rfl⟩ := h
            apply ConvSpec.same
            unfold converted known
            simp [hrok, hsp, hs, hb, Body.isContainer]
    · have hrok1 : SvROK sv = false := by simpa using hrok
      rw [sv2v8_scalar eng my_perl fuel sv seen ctx hrok1] at h
      simp only [Option.some.injEq, Prod.mk.injEq] at h
      obtain ⟨rfl, rfl, rfl⟩ := h
      apply ConvSpec.same
      unfold converted
      simp [hrok1]

theorem forall₂_getElem? {α β : Type} (R : α → β → Prop) (l1 : List α) (l2 : List β)
    (h : List.Forall₂ R l1 l2) (i : Nat) (a : α) (ha : l1[i]? = some a) :
    ∃ b, l2[i]? = some b ∧ R a b := by
  induction h generalizing i with
  | nil => simp at ha
  | cons hab _ ih =>
    cases i with
    | zero =>
      simp only [List.getElem?_cons_zero, Option.some.injEq] at ha ⊢
      subst ha
      exact ⟨_, rfl, hab⟩
    | succ i =>
      simp only [List.getElem?_cons_succ] at ha ⊢
      exact ih i ha

theorem unseen_card_le (my_perl : Interp) (seen : HandleMap) :
    (unseen my_perl seen).card ≤ my_perl.heap.length := by
  unfold unseen
  exact le_trans (Finset.card_filter_le _ _) (le_of_eq (Finset.card_range _))

/-- C3: for every finite host heap, cyclic or not, the conversion `sv2v8` with its helpers
`rv2v8`, `av2array` and `hv2object` returns: one unit of fuel (nesting depth) more than
the heap has addresses is enough, from any cache and any context. The cache it returns
extends the one it was given by entries for distinct addresses that the cache did not
hold, so every container address is recorded, and with that filled, at most once. -/
theorem sv2v8_terminates (eng : Engine) (my_perl : Interp) (sv : SV) (seen : HandleMap)
    (ctx : V8Context) (more : Nat) :
    ∃ v new ctx1,
      sv2v8 eng my_perl (my_perl.heap.length + 1 + more) sv seen ctx
        = some (v, new ++ seen, ctx1) ∧
      freshEntries new seen := by
  apply sv2v8_total
  have h := unseen_card_le my_perl seen
  omega

/-- C2: on host data built from unblessed arrays and hashes, a top-level `sv2v8` returns
a value `v`, a cache `seen1` and a context `ctx1` such that
(1) the converted scalar is represented by `v`, where a reference is represented by the
one guest value known for its address, whichever reference it is;
(2) every address in the cache is recorded with a guest object allocated by this call,
and that object mirrors the host container: each slot or property that stands for a
reference holds the one guest value known for the address referred to;
(3) two addresses never share a guest object;
(4) every guest object allocated by this call is the object of a recorded address, so
that exactly one object is allocated per address;
(5) guest objects that existed before the call are untouched;
(6) an array that holds a reference to itself at index `i` converts to a guest array
whose slot `i` holds that guest array itself. -/
theorem sv2v8_identity (eng : Engine) (my_perl : Interp) (sv : SV) (ctx : V8Context)
    (hplain : plainData my_perl = true) :
    ∃ v seen1 ctx1,
      sv2v8 eng my_perl (my_perl.heap.length + 1) sv [] ctx = some (v, seen1, ctx1) ∧
      converted my_perl ctx.seen_perl seen1 sv v ∧
      (∀ p w, seen1.lookup p = some w →
        ∃ g o, w = Value.object g ∧ ctx.objs.length ≤ g ∧ ctx1.objs[g]? = some o ∧
          mirrors my_perl ctx.seen_perl seen1 p o) ∧
      (∀ p q g, seen1.lookup p = some (Value.object g) →
        seen1.lookup q = some (Value.object g) → p = q) ∧
      (∀ g, ctx.objs.length ≤ g → g < ctx1.objs.length →
        ∃ p, seen1.lookup p = some (Value.object g)) ∧
      (∀ g, g < ctx.objs.length → ctx1.objs[g]? = ctx.objs[g]?) ∧
      (∀ (elems : List (Option SV)) (i : Nat), SvROK sv = true → ctx.seen_perl.lookup (SvRV sv) = none →
        (my_perl.deref (SvRV sv)).body = Body.av elems →
        elems[i]? = some (some (newRV (SvRV sv))) →
        ∃ g vs, v = Value.object g ∧ ctx1.objs[g]? = some (GObj.array vs) ∧
          vs[i]? = some (some (Value.object g))) := by
  have hcard : (unseen my_perl []).card < my_perl.heap.length + 1 := by
    have h2 := unseen_card_le my_perl []
    omega
  obtain ⟨v, new, ctx1, hres, _⟩ :=
    sv2v8_total eng my_perl (my_perl.heap.length + 1) sv [] ctx hcard
  obtain ⟨_, hframe, _, ⟨_, hnew, hinj, hcov⟩, hconv⟩ :=
    sv2v8_spec eng my_perl hplain _ sv [] ctx v _ ctx1 hres
  have hentry : ∀ p w, (new ++ []).lookup p = some w →
      ∃ g o, w = Value.object g ∧ ctx.objs.length ≤ g ∧ ctx1.objs[g]? = some o ∧
        mirrors my_perl ctx.seen_perl (new ++ []) p o := by
    intro p w hp
    obtain ⟨_, _, g, o, hw, hg, ho, hm⟩ := hnew p w rfl hp
    exact ⟨g, o, hw, hg, ho, hm⟩
  refine ⟨v, new ++ [], ctx1, hres, hconv, hentry, ?_, ?_, hframe, ?_⟩
  · intro p q g hp hq
    exact hinj p q g rfl rfl hp hq
  · intro g hg hlt
    obtain ⟨p, _, hp⟩ := hcov g hg hlt
    exact ⟨p, hp⟩
  · intro elems i hrok hsp hb hi
    have hk : (new ++ []).lookup (SvRV sv) = some v := by
      unfold converted at hconv
      simp only [hrok, if_true] at hconv
      rcases hconv with h | ⟨_, hc, _⟩
      · unfold known at h; rw [hsp] at h; exact h
      · rw [hb] at hc; simp [Body.isContainer] at hc
    obtain ⟨g, o, hv, _, ho, hm⟩ := hentry _ _ hk
    unfold mirrors at hm
    rw [hb] at hm
    obtain ⟨vs, hvs, hf⟩ := hm
    obtain ⟨x, hx, hslot⟩ := forall₂_getElem? _ _ _ hf i _ hi
    obtain ⟨w, hxw, hcw⟩ := hslot
    refine ⟨g, vs, hv, by rw [ho, hvs], ?_⟩
    rw [hx, hxw]
    have hw : w = v := by
      unfold converted at hcw
      have hr : SvROK (newRV (SvRV sv)) = true := rfl
      have hp : SvRV (newRV (SvRV sv)) = SvRV sv := rfl
      simp only [hr, if_true, hp] at hcw
      rcases hcw with h | ⟨_, hc, _⟩
      · unfold known at h
        rw [hsp, hk] at h
        injection h with h
        exact h.symm
      · rw [hb] at hc; simp [Body.isContainer] at hc
    rw [hw, hv]

/-- Witness of C2: the sample array at address `0` holds a reference to itself at index
`1`, and the guest array it converts to holds itself in slot `1`. -/
theorem sv2v8_identity_witness :
    plainData demoInterp = true ∧
    ∃ v seen1 ctx1,
      sv2v8 demoEngine demoInterp 3 (newRV 0) [] demoContext = some (v, seen1, ctx1) ∧
      ∃ g vs, v = Value.object g ∧ ctx1.objs[g]? = some (GObj.array vs) ∧
        vs[1]? = some (some (Value.object g)) := by
  refine ⟨by decide, ?_⟩
  obtain ⟨v, seen1, ctx1, hres, _, _, _, _, _, hself⟩ :=
    sv2v8_identity demoEngine demoInterp (newRV 0) demoContext (by decide)
  exact ⟨v, seen1, ctx1, hres, hself _ 1 rfl rfl rfl rfl⟩

/-! ### Primitive values -/

/-- C5: `v82sv` maps guest `null` and guest `undefined` to the same host scalar, the
undefined scalar `newSV(0)`; `sv2v8` maps every undefined host scalar (no value flag
set), `newSV(0)` among them, to guest `undefined`; hence `null` converted to the host
and back is `undefined`, not `null`. -/
theorem null_undefined_collapse (eng : Engine) (fuel : Nat) (seen : SvMap)
    (cache : HandleMap) (my_perl : Interp) (ctx : V8Context) (sv : SV)
    (hundef : SvOK sv = false) :
    v82sv eng (fuel + 1) Value.null seen my_perl ctx = some (newSV0, seen, my_perl, ctx) ∧
    v82sv eng (fuel + 1) Value.undefined seen my_perl ctx
      = some (newSV0, seen, my_perl, ctx) ∧
    SvOK newSV0 = false ∧
    sv2v8 eng my_perl (fuel + 1) sv cache ctx = some (Value.undefined, cache, ctx) ∧
    sv2v8 eng my_perl (fuel + 1) newSV0 cache ctx = some (Value.undefined, cache, ctx) ∧
    (match v82sv_top eng (fuel + 1) Value.null my_perl ctx with
      | some (back, p1, ctx1) => sv2v8_top eng p1 (fuel + 1) back ctx1
      | none => none) = some (Value.undefined, ctx) ∧
    Value.undefined ≠ Value.null := by
  have hflags : ((sv.rok = false ∧ sv.pok = false) ∧ sv.iok = false) ∧ sv.nok = false := by
    simpa [SvOK] using hundef
  obtain ⟨⟨⟨h1, h2⟩, h3⟩, h4⟩ := hflags
  refine ⟨rfl, rfl, rfl, ?_, rfl, rfl, by simp⟩
  simp [sv2v8, SvROK, SvPOK, SvIOK, SvNOK, SvOK, h1, h2, h3, h4]

/-- Witness of C5 at a scalar without value flags that still holds an old string. -/
theorem null_undefined_collapse_witness :
    SvOK { newSV0 with pv := "old" } = false ∧
    sv2v8 demoEngine demoInterp 1 { newSV0 with pv := "old" } [] demoContext
      = some (Value.undefined, [], demoContext) :=
  ⟨rfl, (null_undefined_collapse demoEngine 0 [] [] demoInterp demoContext
    { newSV0 with pv := "old" } rfl).2.2.2.1⟩

/-! ### Call proxies and errors -/

/-- C8: when the owning context of a guest-origin function wrapper is gone
(`data->context` is null), `v8closure` ends in `croak` with the error variable set to
`"Fatal error: V8 context is no more"`. The outcome is the same for every engine, every
fuel, every argument list and every call context, with the host heap as it was: no
argument is converted and the guest function is not called. -/
theorem v8closure_context_gone (eng : Engine) (fuel : Nat) (data : ObjectData)
    (args : List SV) ( is_method : Bool) (gimme_array : Bool) (my_perl : Interp) :
    v8closure eng fuel data none args is_method gimme_array my_perl
      = some (XS.croak,
          { my_perl with errsv := newSVpvn "Fatal error: V8 context is no more" }, none) := by
  have h : String.mk (cstr "Fatal error: V8 context is no more")
      = "Fatal error: V8 context is no more" := by decide
  simp only [v8closure, sv_setpv_ERRSV, h]

/-- C6, the code at the failing input: the wrapper is flagged as returning a list, the
guest function returns the array `[10, 20, 30]` without raising, and the host call is
made in a context that expects a single result (`GIMME_V` is not `G_ARRAY`). The stub
returns one result, a reference to a new host array (at address `1`) that holds 10, 20
and 30, and not the number 3. In a context that expects a list the same call returns
the three elements. -/
theorem v8closure_scalar_context_gives_reference :
    v8closure demoEngine 2 listData (some listContext) [] false false codeInterp
      = some (XS.XSRETURN [newRV 1],
          { codeInterp with heap := [Referent.mk none Body.cv, Referent.mk none
              (Body.av [some (newSViv 10), some (newSViv 20), some (newSViv 30)])] },
          some listContext) ∧
    newRV 1 ≠ newSViv 3 ∧
    v8closure demoEngine 2 listData (some listContext) [] false true codeInterp
      = some (XS.XSRETURN [newSViv 10, newSViv 20, newSViv 30], codeInterp,
          some listContext) := by
  refine ⟨rfl, by decide, rfl⟩

/-- C7, the code at the failing input: the host callable dies with an exception object,
so that the error variable holds the text `My::Error=HASH(0x1f)`, which does not end in
a newline. The guest exception carries the text without its last byte. For a text that
ends in a newline the message is the text without the newline. -/
theorem invoke_drops_last_byte :
    PerlFunctionData_invoke dieEngine 1 0 [] codeInterp demoContext
      = some (Outcome.exception "My::Error=HASH(0x1f",
          { codeInterp with
            heap := [Referent.mk none Body.cv, Referent.mk (some "My::Error") (Body.hv [])],
            errsv := PL_sv_no },
          demoContext) ∧
    (check_perl_error demoEngine
        { codeInterp with errsv := newSVpvn "boom at t.pl line 1.\n" }).1
      = some "boom at t.pl line 1." := by
  exact ⟨rfl, by decide⟩

theorem snprintf_length_le (size : Nat) (formatted : List Char) :
    (snprintf size formatted).data.length ≤ size - 1 := by
  simp [snprintf, List.length_take]

theorem snprintf_of_fits (size : Nat) (formatted : List Char)
    (h : formatted.length ≤ size - 1) : snprintf size formatted = String.mk formatted := by
  simp [snprintf, List.take_of_length_le h]

/-- C9 as stated fails: for the exception text of 1100 bytes from the script `EVAL`,
line 1, `error_message` does not return the text `m ++ " at " ++ s ++ ":" ++ decimal(n)`:
what it returns has at most 1023 bytes. -/
theorem error_message_long_counterexample :
    error_message longTryCatch
      ≠ message_text (String.mk (List.replicate 1100 'a')) "EVAL" 1 ∧
    (error_message longTryCatch).data.length ≤ 1023 := by
  have hlen : (error_message longTryCatch).data.length ≤ 1023 := by
    unfold error_message
    exact snprintf_length_le 1024 _
  refine ⟨?_, hlen⟩
  intro h
  rw [h] at hlen
  have hge : 1100 ≤ (message_text (String.mk (List.replicate 1100 'a')) "EVAL" 1).data.length := by
    simp only [message_text, List.length_append, List.length_replicate]
    omega
  omega

/-- C9, amended: for a caught exception with text `m`, script resource name `s` and line
number `n`, where `m` and `s` hold no NUL byte, `error_message` returns the first 1023
bytes of `m ++ " at " ++ s ++ ":" ++ decimal(n)`, and exactly that text when it is at most
1023 bytes long; when the engine supplies no message object, the source is `"EVAL"` and
the line is `0`. -/
theorem error_message_format (m s : String) (n : Int)
    (hm : cstr m = m.data) (hs : cstr s = s.data) :
    (error_message { exception := m, message := some (s, n) }).data
        = (message_text m s n).data.take 1023 ∧
    ((message_text m s n).data.length ≤ 1023 →
      error_message { exception := m, message := some (s, n) } = message_text m s n) ∧
    error_message { exception := m, message := none }
        = error_message { exception := m, message := some ("EVAL", 0) } := by
  have hE : cstr "EVAL" = "EVAL".data := by decide
  refine ⟨?_, ?_, ?_⟩
  · simp [error_message, snprintf, message_text, hm, hs]
  · intro hlen
    simp only [error_message, message_text, hm, hs] at hlen ⊢
    exact snprintf_of_fits 1024 _ hlen
  · simp only [error_message, hE]

/-- Witness of C9, amended: the text `boom` raised at line 12 of `file.js`. -/
theorem error_message_format_witness :
    error_message { exception := "boom", message := some ("file.js", 12) }
      = "boom at file.js:12" :=
  (error_message_format "boom" "file.js" 12 (by decide) (by decide)).2.1 (by decide)

/-! ### Round trip of a hash of primitive values -/

theorem lookup_map_snd {α β : Type} (g : α → β) (l : List (String × α)) (k : String) :
    (l.map (fun e => (e.1, g e.2))).lookup k = (l.lookup k).map g := by
  induction l with
  | nil => rfl
  | cons e rest ih =>
    obtain ⟨k1, v1⟩ := e
    simp only [List.map_cons, List.lookup]
    cases k == k1 <;> simp [ih]

theorem lookup_append_left_str {α : Type} (l1 l2 : List (String × α)) (k : String) (v : α)
    (h : l1.lookup k = some v) : (l1 ++ l2).lookup k = some v := by
  induction l1 with
  | nil => simp [List.lookup] at h
  | cons e rest ih =>
    obtain ⟨k1, v1⟩ := e
    by_cases hk : k = k1
    · subst hk; simpa [List.lookup] using h
    · have hb : (k == k1) = false := by simpa using hk
      simp only [List.cons_append, List.lookup, hb] at h ⊢
      exact ih h

theorem lookup_append_right_str {α : Type} (l1 l2 : List (String × α)) (k : String)
    (h : l1.lookup k = none) : (l1 ++ l2).lookup k = l2.lookup k := by
  induction l1 with
  | nil => rfl
  | cons e rest ih =>
    obtain ⟨k1, v1⟩ := e
    by_cases hk : k = k1
    · subst hk; simp [List.lookup] at h
    · have hb : (k == k1) = false := by simpa using hk
      simp only [List.cons_append, List.lookup, hb] at h ⊢
      exact ih h

theorem own_entries (props : List (String × Value)) :
    (own props).map (fun e => (e.1, e.2.1)) = props := by
  simp [own, List.map_map, Function.comp_def]

/-- The conversion of an object without prototype that carries `__perlPackage` has no
result when classing is enabled and the synthesized package does not exist yet:
`object2blessed` applies `GetPropertyNames` to the empty handle that
`obj->GetPrototype()->ToObject()` gives. So `eval` of a source that runs to such an
object does not return. -/
theorem eval_bare_object_no_result (fuel : Nat) :
    bareContext.enable_blessing = true ∧
    eval (runEngine (Value.object 0)) fuel (newSVpvn "o") none emptyInterp bareContext
      = none := by
  refine ⟨rfl, ?_⟩
  cases fuel with
  | zero => rfl
  | succ n => rfl

/-! ### Synthesized class names -/

/-- The class name synthesized by `object2blessed` depends on the context only through
its prefix and the static counter of the process, which all contexts share. -/
theorem package_name_shared (eng : Engine) (proc : Process) (i j obj1 obj2 : Nat)
    (c1 c2 : V8Context) (h1 : proc.context i = some c1) (h2 : proc.context j = some c2)
    (hpfx : c1.bless_prefix = c2.bless_prefix)
    (hpkg : c1.Get obj1 "__perlPackage" = c2.Get obj2 "__perlPackage") :
    package_name eng c1 obj1 = package_name eng c2 obj2 := by
  have hn : ∀ (k : Nat) (c : V8Context), proc.context k = some c → c.number = proc.number := by
    intro k c h
    unfold Process.context at h
    split at h
    · injection h with h; rw [← h]
    · exact absurd h (by simp)
  unfold package_name
  simp only [hpfx, hpkg, hn i c1 h1, hn j c2 h2]

/-- C11, the code at the failing input: two contexts are constructed with the prefix
`P::`, then each converts a guest object that carries `__perlPackage = "Foo"`. Both
synthesize the class name `P::Foo::N2`: `object2blessed` formats the static
`V8Context::number`, which every construction increments and all contexts share. -/
theorem class_name_collision :
    twoContexts.contexts.length = 2 ∧
    Process.class_name demoEngine twoContexts 0 0 = some "P::Foo::N2" ∧
    Process.class_name demoEngine twoContexts 1 0 = some "P::Foo::N2" := by
  refine ⟨rfl, ?_, ?_⟩ <;> decide

/-- C12, the code at the failing input: context `0` (prefix `P::`) holds two guest
objects that carry `__perlPackage = "Foo"`. For the first it synthesizes `P::Foo::N1`;
once a second context has been constructed it synthesizes `P::Foo::N2` for the second,
so the two conversions create two host packages instead of reusing one. -/
theorem class_name_changes :
    Process.class_name demoEngine oneContext 0 0 = some "P::Foo::N1" ∧
    Process.class_name demoEngine oneContext 0 1 = some "P::Foo::N1" ∧
    Process.class_name demoEngine (oneContext.construct true "Q::") 0 1
      = some "P::Foo::N2" ∧
    packagesAfterTwoConversions = ["P::Foo::N1", "P::Foo::N2"] := by
  refine ⟨?_, ?_, ?_, ?_⟩ <;> decide

/-! ### The identity map and the live wrappers -/

theorem lookup_filter_ne {α : Type} (m : List (Nat × α)) (k q : Nat) (h : q ≠ k) :
    (m.filter (fun e => e.1 != k)).lookup q = m.lookup q := by
  induction m with
  | nil => rfl
  | cons e rest ih =>
    obtain ⟨k1, v1⟩ := e
    by_cases hk : k1 = k
    · subst hk
      have hb : (q == k1) = false := by simpa using h
      simp [List.filter, List.lookup, hb, ih]
    · have hb : (k1 != k) = true := by simpa using hk
      simp only [List.filter, hb, List.lookup]
      cases q == k1 <;> simp [ih]

theorem lookup_filter_self {α : Type} (m : List (Nat × α)) (k : Nat) :
    (m.filter (fun e => e.1 != k)).lookup k = none := by
  induction m with
  | nil => rfl
  | cons e rest ih =>
    obtain ⟨k1, v1⟩ := e
    by_cases hk : k1 = k
    · subst hk; simp [List.filter, ih]
    · have hb : (k1 != k) = true := by simpa using hk
      have hb2 : (k == k1) = false := by simpa using (Ne.symm hk)
      simp only [List.filter, hb, List.lookup, hb2]
      exact ih

theorem lookup_mapSet_self {α : Type} (m : List (Nat × α)) (k : Nat) (v : α) :
    (mapSet k v m).lookup k = some v := by
  simp [mapSet, List.lookup]

theorem lookup_mapSet_ne {α : Type} (m : List (Nat × α)) (k q : Nat) (v : α) (h : q ≠ k) :
    (mapSet k v m).lookup q = m.lookup q := by
  have hb : (q == k) = false := by simpa using h
  simp only [mapSet, List.lookup, hb]
  exact lookup_filter_ne m k q h

theorem nodup_keys_filter {α : Type} (m : List (Nat × α)) (f : Nat × α → Bool)
    (h : (m.map Prod.fst).Nodup) : ((m.filter f).map Prod.fst).Nodup :=
  List.Nodup.sublist (List.Sublist.map Prod.fst (List.filter_sublist m)) h

theorem nodup_keys_mapSet {α : Type} (m : List (Nat × α)) (k : Nat) (v : α)
    (h : (m.map Prod.fst).Nodup) : ((mapSet k v m).map Prod.fst).Nodup := by
  unfold mapSet
  simp only [List.map_cons, List.nodup_cons]
  refine ⟨?_, nodup_keys_filter m _ h⟩
  intro hmem
  obtain ⟨e, he, hk⟩ := List.mem_map.mp hmem
  have := (List.mem_filter.mp he).2
  simp [hk] at this

theorem lookup_append_single {α : Type} (m : List (Nat × α)) (k q : Nat) (v : α)
    (hfresh : m.lookup k = none) :
    (m ++ [(k, v)]).lookup q = if q = k then some v else m.lookup q := by
  by_cases hq : q = k
  · subst hq
    rw [lookup_append_of_none m _ q hfresh]
    simp [List.lookup]
  · simp only [hq, if_false]
    cases hm : m.lookup q with
    | some w => exact lookup_append_some m _ q w hm
    | none =>
      rw [lookup_append_of_none m _ q hm]
      have hb : (q == k) = false := by simpa using hq
      simp [List.lookup, hb]

/-- Constructing a wrapper with the host value `p`, which has no entry yet, keeps the
map and the live wrappers consistent. -/
theorem Consistent.register (seen_perl : List (Nat × Nat)) (live : List (Nat × Wrapper))
    (next : Nat) (data : Wrapper) (p : Nat) (h : Consistent seen_perl live next)
    (hp : seen_perl.lookup p = none) (hsv : data.sv = some p) (hptr : data.ptr = p) :
    Consistent (mapSet p next seen_perl) (live ++ [(next, data)]) (next + 1) := by
  obtain ⟨h1, h2, h3, h4⟩ := h
  have hfresh : live.lookup next = none := by
    cases hl : live.lookup next with
    | none => rfl
    | some d => exact absurd (h4 next d hl) (lt_irrefl _)
  refine ⟨?_, ?_, nodup_keys_mapSet _ _ _ h3, ?_⟩
  · intro q this hq
    by_cases hqp : q = p
    · subst hqp
      rw [lookup_mapSet_self] at hq
      injection hq with hq
      subst hq
      exact ⟨data, by rw [lookup_append_single live _ _ _ hfresh]; simp, hsv⟩
    · rw [lookup_mapSet_ne _ _ _ _ hqp] at hq
      obtain ⟨d, hd, hs⟩ := h1 q this hq
      exact ⟨d, lookup_append_some live _ this d hd, hs⟩
  · intro this d q hl hs
    rw [lookup_append_single live _ _ _ hfresh] at hl
    by_cases ht : this = next
    · subst ht
      simp only [if_true, Option.some.injEq] at hl
      subst hl
      have hqp : q = p := by rw [hsv] at hs; injection hs with hs; exact hs.symm
      subst hqp
      exact ⟨hptr, lookup_mapSet_self _ _ _⟩
    · simp only [ht, if_false] at hl
      obtain ⟨a, c⟩ := h2 this d q hl hs
      have hqp : q ≠ p := by
        intro he; rw [he, hp] at c; simp at c
      exact ⟨a, by rw [lookup_mapSet_ne _ _ _ _ hqp]; exact c⟩
  · intro this d hl
    rw [lookup_append_single live _ _ _ hfresh] at hl
    by_cases ht : this = next
    · omega
    · simp only [ht, if_false] at hl
      have := h4 this d hl
      omega

/-- Constructing a wrapper without host value keeps the map and the live wrappers
consistent. -/
theorem Consistent.unregistered (seen_perl : List (Nat × Nat))
    (live : List (Nat × Wrapper)) (next : Nat) (data : Wrapper)
    (h : Consistent seen_perl live next) (hsv : data.sv = none) :
    Consistent seen_perl (live ++ [(next, data)]) (next + 1) := by
  obtain ⟨h1, h2, h3, h4⟩ := h
  have hfresh : live.lookup next = none := by
    cases hl : live.lookup next with
    | none => rfl
    | some d => exact absurd (h4 next d hl) (lt_irrefl _)
  refine ⟨?_, ?_, h3, ?_⟩
  · intro q this hq
    obtain ⟨d, hd, hs⟩ := h1 q this hq
    exact ⟨d, lookup_append_some live _ this d hd, hs⟩
  · intro this d q hl hs
    rw [lookup_append_single live _ _ _ hfresh] at hl
    by_cases ht : this = next
    · subst ht
      simp only [if_true, Option.some.injEq] at hl
      subst hl
      rw [hsv] at hs
      simp at hs
    · simp only [ht, if_false] at hl
      exact h2 this d q hl hs
  · intro this d hl
    rw [lookup_append_single live _ _ _ hfresh] at hl
    by_cases ht : this = next
    · omega
    · simp only [ht, if_false] at hl
      have := h4 this d hl
      omega

/-- Deleting a live wrapper that has the host value `p` keeps the map and the live
wrappers consistent. -/
theorem Consistent.remove (seen_perl : List (Nat × Nat)) (live : List (Nat × Wrapper))
    (next this : Nat) (data : Wrapper) (p : Nat) (h : Consistent seen_perl live next)
    (hl : live.lookup this = some data) (hsv : data.sv = some p) :
    Consistent (seen_perl.filter (fun e => e.1 != p))
      (live.filter (fun e => e.1 != this)) next := by
  obtain ⟨h1, h2, h3, h4⟩ := h
  have hthis : seen_perl.lookup p = some this := (h2 this data p hl hsv).2
  refine ⟨?_, ?_, nodup_keys_filter _ _ h3, ?_⟩
  · intro q id hq
    have hqp : q ≠ p := by
      intro he; rw [he, lookup_filter_self] at hq; simp at hq
    rw [lookup_filter_ne _ _ _ hqp] at hq
    obtain ⟨d, hd, hs⟩ := h1 q id hq
    have hid : id ≠ this := by
      intro he
      rw [he, hl] at hd
      injection hd with hd
      rw [← hd, hsv] at hs
      injection hs with hs
      exact hqp hs.symm
    exact ⟨d, by rw [lookup_filter_ne _ _ _ hid]; exact hd, hs⟩
  · intro id d q hd hs
    have hid : id ≠ this := by
      intro he; rw [he, lookup_filter_self] at hd; simp at hd
    rw [lookup_filter_ne _ _ _ hid] at hd
    obtain ⟨a, c⟩ := h2 id d q hd hs
    have hqp : q ≠ p := by
      intro he
      rw [he, hthis] at c
      injection c with c
      exact hid c.symm
    exact ⟨a, by rw [lookup_filter_ne _ _ _ hqp]; exact c⟩
  · intro id d hd
    have hid : id ≠ this := by
      intro he; rw [he, lookup_filter_self] at hd; simp at hd
    rw [lookup_filter_ne _ _ _ hid] at hd
    exact h4 id d hd

theorem new_PerlObjectData_maps (sizeof_PerlObjectData : Nat) (b : Bridge)
    (object sv uninit : Nat) :
    ∃ data, (new_PerlObjectData sizeof_PerlObjectData b object (some sv) uninit).2.live
        = b.live ++ [(b.next, data)] ∧ data.sv = some sv ∧ data.ptr = sv ∧
      (new_PerlObjectData sizeof_PerlObjectData b object (some sv) uninit).2.seen_perl
        = mapSet sv b.next b.seen_perl ∧
      (new_PerlObjectData sizeof_PerlObjectData b object (some sv) uninit).2.next
        = b.next + 1 :=
  ⟨_, rfl, rfl, rfl, rfl, rfl⟩

theorem new_PerlFunctionData_maps (sizeof_PerlObjectData : Nat) (b : Bridge)
    (cv uninit : Nat) :
    ∃ data, (new_PerlFunctionData sizeof_PerlObjectData b (some cv) uninit).2.live
        = b.live ++ [(b.next, data)] ∧ data.sv = some cv ∧ data.ptr = cv ∧
      (new_PerlFunctionData sizeof_PerlObjectData b (some cv) uninit).2.seen_perl
        = mapSet cv b.next b.seen_perl ∧
      (new_PerlFunctionData sizeof_PerlObjectData b (some cv) uninit).2.next
        = b.next + 1 :=
  ⟨_, rfl, rfl, rfl, rfl, rfl⟩

theorem new_PerlMethodData_maps (sizeof_PerlObjectData : Nat) (b : Bridge)
    (name : String) (uninit : Nat) :
    ∃ data, (new_PerlMethodData sizeof_PerlObjectData b name uninit).2.live
        = b.live ++ [(b.next, data)] ∧ data.sv = none ∧
      (new_PerlMethodData sizeof_PerlObjectData b name uninit).2.seen_perl = b.seen_perl ∧
      (new_PerlMethodData sizeof_PerlObjectData b name uninit).2.next = b.next + 1 :=
  ⟨_, rfl, rfl, rfl, rfl⟩

theorem new_V8ObjectData_maps (b : Bridge) (object sv uninit : Nat) :
    ∃ data, (new_V8ObjectData b object sv uninit).2.live = b.live ++ [(b.next, data)] ∧
      data.sv = some sv ∧ data.ptr = sv ∧
      (new_V8ObjectData b object sv uninit).2.seen_perl = mapSet sv b.next b.seen_perl ∧
      (new_V8ObjectData b object sv uninit).2.next = b.next + 1 :=
  ⟨_, rfl, rfl, rfl, rfl, rfl⟩

theorem new_V8FunctionData_maps (b : Bridge) (fn code uninit : Nat) :
    ∃ data, (new_V8FunctionData b fn code uninit).2.live = b.live ++ [(b.next, data)] ∧
      data.sv = some code ∧ data.ptr = code ∧
      (new_V8FunctionData b fn code uninit).2.seen_perl
        = mapSet code b.next b.seen_perl ∧
      (new_V8FunctionData b fn code uninit).2.next = b.next + 1 :=
  ⟨_, rfl, rfl, rfl, rfl, rfl⟩

theorem delete_wrapper_maps (b b1 : Bridge) (this : Nat) (data : Wrapper)
    (hl : b.live.lookup this = some data) (hd : delete_wrapper b this = some b1) :
    b1.seen_perl = b.seen_perl.filter (fun e => e.1 != data.ptr) ∧
    b1.live = b.live.filter (fun e => e.1 != this) ∧ b1.next = b.next := by
  unfold delete_wrapper at hd
  rw [hl] at hd
  simp only [Option.some.injEq] at hd
  subst hd
  by_cases hc : data.cls.isPerl = true
  · simp only [hc, if_true]
    cases hs : data.sv <;>
      simp [PerlObjectData_dtor, add_size, ObjectData_dtor, Bridge.remove_object,
        Bridge.SvREFCNT_dec, hs]
  · simp [hc, ObjectData_dtor, Bridge.remove_object, Bridge.SvREFCNT_dec]

/-- Constructing a wrapper with the host value `p` keeps every entry of the map linked
to a live wrapper, whether `p` had an entry or not. -/
theorem linked_register (seen_perl : List (Nat × Nat)) (live : List (Nat × Wrapper))
    (next : Nat) (data : Wrapper) (p : Nat) (h : Linked seen_perl live next)
    (hsv : data.sv = some p) (hptr : data.ptr = p) :
    Linked (mapSet p next seen_perl) (live ++ [(next, data)]) (next + 1) := by
  obtain ⟨h1, h2, h3, h4⟩ := h
  have hfresh : live.lookup next = none := by
    cases hl : live.lookup next with
    | none => rfl
    | some d => exact absurd (h4 next d hl) (lt_irrefl _)
  refine ⟨?_, ?_, nodup_keys_mapSet _ _ _ h3, ?_⟩
  · intro q this hq
    by_cases hqp : q = p
    · subst hqp
      rw [lookup_mapSet_self] at hq
      injection hq with hq
      subst hq
      exact ⟨data, by rw [lookup_append_single live _ _ _ hfresh]; simp, hsv⟩
    · rw [lookup_mapSet_ne _ _ _ _ hqp] at hq
      obtain ⟨d, hd, hs⟩ := h1 q this hq
      exact ⟨d, lookup_append_some live _ this d hd, hs⟩
  · intro this d q hl hs
    rw [lookup_append_single live _ _ _ hfresh] at hl
    by_cases ht : this = next
    · subst ht
      simp only [if_true, Option.some.injEq] at hl
      subst hl
      have hqp : q = p := by rw [hsv] at hs; injection hs with hs; exact hs.symm
      rw [hqp]
      exact hptr
    · simp only [ht, if_false] at hl
      exact h2 this d q hl hs
  · intro this d hl
    rw [lookup_append_single live _ _ _ hfresh] at hl
    by_cases ht : this = next
    · omega
    · simp only [ht, if_false] at hl
      have := h4 this d hl
      omega

theorem linked_unregistered (seen_perl : List (Nat × Nat))
    (live : List (Nat × Wrapper)) (next : Nat) (data : Wrapper)
    (h : Linked seen_perl live next) (hsv : data.sv = none) :
    Linked seen_perl (live ++ [(next, data)]) (next + 1) := by
  obtain ⟨h1, h2, h3, h4⟩ := h
  have hfresh : live.lookup next = none := by
    cases hl : live.lookup next with
    | none => rfl
    | some d => exact absurd (h4 next d hl) (lt_irrefl _)
  refine ⟨?_, ?_, h3, ?_⟩
  · intro q this hq
    obtain ⟨d, hd, hs⟩ := h1 q this hq
    exact ⟨d, lookup_append_some live _ this d hd, hs⟩
  · intro this d q hl hs
    rw [lookup_append_single live _ _ _ hfresh] at hl
    by_cases ht : this = next
    · subst ht
      simp only [if_true, Option.some.injEq] at hl
      subst hl
      rw [hsv] at hs
      simp at hs
    · simp only [ht, if_false] at hl
      exact h2 this d q hl hs
  · intro this d hl
    rw [lookup_append_single live _ _ _ hfresh] at hl
    by_cases ht : this = next
    · omega
    · simp only [ht, if_false] at hl
      have := h4 this d hl
      omega

/-- Deleting a live wrapper that has the host value `p` keeps every remaining entry
linked to a live wrapper. -/
theorem linked_remove (seen_perl : List (Nat × Nat)) (live : List (Nat × Wrapper))
    (next this : Nat) (data : Wrapper) (p : Nat) (h : Linked seen_perl live next)
    (hl : live.lookup this = some data) (hsv : data.sv = some p) :
    Linked (seen_perl.filter (fun e => e.1 != p))
      (live.filter (fun e => e.1 != this)) next := by
  obtain ⟨h1, h2, h3, h4⟩ := h
  refine ⟨?_, ?_, nodup_keys_filter _ _ h3, ?_⟩
  · intro q id hq
    have hqp : q ≠ p := by
      intro he; rw [he, lookup_filter_self] at hq; simp at hq
    rw [lookup_filter_ne _ _ _ hqp] at hq
    obtain ⟨d, hd, hs⟩ := h1 q id hq
    have hid : id ≠ this := by
      intro he
      rw [he, hl] at hd
      injection hd with hd
      rw [← hd, hsv] at hs
      injection hs with hs
      exact hqp hs.symm
    exact ⟨d, by rw [lookup_filter_ne _ _ _ hid]; exact hd, hs⟩
  · intro id d q hd hs
    have hid : id ≠ this := by
      intro he; rw [he, lookup_filter_self] at hd; simp at hd
    rw [lookup_filter_ne _ _ _ hid] at hd
    exact h2 id d q hd hs
  · intro id d hd
    have hid : id ≠ this := by
      intro he; rw [he, lookup_filter_self] at hd; simp at hd
    rw [lookup_filter_ne _ _ _ hid] at hd
    exact h4 id d hd

/-- In every reachable state every entry of the identity map is linked to a live
wrapper. -/
theorem Reachable.linked (sizeof_PerlObjectData : Nat) (b : Bridge)
    (h : Reachable sizeof_PerlObjectData b) : Linked b.seen_perl b.live b.next := by
  induction h with
  | fresh objs rc my_sv =>
    refine ⟨?_, ?_, List.nodup_nil, ?_⟩ <;> intro _ _ <;> simp [Bridge.fresh, List.lookup]
  | perl_object b object sv uninit _ ih =>
    obtain ⟨data, hl, hs, hptr, hm, hn⟩ :=
      new_PerlObjectData_maps sizeof_PerlObjectData b object sv uninit
    rw [hl, hm, hn]
    exact linked_register _ _ _ data sv ih hs hptr
  | perl_function b cv uninit _ ih =>
    obtain ⟨data, hl, hs, hptr, hm, hn⟩ :=
      new_PerlFunctionData_maps sizeof_PerlObjectData b cv uninit
    rw [hl, hm, hn]
    exact linked_register _ _ _ data cv ih hs hptr
  | perl_method b name uninit _ ih =>
    obtain ⟨data, hl, hs, hm, hn⟩ :=
      new_PerlMethodData_maps sizeof_PerlObjectData b name uninit
    rw [hl, hm, hn]
    exact linked_unregistered _ _ _ data ih hs
  | v8_object b object sv uninit _ ih =>
    obtain ⟨data, hl, hs, hptr, hm, hn⟩ := new_V8ObjectData_maps b object sv uninit
    rw [hl, hm, hn]
    exact linked_register _ _ _ data sv ih hs hptr
  | v8_function b fn code uninit _ ih =>
    obtain ⟨data, hl, hs, hptr, hm, hn⟩ := new_V8FunctionData_maps b fn code uninit
    rw [hl, hm, hn]
    exact linked_register _ _ _ data code ih hs hptr
  | delete b b1 this data _ hl hreg hd ih =>
    obtain ⟨hm, hlive, hn⟩ := delete_wrapper_maps b b1 this data hl hd
    obtain ⟨p, hp⟩ : ∃ p, data.sv = some p := by
      unfold Wrapper.registered at hreg
      cases hs : data.sv with
      | none => rw [hs] at hreg; simp at hreg
      | some p => exact ⟨p, rfl⟩
    have hptr : data.ptr = p := ih.2.1 this data p hl hp
    rw [hm, hlive, hn, hptr]
    exact linked_remove _ _ _ this data p ih hl hp
  | guest b objs prototypes errsv inherited _ ih => exact ih

/-- A regular state is reachable. -/
theorem Regular.reachable (sizeof_PerlObjectData : Nat) (b : Bridge)
    (h : Regular sizeof_PerlObjectData b) : Reachable sizeof_PerlObjectData b := by
  induction h with
  | fresh objs rc my_sv => exact Reachable.fresh objs rc my_sv
  | perl_object b object sv uninit _ _ ih => exact Reachable.perl_object b object sv uninit ih
  | perl_function b cv uninit _ _ ih => exact Reachable.perl_function b cv uninit ih
  | perl_method b name uninit _ ih => exact Reachable.perl_method b name uninit ih
  | v8_object b object sv uninit _ _ ih => exact Reachable.v8_object b object sv uninit ih
  | v8_function b fn code uninit _ _ ih => exact Reachable.v8_function b fn code uninit ih
  | delete b b1 this data _ hl hreg hd ih => exact Reachable.delete b b1 this data ih hl hreg hd
  | guest b objs prototypes errsv inherited _ ih =>
    exact Reachable.guest b objs prototypes errsv inherited ih

/-- In every regular state the identity map and the live wrappers are consistent. -/
theorem Regular.consistent (sizeof_PerlObjectData : Nat) (b : Bridge)
    (h : Regular sizeof_PerlObjectData b) : Consistent b.seen_perl b.live b.next := by
  induction h with
  | fresh objs rc my_sv =>
    refine ⟨?_, ?_, List.nodup_nil, ?_⟩ <;> intro _ _ <;> simp [Bridge.fresh, List.lookup]
  | perl_object b object sv uninit _ hp ih =>
    obtain ⟨data, hl, hs, hptr, hm, hn⟩ :=
      new_PerlObjectData_maps sizeof_PerlObjectData b object sv uninit
    rw [hl, hm, hn]
    exact Consistent.register _ _ _ data sv ih hp hs hptr
  | perl_function b cv uninit _ hp ih =>
    obtain ⟨data, hl, hs, hptr, hm, hn⟩ :=
      new_PerlFunctionData_maps sizeof_PerlObjectData b cv uninit
    rw [hl, hm, hn]
    exact Consistent.register _ _ _ data cv ih hp hs hptr
  | perl_method b name uninit _ ih =>
    obtain ⟨data, hl, hs, hm, hn⟩ :=
      new_PerlMethodData_maps sizeof_PerlObjectData b name uninit
    rw [hl, hm, hn]
    exact Consistent.unregistered _ _ _ data ih hs
  | v8_object b object sv uninit _ hp ih =>
    obtain ⟨data, hl, hs, hptr, hm, hn⟩ := new_V8ObjectData_maps b object sv uninit
    rw [hl, hm, hn]
    exact Consistent.register _ _ _ data sv ih hp hs hptr
  | v8_function b fn code uninit _ hp ih =>
    obtain ⟨data, hl, hs, hptr, hm, hn⟩ := new_V8FunctionData_maps b fn code uninit
    rw [hl, hm, hn]
    exact Consistent.register _ _ _ data code ih hp hs hptr
  | delete b b1 this data _ hl hreg hd ih =>
    obtain ⟨hm, hlive, hn⟩ := delete_wrapper_maps b b1 this data hl hd
    obtain ⟨p, hp⟩ : ∃ p, data.sv = some p := by
      unfold Wrapper.registered at hreg
      cases hs : data.sv with
      | none => rw [hs] at hreg; simp at hreg
      | some p => exact ⟨p, rfl⟩
    have hptr : data.ptr = p := (ih.2.1 this data p hl hp).1
    rw [hm, hlive, hn, hptr]
    exact Consistent.remove _ _ _ this data p ih hl hp
  | guest b objs prototypes errsv inherited _ ih => exact ih

/-- The lookup of `rv2v8` in the permanent map keeps a state regular: a code value that
has an entry gets no second wrapper. -/
theorem rv2v8_code_regular (sizeof_PerlObjectData : Nat) (b : Bridge) (seen : HandleMap)
    (ptr uninit : Nat) (h : Regular sizeof_PerlObjectData b) :
    Regular sizeof_PerlObjectData (b.rv2v8_code sizeof_PerlObjectData seen ptr uninit).2 := by
  unfold Bridge.rv2v8_code
  cases hl : b.seen_perl.lookup ptr with
  | some this => exact h
  | none =>
    cases hs : seen.lookup ptr with
    | some v => exact h
    | none => exact Regular.perl_function b ptr uninit h hl

theorem reachable_Set (sizeof_PerlObjectData : Nat) (b : Bridge) (id : Nat) (k : String)
    (v : Value) (h : Reachable sizeof_PerlObjectData b) :
    Reachable sizeof_PerlObjectData (b.Set id k v) := by
  unfold Bridge.Set
  cases b.objs[id]? with
  | none => exact h
  | some o => exact Reachable.guest b _ b.prototypes b.errsv b.inherited h

/-- Filling a prototype from one stash leads from a reachable state to a reachable
state. -/
theorem fill_prototype_stash_loop_reachable (sizeof_PerlObjectData : Nat) (sym : Symbols)
    (uninit : Nat → Nat) (prototype : Nat) (stash : String) :
    ∀ (keys : List String) (b b1 : Bridge), Reachable sizeof_PerlObjectData b →
      fill_prototype_stash_loop sizeof_PerlObjectData sym uninit prototype stash keys b
        = some b1 →
      Reachable sizeof_PerlObjectData b1 := by
  intro keys
  induction keys with
  | nil =>
    intro b b1 h he
    simp only [fill_prototype_stash_loop, Option.some.injEq] at he
    exact he ▸ h
  | cons key rest ih =>
    intro b b1 h he
    rw [fill_prototype_stash_loop] at he
    simp only at he
    split at he
    · exact ih b b1 h he
    · split at he
      · split at he
        · cases he
        · rename_i cv _
          exact ih _ b1
            (reachable_Set _ _ _ _ _ (Reachable.perl_function b cv (uninit b.next) h)) he
      · exact ih _ b1
          (reachable_Set _ _ _ _ _ (Reachable.perl_method b _ (uninit b.next) h)) he

/-- Filling a prototype from the ancestor list leads from a reachable state to a
reachable state. -/
theorem fill_prototype_isa_reachable (sizeof_PerlObjectData : Nat) (sym : Symbols)
    (uninit : Nat → Nat) (prototype : Nat) (stash : String) (b b1 : Bridge)
    (h : Reachable sizeof_PerlObjectData b)
    (he : fill_prototype_isa sizeof_PerlObjectData sym uninit prototype stash b = some b1) :
    Reachable sizeof_PerlObjectData b1 := by
  have hloop : ∀ (isa : List String) (b b1 : Bridge), Reachable sizeof_PerlObjectData b →
      fill_prototype_isa_loop sizeof_PerlObjectData sym uninit prototype isa b = some b1 →
      Reachable sizeof_PerlObjectData b1 := by
    intro isa
    induction isa with
    | nil =>
      intro b b1 h he
      simp only [fill_prototype_isa_loop, Option.some.injEq] at he
      exact he ▸ h
    | cons c rest ih =>
      intro b b1 h he
      simp only [fill_prototype_isa_loop, fill_prototype_stash] at he
      cases hk : sym.gv_stashsv c with
      | none => simp [hk] at he
      | some keys =>
        simp only [hk] at he
        cases hs : fill_prototype_stash_loop sizeof_PerlObjectData sym uninit prototype c
            keys b with
        | none => simp [hs] at he
        | some b2 =>
          simp only [hs] at he
          exact ih b2 b1
            (fill_prototype_stash_loop_reachable _ _ _ _ _ keys b b2 h hs) he
  unfold fill_prototype_isa at he
  cases hi : sym.mro_get_linear_isa stash with
  | none =>
    simp only [hi, Option.some.injEq] at he
    exact he ▸ h
  | some isa =>
    simp only [hi] at he
    exact hloop isa b b1 h he

/-- C13 as stated fails: a method wrapper is constructed with no host value, and
`ObjectData::ObjectData` returns before `register_object` for it. After
`new PerlMethodData(this, "hello")` in a context without wrappers there is one live
wrapper and the identity map has no entry. -/
theorem method_wrapper_counterexample :
    methodBridge.live.length = 1 ∧ methodBridge.seen_perl = [] ∧
    (methodBridge.live.map fun e => (e.2.cls, e.2.sv)) = [(WrapperClass.PerlMethodData, none)] := by
  decide

/-- C13, amended. In every state the bridge reaches by constructing wrappers of the five
classes for any host value, deleting wrappers that have a host value, and changing guest
memory (filling a prototype included): every entry of the identity map leads to a live
wrapper constructed with the host value of the entry; the map holds an address once and
two entries never lead to the same wrapper; a live wrapper without host value (a method
wrapper) is the entry of no address; constructing a wrapper with a host value enters it
under that value, constructing a method wrapper leaves the map as it is; deleting a
wrapper with a host value succeeds, removes the entry under that value and the wrapper,
and leaves every other entry as it was.
In the states in which no wrapper was constructed for a host value that had an entry
(`Regular`), moreover every live wrapper with a host value is the entry of that value
and no host value has two live wrappers; the lookup of `rv2v8` in the map keeps a state
regular. -/
theorem identity_map_consistent (sizeof_PerlObjectData : Nat) (b : Bridge)
    (h : Reachable sizeof_PerlObjectData b) :
    (∀ p this, b.seen_perl.lookup p = some this →
      ∃ data, b.live.lookup this = some data ∧ data.sv = some p ∧ data.ptr = p) ∧
    (b.seen_perl.map Prod.fst).Nodup ∧
    (∀ p q this, b.seen_perl.lookup p = some this → b.seen_perl.lookup q = some this →
      p = q) ∧
    (∀ this data, b.live.lookup this = some data → data.sv = none →
      ∀ p, b.seen_perl.lookup p ≠ some this) ∧
    (∀ object sv uninit,
      (new_PerlObjectData sizeof_PerlObjectData b object (some sv) uninit).2.seen_perl.lookup
          sv = some (new_PerlObjectData sizeof_PerlObjectData b object (some sv) uninit).1 ∧
      (new_V8ObjectData b object sv uninit).2.seen_perl.lookup sv
        = some (new_V8ObjectData b object sv uninit).1 ∧
      (new_V8FunctionData b object sv uninit).2.seen_perl.lookup sv
        = some (new_V8FunctionData b object sv uninit).1 ∧
      (new_PerlFunctionData sizeof_PerlObjectData b (some sv) uninit).2.seen_perl.lookup sv
        = some (new_PerlFunctionData sizeof_PerlObjectData b (some sv) uninit).1) ∧
    (∀ name uninit,
      (new_PerlMethodData sizeof_PerlObjectData b name uninit).2.seen_perl
        = b.seen_perl) ∧
    (∀ this data p, b.live.lookup this = some data → data.sv = some p →
      ∃ b1, delete_wrapper b this = some b1 ∧ b1.seen_perl.lookup p = none ∧
        (∀ q, q ≠ p → b1.seen_perl.lookup q = b.seen_perl.lookup q) ∧
        b1.live.lookup this = none ∧
        Reachable sizeof_PerlObjectData b1) ∧
    (∀ sym uninit prototype stash b1,
      fill_prototype_isa sizeof_PerlObjectData sym uninit prototype stash b = some b1 →
      Reachable sizeof_PerlObjectData b1) ∧
    (Regular sizeof_PerlObjectData b →
      (∀ this data p, b.live.lookup this = some data → data.sv = some p →
        b.seen_perl.lookup p = some this) ∧
      (∀ this1 this2 data1 data2 p, b.live.lookup this1 = some data1 →
        b.live.lookup this2 = some data2 → data1.sv = some p → data2.sv = some p →
        this1 = this2) ∧
      (∀ seen ptr uninit, Regular sizeof_PerlObjectData
        (b.rv2v8_code sizeof_PerlObjectData seen ptr uninit).2)) := by
  obtain ⟨h1, h2, h3, _⟩ := Reachable.linked sizeof_PerlObjectData b h
  refine ⟨?_, h3, ?_, ?_, ?_, fun _ _ => rfl, ?_, ?_, ?_⟩
  · intro p this hp
    obtain ⟨data, hl, hs⟩ := h1 p this hp
    exact ⟨data, hl, hs, h2 this data p hl hs⟩
  · intro p q this hp hq
    obtain ⟨d1, hl1, hs1⟩ := h1 p this hp
    obtain ⟨d2, hl2, hs2⟩ := h1 q this hq
    rw [hl1] at hl2
    injection hl2 with hl2
    rw [hl2, hs2] at hs1
    injection hs1 with hs1
    exact hs1.symm
  · intro this data hl hs p hp
    obtain ⟨d, hl1, hs1⟩ := h1 p this hp
    rw [hl] at hl1
    injection hl1 with hl1
    rw [← hl1, hs] at hs1
    cases hs1
  · intro object sv uninit
    refine ⟨?_, ?_, ?_, ?_⟩
    · show (mapSet sv b.next b.seen_perl).lookup sv = some b.next
      exact lookup_mapSet_self _ _ _
    · show (mapSet sv b.next b.seen_perl).lookup sv = some b.next
      exact lookup_mapSet_self _ _ _
    · show (mapSet sv b.next b.seen_perl).lookup sv = some b.next
      exact lookup_mapSet_self _ _ _
    · show (mapSet sv b.next b.seen_perl).lookup sv = some b.next
      exact lookup_mapSet_self _ _ _
  · intro this data p hl hs
    have hdel : ∃ b1, delete_wrapper b this = some b1 := by
      unfold delete_wrapper
      rw [hl]
      exact ⟨_, rfl⟩
    obtain ⟨b1, hb1⟩ := hdel
    obtain ⟨hm, hlv, _⟩ := delete_wrapper_maps b b1 this data hl hb1
    have hptr : data.ptr = p := h2 this data p hl hs
    rw [hptr] at hm
    refine ⟨b1, hb1, ?_, ?_, ?_, ?_⟩
    · rw [hm]; exact lookup_filter_self _ _
    · intro q hq
      rw [hm]; exact lookup_filter_ne _ _ _ hq
    · rw [hlv]; exact lookup_filter_self _ _
    · exact Reachable.delete b b1 this data h hl (by simp [Wrapper.registered, hs]) hb1
  · intro sym uninit prototype stash b1 he
    exact fill_prototype_isa_reachable sizeof_PerlObjectData sym uninit prototype stash b b1
      h he
  · intro hr
    obtain ⟨_, c2, _, _⟩ := Regular.consistent sizeof_PerlObjectData b hr
    refine ⟨fun this data p hl hs => (c2 this data p hl hs).2, ?_,
      fun seen ptr uninit => rv2v8_code_regular sizeof_PerlObjectData b seen ptr uninit hr⟩
    intro this1 this2 d1 d2 p hl1 hl2 hs1 hs2
    have e1 := (c2 this1 d1 p hl1 hs1).2
    have e2 := (c2 this2 d2 p hl2 hs2).2
    rw [e1] at e2
    injection e2

/-- Witness of C13, amended: in the sample context with a wrapper for the host value at
address `3` and a method wrapper, the entry of address `3` leads to the wrapper with
identity `0`, which was constructed for that value. -/
theorem identity_map_consistent_witness :
    wrappedBridge.seen_perl.lookup 3 = some 0 ∧
    ∃ data, wrappedBridge.live.lookup 0 = some data ∧ data.sv = some 3 ∧ data.ptr = 3 :=
  ⟨rfl, (identity_map_consistent 48 wrappedBridge
    (Reachable.perl_method _ "hello" 99
      (Reachable.perl_object _ 0 3 99 (Reachable.fresh _ _ 7)))).1 3 0 rfl⟩

/-! ### Reference counts and reported sizes -/

theorem lookup_new (b : Bridge) (r : Nat × Bridge) (data : Wrapper)
    (hfresh : b.live.lookup b.next = none) (hid : r.1 = b.next)
    (hlive : r.2.live = b.live ++ [(b.next, data)]) :
    r.2.live.lookup r.1 = some data := by
  rw [hlive, hid, lookup_append_single b.live _ _ _ hfresh]
  simp

theorem delete_wrapper_refcnt (b : Bridge) (this : Nat) (data : Wrapper) (v : Nat)
    (h : b.live.lookup this = some data) (hc : data.cls.isPerl = true)
    (hs : data.sv = some v) :
    ∃ b1, delete_wrapper b this = some b1 ∧
      b1.SvREFCNT = ((b.SvREFCNT_dec v).SvREFCNT_dec b.my_sv).SvREFCNT := by
  unfold delete_wrapper
  rw [h]
  simp [hc, PerlObjectData_dtor, add_size, hs, ObjectData_dtor, Bridge.remove_object,
    Bridge.SvREFCNT_dec]

theorem new_PerlObjectData_refcnt (sizeof_PerlObjectData : Nat) (b : Bridge)
    (object v uninit : Nat) :
    (new_PerlObjectData sizeof_PerlObjectData b object (some v) uninit).2.SvREFCNT
      = ((b.SvREFCNT_inc b.my_sv).SvREFCNT_inc v).SvREFCNT ∧
    (new_PerlObjectData sizeof_PerlObjectData b object (some v) uninit).2.my_sv = b.my_sv :=
  ⟨rfl, rfl⟩

theorem new_PerlFunctionData_refcnt (sizeof_PerlObjectData : Nat) (b : Bridge)
    (v uninit : Nat) :
    (new_PerlFunctionData sizeof_PerlObjectData b (some v) uninit).2.SvREFCNT
      = ((b.SvREFCNT_inc b.my_sv).SvREFCNT_inc v).SvREFCNT ∧
    (new_PerlFunctionData sizeof_PerlObjectData b (some v) uninit).2.my_sv = b.my_sv :=
  ⟨rfl, rfl⟩

/-- What construction and deletion of one host-origin wrapper for `v` do to the
reference counts, for `v` other than the context's own host value. -/
theorem refcnt_cycle (b b2 : Bridge) (v : Nat) (hv : v ≠ b.my_sv)
    (h2 : b2.SvREFCNT = ((b.SvREFCNT_inc b.my_sv).SvREFCNT_inc v).SvREFCNT)
    (hm : b2.my_sv = b.my_sv) :
    b2.SvREFCNT v = b.SvREFCNT v + 1 ∧ b2.SvREFCNT b.my_sv = b.SvREFCNT b.my_sv + 1 ∧
    (∀ u, u ≠ v → u ≠ b.my_sv → b2.SvREFCNT u = b.SvREFCNT u) ∧
    ((b2.SvREFCNT_dec v).SvREFCNT_dec b2.my_sv).SvREFCNT v = b2.SvREFCNT v - 1 ∧
    ∀ u, ((b2.SvREFCNT_dec v).SvREFCNT_dec b2.my_sv).SvREFCNT u = b.SvREFCNT u := by
  have hne : b.my_sv ≠ v := Ne.symm hv
  rw [hm]
  simp only [Bridge.SvREFCNT_dec, h2, Bridge.SvREFCNT_inc]
  refine ⟨?_, ?_, ?_, ?_, ?_⟩
  · simp [Function.update, hv]
  · simp [Function.update, hne]
  · intro u hu1 hu2
    simp [Function.update, hu1, hu2]
  · simp [Function.update, hv, hne]
  · intro u
    by_cases hu1 : u = v
    · subst hu1
      simp [Function.update, hv]
    · by_cases hu2 : u = b.my_sv
      · subst hu2
        simp [Function.update, hne]
      · simp [Function.update, hu1, hu2]

/-- C15 as stated fails for the host value of the context itself: constructing a
host-origin wrapper for `my_sv` (address `7` in the sample, count `1`) raises its
reference count by two, once in `register_object` and once in the constructor of
`PerlObjectData`. -/
theorem refcount_my_sv_counterexample :
    demoBridge.my_sv = 7 ∧ demoBridge.SvREFCNT 7 = 1 ∧
    (new_PerlObjectData 48 demoBridge 0 (some 7) 99).2.SvREFCNT 7 = 3 ∧
    (new_PerlFunctionData 48 demoBridge (some 7) 99).2.SvREFCNT 7 = 3 := by
  refine ⟨rfl, rfl, ?_, ?_⟩ <;> decide

/-- C15, amended: for every host value `v` other than the context's own host value
`my_sv`, constructing a `PerlObjectData` or a `PerlFunctionData` for `v` raises the
reference count of `v` by exactly one, raises that of `my_sv` by one (the registration)
and changes no other; deleting the wrapper succeeds and lowers the count of `v` by
exactly one, and construction followed by deletion leaves every reference count as it
was. Constructing a method wrapper changes no reference count. -/
theorem host_wrapper_refcount (sizeof_PerlObjectData : Nat) (b : Bridge)
    (object v uninit : Nat) (hv : v ≠ b.my_sv) (hfresh : b.live.lookup b.next = none) :
    ((new_PerlObjectData sizeof_PerlObjectData b object (some v) uninit).2.SvREFCNT v
        = b.SvREFCNT v + 1 ∧
      (new_PerlObjectData sizeof_PerlObjectData b object (some v) uninit).2.SvREFCNT b.my_sv
        = b.SvREFCNT b.my_sv + 1 ∧
      (∀ u, u ≠ v → u ≠ b.my_sv →
        (new_PerlObjectData sizeof_PerlObjectData b object (some v) uninit).2.SvREFCNT u
          = b.SvREFCNT u) ∧
      ∃ b1, delete_wrapper
          (new_PerlObjectData sizeof_PerlObjectData b object (some v) uninit).2
          (new_PerlObjectData sizeof_PerlObjectData b object (some v) uninit).1 = some b1 ∧
        b1.SvREFCNT v
          = (new_PerlObjectData sizeof_PerlObjectData b object (some v) uninit).2.SvREFCNT v
            - 1 ∧
        ∀ u, b1.SvREFCNT u = b.SvREFCNT u) ∧
    ((new_PerlFunctionData sizeof_PerlObjectData b (some v) uninit).2.SvREFCNT v
        = b.SvREFCNT v + 1 ∧
      (new_PerlFunctionData sizeof_PerlObjectData b (some v) uninit).2.SvREFCNT b.my_sv
        = b.SvREFCNT b.my_sv + 1 ∧
      (∀ u, u ≠ v → u ≠ b.my_sv →
        (new_PerlFunctionData sizeof_PerlObjectData b (some v) uninit).2.SvREFCNT u
          = b.SvREFCNT u) ∧
      ∃ b1, delete_wrapper
          (new_PerlFunctionData sizeof_PerlObjectData b (some v) uninit).2
          (new_PerlFunctionData sizeof_PerlObjectData b (some v) uninit).1 = some b1 ∧
        b1.SvREFCNT v
          = (new_PerlFunctionData sizeof_PerlObjectData b (some v) uninit).2.SvREFCNT v
            - 1 ∧
        ∀ u, b1.SvREFCNT u = b.SvREFCNT u) ∧
    (∀ name, (new_PerlMethodData sizeof_PerlObjectData b name uninit).2.SvREFCNT
      = b.SvREFCNT) := by
  refine ⟨?_, ?_, fun _ => rfl⟩
  · obtain ⟨h2, hm⟩ := new_PerlObjectData_refcnt sizeof_PerlObjectData b object v uninit
    obtain ⟨c1, c2, c3, c4, c5⟩ := refcnt_cycle b _ v hv h2 hm
    have hlook := lookup_new b
      (new_PerlObjectData sizeof_PerlObjectData b object (some v) uninit) _ hfresh rfl rfl
    obtain ⟨b1, hd, hr⟩ := delete_wrapper_refcnt _ _ _ v hlook rfl rfl
    exact ⟨c1, c2, c3, b1, hd, by rw [hr]; exact c4, fun u => by rw [hr]; exact c5 u⟩
  · obtain ⟨h2, hm⟩ := new_PerlFunctionData_refcnt sizeof_PerlObjectData b v uninit
    obtain ⟨c1, c2, c3, c4, c5⟩ := refcnt_cycle b _ v hv h2 hm
    have hlook := lookup_new b
      (new_PerlFunctionData sizeof_PerlObjectData b (some v) uninit) _ hfresh rfl rfl
    obtain ⟨b1, hd, hr⟩ := delete_wrapper_refcnt _ _ _ v hlook rfl rfl
    exact ⟨c1, c2, c3, b1, hd, by rw [hr]; exact c4, fun u => by rw [hr]; exact c5 u⟩

theorem host_wrapper_refcount_witness :
    (3 : Nat) ≠ demoBridge.my_sv ∧
    (new_PerlObjectData 48 demoBridge 0 (some 3) 99).2.SvREFCNT 3
      = demoBridge.SvREFCNT 3 + 1 :=
  ⟨by decide, (host_wrapper_refcount 48 demoBridge 0 3 99 (by decide) rfl).1.1⟩

theorem delete_wrapper_external (b : Bridge) (this : Nat) (data : Wrapper)
    (h : b.live.lookup this = some data) (hc : data.cls.isPerl = true) :
    ∃ b1, delete_wrapper b this = some b1 ∧
      b1.external
        = b.external ++ [(this, to_intptr ((2 ^ SIZE_BITS - data.bytes) % 2 ^ SIZE_BITS))] := by
  unfold delete_wrapper
  rw [h]
  cases hs : data.sv <;>
    simp [hc, PerlObjectData_dtor, add_size, hs, ObjectData_dtor, Bridge.remove_object,
      Bridge.SvREFCNT_dec]

theorem to_intptr_small (u : Nat) (h : u < 2 ^ 63) : to_intptr u = u := by
  unfold to_intptr SIZE_BITS
  have h1 : u % 2 ^ 64 = u := Nat.mod_eq_of_lt (by omega)
  rw [h1, if_pos (by simpa using h)]

theorem to_intptr_neg (u : Nat) (h0 : 0 < u) (h : u < 2 ^ 63) :
    to_intptr ((2 ^ SIZE_BITS - u) % 2 ^ SIZE_BITS) = -(u : Int) := by
  unfold to_intptr SIZE_BITS
  have h1 : (2 ^ 64 - u) % 2 ^ 64 = 2 ^ 64 - u := Nat.mod_eq_of_lt (by omega)
  rw [Nat.mod_mod, h1, if_neg (by omega)]
  have h2 : u ≤ 2 ^ 64 := by omega
  rw [Nat.cast_sub h2]
  push_cast
  ring

theorem reported_append (b : Bridge) (ext : List (Nat × Int)) (this : Nat) (l : List Int)
    (h : ext = b.external ++ l.map (fun a => (this, a))) :
    ((ext.filter (fun e => e.1 == this)).map Prod.snd).sum = b.reported this + l.sum := by
  subst h
  unfold Bridge.reported
  rw [List.filter_append, List.map_append, List.sum_append]
  congr 2
  induction l with
  | nil => rfl
  | cons a l ih => simp [List.filter_cons, ih]

/-- C16: the amounts a host-origin wrapper reports do not sum to zero. The constructor
of an object wrapper reports `calculate_size(sv)`, which is `1000`, but `bytes` starts
at `size()`, which is never reported, and the destructor reports `-bytes`: over the
lifetime the wrapper reports `1000` and then `-(sizeof(PerlObjectData) + 1000)`, a sum of
`-sizeof(PerlObjectData)`. -/
theorem reported_size_unbalanced (sizeof_PerlObjectData : Nat) (b : Bridge)
    (object v uninit : Nat) (hpos : 0 < sizeof_PerlObjectData)
    (hsize : sizeof_PerlObjectData + 1000 < 2 ^ 63)
    (hfresh : b.live.lookup b.next = none) :
    (new_PerlObjectData sizeof_PerlObjectData b object (some v) uninit).2.external
      = b.external ++ [(b.next, 1000)] ∧
    ∃ b1, delete_wrapper
        (new_PerlObjectData sizeof_PerlObjectData b object (some v) uninit).2
        (new_PerlObjectData sizeof_PerlObjectData b object (some v) uninit).1 = some b1 ∧
      b1.external = b.external ++
        [(b.next, 1000), (b.next, -((sizeof_PerlObjectData : Int) + 1000))] ∧
      b1.reported b.next = b.reported b.next - sizeof_PerlObjectData ∧
      b1.reported b.next ≠ b.reported b.next := by
  have hlook := lookup_new b
    (new_PerlObjectData sizeof_PerlObjectData b object (some v) uninit) _ hfresh rfl rfl
  obtain ⟨b1, hd, he⟩ := delete_wrapper_external _ _ _ hlook rfl
  have hc : (new_PerlObjectData sizeof_PerlObjectData b object (some v) uninit).2.external
      = b.external ++ [(b.next, 1000)] := by
    show b.external ++ [(b.next, to_intptr (calculate_size v))] = _
    rw [calculate_size, to_intptr_small 1000 (by norm_num)]
    rfl
  have hb : (0 + sizeof_PerlObjectData + calculate_size v) % 2 ^ SIZE_BITS
      = sizeof_PerlObjectData + 1000 := by
    unfold calculate_size SIZE_BITS
    rw [Nat.zero_add]
    exact Nat.mod_eq_of_lt (by omega)
  have he2 : b1.external = b.external ++
      [(b.next, 1000), (b.next, -((sizeof_PerlObjectData : Int) + 1000))] := by
    rw [he, hc]
    show _ ++ [(b.next, to_intptr ((2 ^ SIZE_BITS
      - (sizeof_PerlObjectData + calculate_size v) % 2 ^ SIZE_BITS) % 2 ^ SIZE_BITS))] = _
    rw [Nat.zero_add] at hb
    rw [hb, to_intptr_neg _ (by omega) hsize]
    simp
  have hr : b1.reported b.next = b.reported b.next - sizeof_PerlObjectData := by
    have := reported_append b b1.external b.next
      [1000, -((sizeof_PerlObjectData : Int) + 1000)] (by rw [he2]; rfl)
    unfold Bridge.reported at this ⊢
    rw [this]
    simp
    ring
  refine ⟨hc, b1, hd, he2, hr, ?_⟩
  rw [hr]
  have : (0 : Int) < sizeof_PerlObjectData := by exact_mod_cast hpos
  omega

theorem reported_size_unbalanced_witness :
    (new_PerlObjectData 48 demoBridge 0 (some 3) 99).2.external = [(0, 1000)] ∧
    ∃ b1, delete_wrapper (new_PerlObjectData 48 demoBridge 0 (some 3) 99).2 0 = some b1 ∧
      b1.external = [(0, 1000), (0, -1048)] ∧ b1.reported 0 = -48 := by
  obtain ⟨h1, b1, h2, h3, h4, _⟩ :=
    reported_size_unbalanced 48 demoBridge 0 3 99 (by decide) (by norm_num) rfl
  exact ⟨h1, b1, h2, h3, h4.trans (by decide)⟩

/-! ### Prototypes -/

theorem assocSet_lookup {α : Type} (k q : String) (v : α) (l : List (String × α)) :
    (assocSet k v l).lookup q = if q = k then some v else l.lookup q := by
  induction l with
  | nil =>
    by_cases hq : q = k
    · subst hq; simp [assocSet, List.lookup]
    · have hb : (q == k) = false := by simpa using hq
      simp [assocSet, List.lookup, hb, hq]
  | cons e rest ih =>
    obtain ⟨k1, v1⟩ := e
    by_cases h1 : k1 = k
    · subst h1
      by_cases hq : q = k1
      · subst hq; simp [assocSet, List.lookup]
      · have hb : (q == k1) = false := by simpa using hq
        simp [assocSet, List.lookup, hb, hq]
    · by_cases hq1 : q = k1
      · subst hq1
        have hne : ¬ q = k := h1
        simp [assocSet, List.lookup, h1, hne]
      · have hb : (q == k1) = false := by simpa using hq1
        simp only [assocSet, h1, if_false, List.lookup, hb, ih]

theorem mem_of_lookup_nat {α : Type} (l : List (Nat × α)) (k : Nat) (v : α)
    (h : l.lookup k = some v) : (k, v) ∈ l := by
  induction l with
  | nil => simp [List.lookup] at h
  | cons e rest ih =>
    obtain ⟨k1, v1⟩ := e
    by_cases hk : k = k1
    · subst hk
      simp [List.lookup] at h
      subst h
      exact List.mem_cons_self _ _
    · have hb : (k == k1) = false := by simpa using hk
      simp only [List.lookup, hb] at h
      exact List.mem_cons_of_mem _ (ih h)

theorem liveBelow_fresh (b : Bridge) (h : b.liveBelow) :
    b.live.lookup b.next = none := by
  cases hl : b.live.lookup b.next with
  | none => rfl
  | some data =>
    have := h _ (mem_of_lookup_nat _ _ _ hl)
    simp at this

theorem grows_refl (prototype : Nat) (b : Bridge) : Grows prototype b b :=
  ⟨rfl, Nat.le_refl _, fun _ _ h => h, fun _ h => ⟨h, rfl⟩, fun _ _ _ h => h⟩

theorem grows_trans (prototype : Nat) (b b1 b2 : Bridge) (h1 : Grows prototype b b1)
    (h2 : Grows prototype b1 b2) : Grows prototype b b2 := by
  obtain ⟨a1, a2, a3, a4, a5⟩ := h1
  obtain ⟨c1, c2, c3, c4, c5⟩ := h2
  refine ⟨c1.trans a1, Nat.le_trans a2 c2, fun t d h => c3 t d (a3 t d h), fun m h => ?_,
    fun id o hid h => c5 id o hid (a5 id o hid h)⟩
  obtain ⟨x1, x2⟩ := a4 m h
  obtain ⟨y1, y2⟩ := c4 m x1
  exact ⟨y1, y2.trans x2⟩

theorem Bridge.entries_plain (b : Bridge) (id : Nat) (props : List (String × Value))
    (h : b.objs[id]? = some (GObj.object props none)) :
    b.entries id = props ++ b.inherited.map (fun e => (e.1, e.2.1)) := by
  simp only [Bridge.entries, chain, h, List.map_append, own_entries]

theorem Has_of_plain (b : Bridge) (id : Nat) (props : List (String × Value))
    (h : b.objs[id]? = some (GObj.object props none)) (m : String) :
    b.Has id m = ((props.lookup m).isSome || (b.inherited.lookup m).isSome) := by
  unfold Bridge.Has
  rw [Bridge.entries_plain b id props h]
  cases hl : props.lookup m with
  | some v => rw [lookup_append_left_str _ _ _ _ hl]; rfl
  | none =>
    rw [lookup_append_right_str _ _ _ hl, lookup_map_snd]
    cases b.inherited.lookup m <;> rfl

theorem Get_of_plain (b : Bridge) (id : Nat) (props : List (String × Value))
    (h : b.objs[id]? = some (GObj.object props none)) (m : String) :
    b.Get id m = match props.lookup m with
      | some v => v
      | none => ((b.inherited.lookup m).map Prod.fst).getD Value.undefined := by
  unfold Bridge.Get
  rw [Bridge.entries_plain b id props h]
  cases hl : props.lookup m with
  | some v => rw [lookup_append_left_str _ _ _ _ hl]; rfl
  | none => rw [lookup_append_right_str _ _ _ hl, lookup_map_snd]

/-- One binding step: a new wrapper whose guest function is appended to guest memory,
then `prototype->Set(name, pfd->object)`. -/
theorem bind_spec (b b1 : Bridge) (prototype : Nat) (m : String) (data : Wrapper)
    (hplain : b.plain prototype) (hbelow : b.liveBelow)
    (hobjs : b1.objs = b.objs ++ [GObj.function []])
    (hlive : b1.live = b.live ++ [(b.next, data)])
    (hobj : data.object = b.objs.length)
    (hnext : b1.next = b.next + 1)
    (hinh : b1.inherited = b.inherited) (hnot : b.Has prototype m = false) :
    (b1.Set prototype m (Value.object (b1.object_of b.next))).plain prototype ∧
    (b1.Set prototype m (Value.object (b1.object_of b.next))).liveBelow ∧
    Grows prototype b (b1.Set prototype m (Value.object (b1.object_of b.next))) ∧
    (b1.Set prototype m (Value.object (b1.object_of b.next))).Get prototype m
      = Value.object data.object ∧
    (b1.Set prototype m (Value.object (b1.object_of b.next))).Has prototype m = true ∧
    (b1.Set prototype m (Value.object (b1.object_of b.next))).live.lookup b.next
      = some data ∧
    (b1.Set prototype m (Value.object (b1.object_of b.next))).next = b.next + 1 ∧
    (∀ q, (b1.Set prototype m (Value.object (b1.object_of b.next))).Has prototype q = true →
      b.Has prototype q = true ∨ q = m) ∧
    (b1.Set prototype m (Value.object (b1.object_of b.next))).IsFunction data.object
      = true := by
  obtain ⟨props, hp⟩ := hplain
  have hlt : prototype < b.objs.length := lt_of_getElem?_eq_some _ _ _ hp
  have hp1 : b1.objs[prototype]? = some (GObj.object props none) := by
    rw [hobjs, List.getElem?_append_left hlt]; exact hp
  have hlook : b1.live.lookup b.next = some data := by
    rw [hlive, lookup_append_single _ _ _ _ (liveBelow_fresh b hbelow)]; simp
  have hoo : b1.object_of b.next = data.object := by simp [Bridge.object_of, hlook]
  obtain ⟨o, ho⟩ : ∃ o, o = GObj.object (assocSet m (Value.object data.object) props) none :=
    ⟨_, rfl⟩
  have hset : b1.Set prototype m (Value.object (b1.object_of b.next))
      = { b1 with objs := b1.objs.set prototype o } := by
    simp [Bridge.Set, hp1, hoo, GObj.setKey, ho]
  rw [hset]
  have hlt1 : prototype < b1.objs.length := lt_of_getElem?_eq_some _ _ _ hp1
  have hp2 : ({ b1 with objs := b1.objs.set prototype o } : Bridge).objs[prototype]?
      = some (GObj.object (assocSet m (Value.object data.object) props) none) := by
    show (b1.objs.set prototype o)[prototype]? = _
    rw [List.getElem?_set_self hlt1, ho]
  have hother : ∀ id, id ≠ prototype →
      ({ b1 with objs := b1.objs.set prototype o } : Bridge).objs[id]?
        = (b.objs ++ [GObj.function []])[id]? := by
    intro id hid
    show (b1.objs.set prototype o)[id]? = _
    rw [List.getElem?_set_ne (Ne.symm hid), hobjs]
  refine ⟨⟨_, hp2⟩, ?_, ⟨hinh, by show b.next ≤ b1.next; omega, ?_, ?_, ?_⟩, ?_, ?_, hlook,
    hnext, ?_, ?_⟩
  · intro e he
    show e.1 < b1.next
    have he1 : e ∈ b.live ++ [(b.next, data)] := hlive ▸ he
    rw [hnext]
    rcases List.mem_append.1 he1 with h | h
    · exact Nat.lt_succ_of_lt (hbelow e h)
    · simp at h; subst h; exact Nat.lt_succ_self _
  · intro t d h
    show b1.live.lookup t = some d
    rw [hlive]
    exact lookup_append_some _ _ _ _ h
  · intro q hq
    have hqm : q ≠ m := by
      intro h
      rw [h, hnot] at hq
      exact Bool.false_ne_true hq
    rw [Has_of_plain _ _ _ hp2, Get_of_plain _ _ _ hp2, Get_of_plain _ _ _ hp,
      assocSet_lookup, if_neg hqm]
    rw [Has_of_plain _ _ _ hp] at hq
    exact ⟨by rw [← hq]; show _ = _; rw [hinh], by show _ = _; rw [hinh]⟩
  · intro id o1 hid h
    rw [hother id hid, List.getElem?_append_left (lt_of_getElem?_eq_some _ _ _ h)]
    exact h
  · rw [Get_of_plain _ _ _ hp2, assocSet_lookup]; simp
  · rw [Has_of_plain _ _ _ hp2, assocSet_lookup]; simp
  · intro q hq
    rw [Has_of_plain _ _ _ hp2, assocSet_lookup] at hq
    rw [Has_of_plain _ _ _ hp]
    by_cases hqm : q = m
    · exact Or.inr hqm
    · left
      simpa [hqm, hinh] using hq
  · have hne : data.object ≠ prototype := by omega
    have hf : ({ b1 with objs := b1.objs.set prototype o } : Bridge).objs[data.object]?
        = some (GObj.function []) := by
      rw [hother _ hne, hobj]
      simp
    simp only [Bridge.IsFunction, hf]

theorem new_PerlFunctionData_shape (sizeof_PerlObjectData : Nat) (b : Bridge)
    (cv uninit : Nat) :
    ∃ data, (new_PerlFunctionData sizeof_PerlObjectData b (some cv) uninit).1 = b.next ∧
      (new_PerlFunctionData sizeof_PerlObjectData b (some cv) uninit).2.objs
        = b.objs ++ [GObj.function []] ∧
      (new_PerlFunctionData sizeof_PerlObjectData b (some cv) uninit).2.live
        = b.live ++ [(b.next, data)] ∧
      (new_PerlFunctionData sizeof_PerlObjectData b (some cv) uninit).2.next = b.next + 1 ∧
      (new_PerlFunctionData sizeof_PerlObjectData b (some cv) uninit).2.inherited
        = b.inherited ∧
      data.cls = WrapperClass.PerlFunctionData ∧ data.sv = some cv ∧
      data.object = b.objs.length :=
  ⟨_, rfl, rfl, rfl, rfl, rfl, rfl, rfl, rfl⟩

theorem new_PerlMethodData_shape (sizeof_PerlObjectData : Nat) (b : Bridge)
    (name : String) (uninit : Nat) :
    ∃ data, (new_PerlMethodData sizeof_PerlObjectData b name uninit).1 = b.next ∧
      (new_PerlMethodData sizeof_PerlObjectData b name uninit).2.objs
        = b.objs ++ [GObj.function []] ∧
      (new_PerlMethodData sizeof_PerlObjectData b name uninit).2.live
        = b.live ++ [(b.next, data)] ∧
      (new_PerlMethodData sizeof_PerlObjectData b name uninit).2.next = b.next + 1 ∧
      (new_PerlMethodData sizeof_PerlObjectData b name uninit).2.inherited = b.inherited ∧
      data.cls = WrapperClass.PerlMethodData ∧ data.name = name ∧ data.sv = none ∧
      data.object = b.objs.length :=
  ⟨_, rfl, rfl, rfl, rfl, rfl, rfl, rfl, rfl, rfl⟩

theorem fill_loop_cons_has (sizeof_PerlObjectData : Nat) (sym : Symbols)
    (uninit : Nat → Nat) (prototype : Nat) (stash key : String) (rest : List String)
    (b : Bridge) (h : b.Has prototype (String.mk (cstr key)) = true) :
    fill_prototype_stash_loop sizeof_PerlObjectData sym uninit prototype stash
        (key :: rest) b
      = fill_prototype_stash_loop sizeof_PerlObjectData sym uninit prototype stash rest b := by
  rw [fill_prototype_stash_loop]
  simp only [h, if_true]

theorem fill_loop_cons_to_js (sizeof_PerlObjectData : Nat) (sym : Symbols)
    (uninit : Nat → Nat) (prototype : Nat) (stash key : String) (rest : List String)
    (b : Bridge) (cv : Nat) (h : b.Has prototype (String.mk (cstr key)) = false)
    (hk : String.mk (cstr key) = string_to_js)
    (hf : sym.gv_fetchmethod stash string_to_js = some cv) :
    fill_prototype_stash_loop sizeof_PerlObjectData sym uninit prototype stash
        (key :: rest) b
      = fill_prototype_stash_loop sizeof_PerlObjectData sym uninit prototype stash rest
          ((new_PerlFunctionData sizeof_PerlObjectData b (some cv) (uninit b.next)).2.Set
            prototype string_to_js
            (Value.object
              ((new_PerlFunctionData sizeof_PerlObjectData b (some cv)
                (uninit b.next)).2.object_of b.next))) := by
  rw [fill_prototype_stash_loop]
  rw [hk] at h
  simp only [h, hk, hf, Bool.false_eq_true, if_false, if_true]
  rfl

theorem fill_loop_cons_method (sizeof_PerlObjectData : Nat) (sym : Symbols)
    (uninit : Nat → Nat) (prototype : Nat) (stash key : String) (rest : List String)
    (b : Bridge) (h : b.Has prototype (String.mk (cstr key)) = false)
    (hk : String.mk (cstr key) ≠ string_to_js) :
    fill_prototype_stash_loop sizeof_PerlObjectData sym uninit prototype stash
        (key :: rest) b
      = fill_prototype_stash_loop sizeof_PerlObjectData sym uninit prototype stash rest
          ((new_PerlMethodData sizeof_PerlObjectData b (String.mk (cstr key))
              (uninit b.next)).2.Set
            prototype (String.mk (cstr key))
            (Value.object
              ((new_PerlMethodData sizeof_PerlObjectData b (String.mk (cstr key))
                (uninit b.next)).2.object_of b.next))) := by
  rw [fill_prototype_stash_loop]
  simp only [h, hk, Bool.false_eq_true, if_false]
  rfl

theorem plain_ne_function (b : Bridge) (prototype id : Nat) (hp : b.plain prototype)
    (hf : b.IsFunction id = true) : id ≠ prototype := by
  intro h
  subst h
  obtain ⟨props, hp⟩ := hp
  simp [Bridge.IsFunction, hp] at hf

theorem IsFunction_grows (prototype : Nat) (b b1 : Bridge) (id : Nat)
    (h : Grows prototype b b1) (hp : b.plain prototype) (hf : b.IsFunction id = true) :
    b1.IsFunction id = true := by
  have hne := plain_ne_function b prototype id hp hf
  unfold Bridge.IsFunction at hf ⊢
  cases ho : b.objs[id]? with
  | none => rw [ho] at hf; cases hf
  | some o =>
    rw [h.objs id o hne ho]
    rw [ho] at hf
    exact hf

theorem Bound.mono (sym : Symbols) (c : String) (prototype : Nat) (b b1 b2 b3 : Bridge)
    (m : String) (h : Bound sym c prototype b1 b2 m) (h01 : b.next ≤ b1.next)
    (h23 : Grows prototype b2 b3) (hh : b2.Has prototype m = true)
    (hp : b2.plain prototype) :
    Bound sym c prototype b b3 m := by
  obtain ⟨this, data, h1, h2, h3, h4, h5, h6, h7⟩ := h
  exact ⟨this, data, Nat.le_trans h01 h1, Nat.lt_of_lt_of_le h2 h23.next, h23.live _ _ h3,
    (h23.has m hh).2.trans h4, IsFunction_grows prototype b2 b3 _ h23 hp h5, h6, h7⟩

/-- The loop over the keys of one stash: it succeeds, keeps what was there, adds only
names among the keys, and ends with every key present, bound to a new wrapper when it was
not present before. -/
theorem fill_prototype_stash_loop_spec (sizeof_PerlObjectData : Nat) (sym : Symbols)
    (uninit : Nat → Nat) (prototype : Nat) (c : String) :
    ∀ (keys : List String) (b : Bridge), b.plain prototype → b.liveBelow →
      (string_to_js ∈ keys.map (fun key => String.mk (cstr key)) →
        (sym.gv_fetchmethod c string_to_js).isSome = true) →
      ∃ b1, fill_prototype_stash_loop sizeof_PerlObjectData sym uninit prototype c keys b
          = some b1 ∧
        b1.plain prototype ∧ b1.liveBelow ∧ Grows prototype b b1 ∧
        (∀ m, b1.Has prototype m = true →
          b.Has prototype m = true ∨ m ∈ keys.map (fun key => String.mk (cstr key))) ∧
        (∀ m ∈ keys.map (fun key => String.mk (cstr key)),
          b1.Has prototype m = true ∧
          (b.Has prototype m = false → Bound sym c prototype b b1 m)) := by
  intro keys
  induction keys with
  | nil =>
    intro b hp hb _
    exact ⟨b, rfl, hp, hb, grows_refl _ _, fun m h => Or.inl h, fun m hm => by simp at hm⟩
  | cons key rest ih =>
    intro b hp hb hf
    have hfrest : string_to_js ∈ rest.map (fun key => String.mk (cstr key)) →
        (sym.gv_fetchmethod c string_to_js).isSome = true := fun h =>
      hf (by simp only [List.map_cons]; exact List.mem_cons_of_mem _ h)
    cases hhas : b.Has prototype (String.mk (cstr key)) with
    | true =>
      obtain ⟨b1, e1, p1, l1, g1, a1, k1⟩ := ih b hp hb hfrest
      refine ⟨b1, by rw [fill_loop_cons_has _ _ _ _ _ _ _ _ hhas]; exact e1, p1, l1, g1,
        ?_, ?_⟩
      · intro m hm
        rcases a1 m hm with h | h
        · exact Or.inl h
        · exact Or.inr (by simp only [List.map_cons]; exact List.mem_cons_of_mem _ h)
      · intro m hm
        simp only [List.map_cons, List.mem_cons] at hm
        rcases hm with h | h
        · subst h
          exact ⟨(g1.has _ hhas).1, fun hn => by rw [hhas] at hn; cases hn⟩
        · exact k1 m h
    | false =>
      obtain ⟨b2, data, hstep, hb2, hcls⟩ : ∃ b2 data,
          fill_prototype_stash_loop sizeof_PerlObjectData sym uninit prototype c
              (key :: rest) b
            = fill_prototype_stash_loop sizeof_PerlObjectData sym uninit prototype c rest b2 ∧
          (b2.plain prototype ∧ b2.liveBelow ∧ Grows prototype b b2 ∧
            b2.Get prototype (String.mk (cstr key)) = Value.object data.object ∧
            b2.Has prototype (String.mk (cstr key)) = true ∧
            b2.live.lookup b.next = some data ∧ b2.next = b.next + 1 ∧
            (∀ q, b2.Has prototype q = true →
              b.Has prototype q = true ∨ q = String.mk (cstr key)) ∧
            b2.IsFunction data.object = true) ∧
          (String.mk (cstr key) = string_to_js →
            data.cls = WrapperClass.PerlFunctionData ∧ data.sv.isSome = true ∧
            data.sv = sym.gv_fetchmethod c string_to_js) ∧
          (String.mk (cstr key) ≠ string_to_js →
            data.cls = WrapperClass.PerlMethodData ∧ data.name = String.mk (cstr key) ∧
            data.sv = none) := by
        by_cases hk : String.mk (cstr key) = string_to_js
        · have hsome := hf (by simp only [List.map_cons]; rw [hk]; exact List.mem_cons_self _ _)
          obtain ⟨cv, hcv⟩ := Option.isSome_iff_exists.1 hsome
          obtain ⟨data, _, s2, s3, s4, s5, s6, s7, s9⟩ :=
            new_PerlFunctionData_shape sizeof_PerlObjectData b cv (uninit b.next)
          refine ⟨_, data, fill_loop_cons_to_js _ _ _ _ _ _ _ _ cv hhas hk hcv, ?_,
            fun _ => ⟨s6, by rw [s7]; rfl, by rw [s7, hcv]⟩, fun h => absurd hk h⟩
          rw [hk]
          exact bind_spec b _ prototype string_to_js data hp hb s2 s3 s9 s4 s5 (hk ▸ hhas)
        · obtain ⟨data, _, s2, s3, s4, s5, s6, s7, s8, s9⟩ :=
            new_PerlMethodData_shape sizeof_PerlObjectData b (String.mk (cstr key))
              (uninit b.next)
          refine ⟨_, data, fill_loop_cons_method _ _ _ _ _ _ _ _ hhas hk, ?_,
            fun h => absurd h hk, fun _ => ⟨s6, s7, s8⟩⟩
          exact bind_spec b _ prototype _ data hp hb s2 s3 s9 s4 s5 hhas
      obtain ⟨p2, l2, g2, hget, hhas2, hlook, hnext, hadd, hisf⟩ := hb2
      obtain ⟨b1, e1, p1, l1, g1, a1, k1⟩ := ih b2 p2 l2 hfrest
      refine ⟨b1, by rw [hstep]; exact e1, p1, l1, grows_trans _ _ _ _ g2 g1, ?_, ?_⟩
      · intro m hm
        rcases a1 m hm with h | h
        · rcases hadd m h with h1 | h1
          · exact Or.inl h1
          · exact Or.inr (by simp only [List.map_cons]; rw [h1]; exact List.mem_cons_self _ _)
        · exact Or.inr (by simp only [List.map_cons]; exact List.mem_cons_of_mem _ h)
      · intro m hm
        by_cases hmk : m = String.mk (cstr key)
        · subst hmk
          refine ⟨(g1.has _ hhas2).1, fun _ => ?_⟩
          exact ⟨b.next, data, Nat.le_refl _,
            Nat.lt_of_lt_of_le (by rw [hnext]; exact Nat.lt_succ_self _) g1.next,
            g1.live _ _ hlook, ((g1.has _ hhas2).2).trans hget,
            IsFunction_grows prototype b2 b1 _ g1 p2 hisf, hcls.1, hcls.2⟩
        · simp only [List.map_cons, List.mem_cons] at hm
          rcases hm with h | h
          · exact absurd h hmk
          · obtain ⟨q1, q2⟩ := k1 m h
            refine ⟨q1, fun hn => ?_⟩
            have hn2 : b2.Has prototype m = false := by
              cases hx : b2.Has prototype m with
              | false => rfl
              | true =>
                rcases hadd m hx with h1 | h1
                · rw [hn] at h1; cases h1
                · exact absurd h1 hmk
            exact Bound.mono sym c prototype b b2 b1 b1 m (q2 hn2) g2.next
              (grows_refl _ _) q1 p1

theorem fill_prototype_stash_spec (sizeof_PerlObjectData : Nat) (sym : Symbols)
    (uninit : Nat → Nat) (prototype : Nat) (c : String) (b : Bridge)
    (hp : b.plain prototype) (hb : b.liveBelow)
    (hs : (sym.gv_stashsv c).isSome = true)
    (hf : string_to_js ∈ declared sym c → (sym.gv_fetchmethod c string_to_js).isSome = true) :
    ∃ b1, fill_prototype_stash sizeof_PerlObjectData sym uninit prototype c b = some b1 ∧
      b1.plain prototype ∧ b1.liveBelow ∧ Grows prototype b b1 ∧
      (∀ m, b1.Has prototype m = true → b.Has prototype m = true ∨ m ∈ declared sym c) ∧
      (∀ m ∈ declared sym c,
        b1.Has prototype m = true ∧
        (b.Has prototype m = false → Bound sym c prototype b b1 m)) := by
  obtain ⟨keys, hkeys⟩ := Option.isSome_iff_exists.1 hs
  have hd : declared sym c = keys.map (fun key => String.mk (cstr key)) := by
    simp [declared, hkeys]
  rw [hd] at hf ⊢
  have := fill_prototype_stash_loop_spec sizeof_PerlObjectData sym uninit prototype c keys b
    hp hb hf
  simpa only [fill_prototype_stash, hkeys] using this

theorem fill_prototype_isa_loop_append (sizeof_PerlObjectData : Nat) (sym : Symbols)
    (uninit : Nat → Nat) (prototype : Nat) (pre post : List String) :
    ∀ b, fill_prototype_isa_loop sizeof_PerlObjectData sym uninit prototype (pre ++ post) b
      = (fill_prototype_isa_loop sizeof_PerlObjectData sym uninit prototype pre b).bind
          (fill_prototype_isa_loop sizeof_PerlObjectData sym uninit prototype post) := by
  induction pre with
  | nil => intro b; rfl
  | cons c rest ih =>
    intro b
    simp only [List.cons_append, fill_prototype_isa_loop]
    cases fill_prototype_stash sizeof_PerlObjectData sym uninit prototype c b with
    | none => rfl
    | some b1 => exact ih b1

/-- The loop over the ancestor list: it succeeds, keeps what was there, adds only declared
names, and ends with every declared name present. -/
theorem fill_prototype_isa_loop_spec (sizeof_PerlObjectData : Nat) (sym : Symbols)
    (uninit : Nat → Nat) (prototype : Nat) :
    ∀ (isa : List String) (b : Bridge), b.plain prototype → b.liveBelow →
      (∀ c ∈ isa, (sym.gv_stashsv c).isSome = true) →
      (∀ c ∈ isa, string_to_js ∈ declared sym c →
        (sym.gv_fetchmethod c string_to_js).isSome = true) →
      ∃ b1, fill_prototype_isa_loop sizeof_PerlObjectData sym uninit prototype isa b
          = some b1 ∧
        b1.plain prototype ∧ b1.liveBelow ∧ Grows prototype b b1 ∧
        (∀ m, b1.Has prototype m = true →
          b.Has prototype m = true ∨ ∃ c ∈ isa, m ∈ declared sym c) ∧
        (∀ c ∈ isa, ∀ m ∈ declared sym c, b1.Has prototype m = true) := by
  intro isa
  induction isa with
  | nil =>
    intro b hp hb _ _
    exact ⟨b, rfl, hp, hb, grows_refl _ _, fun m h => Or.inl h, fun c hc => by simp at hc⟩
  | cons c rest ih =>
    intro b hp hb hs hf
    obtain ⟨b2, e2, p2, l2, g2, a2, k2⟩ :=
      fill_prototype_stash_spec sizeof_PerlObjectData sym uninit prototype c b hp hb
        (hs c (List.mem_cons_self _ _)) (hf c (List.mem_cons_self _ _))
    obtain ⟨b1, e1, p1, l1, g1, a1, k1⟩ := ih b2 p2 l2
      (fun c1 h => hs c1 (List.mem_cons_of_mem _ h))
      (fun c1 h => hf c1 (List.mem_cons_of_mem _ h))
    refine ⟨b1, by simp only [fill_prototype_isa_loop, e2]; exact e1, p1, l1,
      grows_trans _ _ _ _ g2 g1, ?_, ?_⟩
    · intro m hm
      rcases a1 m hm with h | ⟨c1, hc1, hm1⟩
      · rcases a2 m h with h2 | h2
        · exact Or.inl h2
        · exact Or.inr ⟨c, List.mem_cons_self _ _, h2⟩
      · exact Or.inr ⟨c1, List.mem_cons_of_mem _ hc1, hm1⟩
    · intro c1 hc1 m hm
      rcases List.mem_cons.1 hc1 with h | h
      · subst h
        exact (g1.has m (k2 m hm).1).1
      · exact k1 c1 h m hm

theorem Get_of_not_Has (b : Bridge) (id : Nat) (m : String) (h : b.Has id m = false) :
    b.Get id m = Value.undefined := by
  unfold Bridge.Has at h
  unfold Bridge.Get
  cases hl : (b.entries id).lookup m with
  | none => rfl
  | some v => rw [hl] at h; cases h

theorem cache_prototype_plain (b : Bridge) (package : String) :
    (b.cache_prototype package).plain b.objs.length :=
  ⟨[], by simp [Bridge.cache_prototype, Object_New]⟩

theorem cache_prototype_Has (b : Bridge) (package m : String) :
    (b.cache_prototype package).Has b.objs.length m = (b.inherited.lookup m).isSome := by
  have h2 : (b.cache_prototype package).objs[b.objs.length]? = some (GObj.object [] none) := by
    simp [Bridge.cache_prototype, Object_New]
  rw [Has_of_plain _ _ _ h2]
  simp [Bridge.cache_prototype]

/-- C14 as stated fails for `to_js`: the class `Dog`, with ancestor list `Dog`, `Animal`,
declares `to_js`, and the wrapper created for it has the guest function `2`; after
`get_prototype` the name `to_js` is bound to the guest function `6`, which
`fixup_prototype` compiled from the text `to_js` returned and which belongs to no
wrapper. The other names are bound to the functions `3`, `4`, `5` of their wrappers. -/
theorem to_js_replaced_counterexample :
    demoSymbols.mro_get_linear_isa "Dog" = some ["Dog", "Animal"] ∧
    "to_js" ∈ declared demoSymbols "Dog" ∧
    ((fill_prototype_isa 48 demoSymbols (fun _ => 99) 1 "Dog"
        (demoBridge.cache_prototype "Dog")).map
      fun b1 => (b1.Get 1 "to_js", b1.live.map fun e => (e.2.cls, e.2.object)))
      = some (Value.object 2,
          [(WrapperClass.PerlFunctionData, 2), (WrapperClass.PerlMethodData, 3),
           (WrapperClass.PerlMethodData, 4), (WrapperClass.PerlMethodData, 5)]) ∧
    ((get_prototype 48 demoSymbols demoGuest (fun _ => 99) "Dog" demoBridge).map
      fun r => (r.1, r.2.Get r.1 "to_js", r.2.live.map fun e => (e.2.cls, e.2.object)))
      = some (1, Value.object 6,
          [(WrapperClass.PerlFunctionData, 2), (WrapperClass.PerlMethodData, 3),
           (WrapperClass.PerlMethodData, 4), (WrapperClass.PerlMethodData, 5)]) := by
  refine ⟨by decide, by decide, by decide, by decide⟩

/-- A name the new prototype reaches through its prototype chain is skipped: where guest
objects inherit `toString`, the class `Animal` declares `toString`, but `get_prototype`
creates no wrapper for it and the prototype reads the inherited function `0`. -/
theorem inherited_name_skipped :
    "toString" ∈ declared demoSymbols "Animal" ∧
    ((get_prototype 48 demoSymbols demoGuest (fun _ => 99) "Dog" builtinBridge).map
      fun r => (r.2.Get r.1 "toString", r.2.live.map fun e => e.2.name))
      = some (Value.object 0, ["", "speak", "name"]) := by
  refine ⟨by decide, by decide⟩

/-- The guest call `prototype->Set(name, v)` on a plain object: the name then reads as
`v`, and every other name as before. -/
theorem Set_Get_plain (b : Bridge) (prototype : Nat) (k : String) (v : Value)
    (hp : b.plain prototype) :
    (b.Set prototype k v).Get prototype k = v ∧
    ∀ m, m ≠ k → (b.Set prototype k v).Get prototype m = b.Get prototype m := by
  obtain ⟨props, hp⟩ := hp
  have hlt : prototype < b.objs.length := lt_of_getElem?_eq_some _ _ _ hp
  have hset : b.Set prototype k v
      = { b with objs := b.objs.set prototype (GObj.object (assocSet k v props) none) } := by
    simp [Bridge.Set, hp, GObj.setKey]
  have hp2 : (b.Set prototype k v).objs[prototype]?
      = some (GObj.object (assocSet k v props) none) := by
    rw [hset]
    show (b.objs.set prototype _)[prototype]? = _
    rw [List.getElem?_set_self hlt]
  have hinh : (b.Set prototype k v).inherited = b.inherited := by rw [hset]
  refine ⟨?_, fun m hm => ?_⟩
  · rw [Get_of_plain _ _ _ hp2, assocSet_lookup]; simp
  · rw [Get_of_plain _ _ _ hp2, Get_of_plain _ _ _ hp, assocSet_lookup, if_neg hm, hinh]

/-- What `fixup_prototype` does when the prototype has the guest function `fn` under
`to_js`, by what the guest engine answers. -/
theorem fixup_prototype_spec (g : Guest) (prototype : Nat) (b1 : Bridge) (fn : Nat)
    (hget : b1.Get prototype string_to_js = Value.object fn)
    (hfn : b1.IsFunction fn = true) :
    (∀ tc b2, g.Call fn b1 = (Completion.caught tc, b2) →
      fixup_prototype g prototype b1 = none) ∧
    (∀ to_js b2, g.Call fn b1 = (Completion.value to_js, b2) →
      (∀ tc b3, g.Compile (g.ToString to_js) b2 = (Except.error tc, b3) →
        fixup_prototype g prototype b1 = some (b3.set_perl_error tc)) ∧
      (∀ script b3, g.Compile (g.ToString to_js) b2 = (Except.ok script, b3) →
        (∀ tc b4, g.Run script b3 = (Completion.caught tc, b4) →
          fixup_prototype g prototype b1 = some (b4.set_perl_error tc)) ∧
        (∀ f b4, g.Run script b3 = (Completion.value (Value.object f), b4) →
          b4.IsFunction f = true →
          fixup_prototype g prototype b1
            = some (b4.Set prototype string_to_js (Value.object f))) ∧
        (∀ v b4, g.Run script b3 = (Completion.value v, b4) →
          (∀ f, v = Value.object f → b4.IsFunction f = false) →
          fixup_prototype g prototype b1 = some (b4.set_perl_error g.nothing_caught)))) := by
  refine ⟨fun tc b2 hc => ?_, fun to_js b2 hc => ⟨fun tc b3 hk => ?_, fun script b3 hk =>
    ⟨fun tc b4 hr => ?_, fun f b4 hr hf => ?_, fun v b4 hr hv => ?_⟩⟩⟩
  · simp only [fixup_prototype, hget, hfn, if_true, hc]
  · simp only [fixup_prototype, hget, hfn, if_true, hc, hk]
  · simp only [fixup_prototype, hget, hfn, if_true, hc, hk, hr]
  · simp only [fixup_prototype, hget, hfn, if_true, hc, hk, hr, hf]
  · cases v with
    | object f =>
      simp only [fixup_prototype, hget, hfn, if_true, hc, hk, hr, hv f rfl,
        Bool.false_eq_true, if_false]
    | _ => simp only [fixup_prototype, hget, hfn, if_true, hc, hk, hr]

/-- C14, amended: for a class whose ancestors all have a stash, and whose `to_js`, where
declared, resolves to a code value, filling the new prototype succeeds and every name
declared in some ancestor is then present. A declared name `m` that the new prototype does
not reach through its prototype chain is bound to the guest function of the one live
wrapper created while the first ancestor `c` declaring `m` was processed: for `to_js` a
function wrapper of the code value found from the stash of `c`, otherwise a method wrapper
named `m`. Processing the rest of the ancestor list keeps every name present where it is
and bound as it is. `get_prototype` returns what `fixup_prototype` makes of this
prototype: the prototype itself when no ancestor declares `to_js` and none is inherited;
when the prototype has a guest function under `to_js`, `fixup_prototype` calls it, has no
result when the call throws, sets the host error variable when the text returned does not
compile or does not run to a guest function, and otherwise stores the function the text
runs to under `to_js`, in place of the function of the wrapper, leaving every other name
of the prototype as the guest calls left it. -/
theorem prototype_first_occurrence (sizeof_PerlObjectData : Nat) (sym : Symbols)
    (g : Guest) (uninit : Nat → Nat) (package : String) (b : Bridge) (isa : List String)
    (hcache : b.prototypes.lookup package = none)
    (hisa : sym.mro_get_linear_isa package = some isa)
    (hstash : ∀ c ∈ isa, (sym.gv_stashsv c).isSome = true)
    (hfetch : ∀ c ∈ isa, string_to_js ∈ declared sym c →
      (sym.gv_fetchmethod c string_to_js).isSome = true)
    (hlive : b.liveBelow) :
    ∃ b1, fill_prototype_isa sizeof_PerlObjectData sym uninit b.objs.length package
        (b.cache_prototype package) = some b1 ∧
      (∀ c ∈ isa, ∀ m ∈ declared sym c, b1.Has b.objs.length m = true) ∧
      (∀ pre c post m, isa = pre ++ c :: post → m ∈ declared sym c →
        (∀ c1 ∈ pre, m ∉ declared sym c1) → b.inherited.lookup m = none →
        ∃ bp bc,
          fill_prototype_isa_loop sizeof_PerlObjectData sym uninit b.objs.length pre
            (b.cache_prototype package) = some bp ∧
          fill_prototype_stash sizeof_PerlObjectData sym uninit b.objs.length c bp
            = some bc ∧
          fill_prototype_isa_loop sizeof_PerlObjectData sym uninit b.objs.length post bc
            = some b1 ∧
          bp.Has b.objs.length m = false ∧
          ∃ this data, bp.next ≤ this ∧ this < bc.next ∧
            b1.live.lookup this = some data ∧
            b1.Get b.objs.length m = Value.object data.object ∧
            b1.IsFunction data.object = true ∧
            (m = string_to_js → data.cls = WrapperClass.PerlFunctionData ∧
              data.sv.isSome = true ∧ data.sv = sym.gv_fetchmethod c string_to_js) ∧
            (m ≠ string_to_js → data.cls = WrapperClass.PerlMethodData ∧
              data.name = m ∧ data.sv = none)) ∧
      (∀ pre post, isa = pre ++ post →
        ∃ bp,
          fill_prototype_isa_loop sizeof_PerlObjectData sym uninit b.objs.length pre
            (b.cache_prototype package) = some bp ∧
          fill_prototype_isa_loop sizeof_PerlObjectData sym uninit b.objs.length post bp
            = some b1 ∧
          ∀ m, bp.Has b.objs.length m = true →
            b1.Has b.objs.length m = true ∧
            b1.Get b.objs.length m = bp.Get b.objs.length m) ∧
      get_prototype sizeof_PerlObjectData sym g uninit package b
        = (fixup_prototype g b.objs.length b1).map (fun b2 => (b.objs.length, b2)) ∧
      ((∀ c ∈ isa, string_to_js ∉ declared sym c) →
        b.inherited.lookup string_to_js = none →
        get_prototype sizeof_PerlObjectData sym g uninit package b
          = some (b.objs.length, b1)) ∧
      (∀ fn, b1.Get b.objs.length string_to_js = Value.object fn →
        b1.IsFunction fn = true →
        (∀ tc b2, g.Call fn b1 = (Completion.caught tc, b2) →
          get_prototype sizeof_PerlObjectData sym g uninit package b = none) ∧
        (∀ to_js b2, g.Call fn b1 = (Completion.value to_js, b2) →
          (∀ tc b3, g.Compile (g.ToString to_js) b2 = (Except.error tc, b3) →
            get_prototype sizeof_PerlObjectData sym g uninit package b
              = some (b.objs.length, b3.set_perl_error tc)) ∧
          (∀ script b3, g.Compile (g.ToString to_js) b2 = (Except.ok script, b3) →
            (∀ tc b4, g.Run script b3 = (Completion.caught tc, b4) →
              get_prototype sizeof_PerlObjectData sym g uninit package b
                = some (b.objs.length, b4.set_perl_error tc)) ∧
            (∀ f b4, g.Run script b3 = (Completion.value (Value.object f), b4) →
              b4.IsFunction f = true →
              get_prototype sizeof_PerlObjectData sym g uninit package b
                = some (b.objs.length,
                    b4.Set b.objs.length string_to_js (Value.object f)) ∧
              (b4.plain b.objs.length →
                (b4.Set b.objs.length string_to_js (Value.object f)).Get b.objs.length
                    string_to_js = Value.object f ∧
                ∀ m, m ≠ string_to_js →
                  (b4.Set b.objs.length string_to_js (Value.object f)).Get b.objs.length m
                    = b4.Get b.objs.length m)) ∧
            (∀ v b4, g.Run script b3 = (Completion.value v, b4) →
              (∀ f, v = Value.object f → b4.IsFunction f = false) →
              get_prototype sizeof_PerlObjectData sym g uninit package b
                = some (b.objs.length, b4.set_perl_error g.nothing_caught))))) ∧
      b1.plain b.objs.length := by
  have hp0 := cache_prototype_plain b package
  have hl0 : (b.cache_prototype package).liveBelow := hlive
  obtain ⟨b1, e1, p1, l1, g1, a1, k1⟩ :=
    fill_prototype_isa_loop_spec sizeof_PerlObjectData sym uninit b.objs.length isa
      (b.cache_prototype package) hp0 hl0 hstash hfetch
  have hfill : fill_prototype_isa sizeof_PerlObjectData sym uninit b.objs.length package
      (b.cache_prototype package) = some b1 := by
    simp only [fill_prototype_isa, hisa]; exact e1
  have hget : get_prototype sizeof_PerlObjectData sym g uninit package b
      = (fixup_prototype g b.objs.length b1).map (fun b2 => (b.objs.length, b2)) := by
    simp only [get_prototype, hcache, hfill]
    cases fixup_prototype g b.objs.length b1 <;> rfl
  refine ⟨b1, hfill, k1, ?_, ?_, hget, ?_, ?_, p1⟩
  · intro pre c post m hsplit hm hpre hinh
    subst hsplit
    have hs1 : ∀ c1 ∈ pre, (sym.gv_stashsv c1).isSome = true := fun c1 h =>
      hstash c1 (List.mem_append_left _ h)
    have hf1 : ∀ c1 ∈ pre, string_to_js ∈ declared sym c1 →
        (sym.gv_fetchmethod c1 string_to_js).isSome = true := fun c1 h =>
      hfetch c1 (List.mem_append_left _ h)
    have hcin : c ∈ pre ++ c :: post :=
      List.mem_append_right _ (List.mem_cons_self _ _)
    obtain ⟨bp, ep, pp, lp, gp, ap, _⟩ :=
      fill_prototype_isa_loop_spec sizeof_PerlObjectData sym uninit b.objs.length pre
        (b.cache_prototype package) hp0 hl0 hs1 hf1
    obtain ⟨bc, ec, pc, lc, gc, _, kc⟩ :=
      fill_prototype_stash_spec sizeof_PerlObjectData sym uninit b.objs.length c bp pp lp
        (hstash c hcin) (hfetch c hcin)
    obtain ⟨b2, e2, _, _, g2, _, _⟩ :=
      fill_prototype_isa_loop_spec sizeof_PerlObjectData sym uninit b.objs.length post bc
        pc lc
        (fun c1 h => hstash c1 (List.mem_append_right _ (List.mem_cons_of_mem _ h)))
        (fun c1 h => hfetch c1 (List.mem_append_right _ (List.mem_cons_of_mem _ h)))
    have h21 : b2 = b1 := by
      have h := e1
      rw [fill_prototype_isa_loop_append, ep] at h
      simp only [Option.bind, fill_prototype_isa_loop, ec] at h
      rw [e2] at h
      exact Option.some.inj h
    subst h21
    have hnot : bp.Has b.objs.length m = false := by
      cases hx : bp.Has b.objs.length m with
      | false => rfl
      | true =>
        rcases ap m hx with h | ⟨c1, hc1, hm1⟩
        · rw [cache_prototype_Has, hinh] at h; cases h
        · exact absurd hm1 (hpre c1 hc1)
    obtain ⟨hhas, hbound⟩ := kc m hm
    obtain ⟨this, data, r1, r2, r3, r4, r5, r6, r7⟩ := hbound hnot
    exact ⟨bp, bc, ep, ec, e2, hnot, this, data, r1, r2, g2.live _ _ r3,
      (g2.has m hhas).2.trans r4, IsFunction_grows _ bc b2 _ g2 pc r5, r6, r7⟩
  · intro pre post hsplit
    subst hsplit
    obtain ⟨bp, ep, pp, lp, _, _, _⟩ :=
      fill_prototype_isa_loop_spec sizeof_PerlObjectData sym uninit b.objs.length pre
        (b.cache_prototype package) hp0 hl0
        (fun c1 h => hstash c1 (List.mem_append_left _ h))
        (fun c1 h => hfetch c1 (List.mem_append_left _ h))
    obtain ⟨b2, e2, _, _, g2, _, _⟩ :=
      fill_prototype_isa_loop_spec sizeof_PerlObjectData sym uninit b.objs.length post bp
        pp lp
        (fun c1 h => hstash c1 (List.mem_append_right _ h))
        (fun c1 h => hfetch c1 (List.mem_append_right _ h))
    have h21 : b2 = b1 := by
      have h := e1
      rw [fill_prototype_isa_loop_append, ep] at h
      simp only [Option.bind] at h
      rw [e2] at h
      exact Option.some.inj h
    subst h21
    exact ⟨bp, ep, e2, g2.has⟩
  · intro hno hinh
    have hnot : b1.Has b.objs.length string_to_js = false := by
      cases hx : b1.Has b.objs.length string_to_js with
      | false => rfl
      | true =>
        rcases a1 _ hx with h | ⟨c1, hc1, hm1⟩
        · rw [cache_prototype_Has, hinh] at h; cases h
        · exact absurd hm1 (hno c1 hc1)
    rw [hget]
    simp only [fixup_prototype, Get_of_not_Has _ _ _ hnot]
    rfl
  · intro fn hfn hisf
    obtain ⟨f1, f2⟩ := fixup_prototype_spec g b.objs.length b1 fn hfn hisf
    refine ⟨fun tc b2 hc => by rw [hget, f1 tc b2 hc]; rfl, fun to_js b2 hc => ?_⟩
    obtain ⟨f3, f4⟩ := f2 to_js b2 hc
    refine ⟨fun tc b3 hk => by rw [hget, f3 tc b3 hk]; rfl, fun script b3 hk => ?_⟩
    obtain ⟨f5, f6, f7⟩ := f4 script b3 hk
    refine ⟨fun tc b4 hr => by rw [hget, f5 tc b4 hr]; rfl, fun f b4 hr hf => ?_,
      fun v b4 hr hv => by rw [hget, f7 v b4 hr hv]; rfl⟩
    exact ⟨by rw [hget, f6 f b4 hr hf]; rfl,
      fun hp => Set_Get_plain b4 b.objs.length string_to_js (Value.object f) hp⟩

/-- Witness of C14, amended, in a context whose guest objects inherit `toString`: for
the class `Dog` with ancestor list `Dog`, `Animal`, the name `speak`, which both declare,
is bound to the guest function of a live method wrapper named `speak` that was created
while `Dog` was processed. -/
theorem prototype_first_occurrence_witness :
    demoSymbols.mro_get_linear_isa "Dog" = some ["Dog", "Animal"] ∧
    "speak" ∈ declared demoSymbols "Dog" ∧ "speak" ∈ declared demoSymbols "Animal" ∧
    ∃ b1 bc, fill_prototype_isa 48 demoSymbols (fun _ => 99) builtinBridge.objs.length "Dog"
        (builtinBridge.cache_prototype "Dog") = some b1 ∧
      fill_prototype_stash 48 demoSymbols (fun _ => 99) builtinBridge.objs.length "Dog"
        (builtinBridge.cache_prototype "Dog") = some bc ∧
      ∃ this data, this < bc.next ∧ b1.live.lookup this = some data ∧
        b1.Get builtinBridge.objs.length "speak" = Value.object data.object ∧
        data.cls = WrapperClass.PerlMethodData ∧ data.name = "speak" := by
  refine ⟨by decide, by decide, by decide, ?_⟩
  obtain ⟨b1, hfill, _, hA, _⟩ :=
    prototype_first_occurrence 48 demoSymbols demoGuest (fun _ => 99) "Dog" builtinBridge
      ["Dog", "Animal"] (by decide) (by decide) (by decide) (by decide)
      (fun e he => by cases he)
  obtain ⟨bp, bc, hp, hc, _, _, this, data, _, h2, h3, h4, _, _, h6⟩ :=
    hA [] "Dog" ["Animal"] "speak" rfl (by decide) (fun c1 h => by cases h) (by decide)
  have hbp : bp = builtinBridge.cache_prototype "Dog" := by
    simp only [fill_prototype_isa_loop, Option.some.injEq] at hp
    exact hp.symm
  subst hbp
  obtain ⟨h7, h8, _⟩ := h6 (by decide)
  exact ⟨b1, bc, hfill, hc, this, data, h2, h3, h4, h7, h8⟩

/-- The destructor `~ObjectData` runs `remove_object` on a `ptr` that a method wrapper
never set: were a method wrapper deleted while its memory held `3` there, the entry of
the live object wrapper for the host value `3` would be erased, and the reference count
of `my_sv` (address `7`) lowered to `1` although the method wrapper never raised it and
the object wrapper is still live. No call site of the source deletes a method wrapper:
`PerlObjectData::PerlObjectData` returns before `object.MakeWeak` when there is no host
value, so the finalizer `PerlObjectData::destroy` is never armed for it. -/
theorem method_wrapper_delete_erases :
    (new_PerlMethodData 48 (new_PerlObjectData 48 demoBridge 0 (some 3) 99).2
      "hello" 3).2.seen_perl = [(3, 0)] ∧
    ((delete_wrapper (new_PerlMethodData 48 (new_PerlObjectData 48 demoBridge 0 (some 3)
        99).2 "hello" 3).2 1).map
      fun b => (b.seen_perl, b.live.map Prod.fst, b.SvREFCNT 7)) = some ([], [0], 1) := by
  refine ⟨by decide, by decide⟩

/-- Filling a prototype constructs a function wrapper for the code value of `to_js`
without consulting the identity map: when that code value (`5`) has a live wrapper
already, a second one is created and takes over the entry. -/
theorem to_js_wrapped_twice :
    ((fill_prototype_isa 48 demoSymbols (fun _ => 99) 2 "Dog"
        ((new_PerlFunctionData 48 demoBridge (some 5) 99).2.cache_prototype "Dog")).map
      fun b => (b.seen_perl, b.live.map fun e => (e.1, e.2.sv)))
      = some ([(5, 1)], [(0, some 5), (1, some 5), (2, none), (3, none), (4, none)]) := by
  decide

end V8Bridge
